import Mathlib

/-!
# I-Bus protocol core (`ibus_protocol.c`) — shallow embedding

The decoder state of `ibus_protocol.c` (the RX array, its logical length, the
head-unit state and the hijack target) is an explicit record.  The RX array is
a map from offsets to bytes; only offsets below `IBUS_DATA_SIZE` belong to the
array.  Calls of the four platform hooks are recorded, in order, in the field
`platform_calls`.
-/

namespace Ibus

/-! ## Constants of `ibus_protocol.h` -/

def IBUS_POS_SENDER : Nat := 0
def IBUS_POS_LENGTH : Nat := 1
def IBUS_POS_RECEIVER : Nat := 2
def IBUS_POS_MESSAGE : Nat := 3
def IBUS_POS_DATA_START : Nat := 4

def IBUS_SENDER_AND_LENGTH_LEN : Nat := 2
def IBUS_MIN_MESSAGE_LEN : Nat := 5
def IBUS_MAX_MESSAGE_LEN : Nat := 257

def IBUS_DEV_GT : Nat := 0x3B
def IBUS_DEV_RAD : Nat := 0x68
def IBUS_DEV_MFL : Nat := 0x50
def IBUS_DEV_BMBT : Nat := 0xF0

def IBUS_MSG_UMID : Nat := 0x23
def IBUS_MSG_MFLB : Nat := 0x32
def IBUS_MSG_MFLB2 : Nat := 0x3B
def IBUS_MSG_LCDC : Nat := 0x46
def IBUS_MSG_BMBTB0 : Nat := 0x47
def IBUS_MSG_BMBTB1 : Nat := 0x48
def IBUS_MSG_KNOB : Nat := 0x49
def IBUS_MSG_ST : Nat := 0xA5

def IBUS_BTN_FLAG_LONG_PRESS : Nat := 0x40
def IBUS_BTN_FLAG_RELEASE : Nat := 0x80
def IBUS_BTN_RADIO_POWER : Nat := 0x06
def IBUS_BTN_MENU_KNOB_CW_MASK : Nat := 0x80
def IBUS_BTN_SELECT_TAPE_MODE : Nat := 0x0F
def IBUS_MFL2_BTN_RELEASE : Nat := 0x20
def IBUS_MFL2_BTN_CH_UP : Nat := 0x01
def IBUS_MFL2_BTN_CH_DOWN : Nat := 0x08
def IBUS_BTN_IDX_SELECT_TAPE : Nat := 0x37
def IBUS_BTN_IDX_MFL2_CH_UP : Nat := 0x38
def IBUS_BTN_IDX_MFL2_CH_DOWN : Nat := 0x39

/-- Size of the RX array: `sizeof(ibus_data)` = `IBUS_MAX_MESSAGE_LEN * 8`. -/
def IBUS_DATA_SIZE : Nat := IBUS_MAX_MESSAGE_LEN * 8

/-- Head-unit state, the enum `ibus_state_t`. -/
inductive ibus_state_t
  | IBUS_STATE_UNKNOWN
  | IBUS_STATE_POWER_OFF
  | IBUS_STATE_MENU
  | IBUS_STATE_FM
  | IBUS_STATE_TAPE
  | IBUS_STATE_AUX
  | IBUS_STATE_CD_CHANGER
  deriving DecidableEq, Repr

open ibus_state_t

/-- One call of a platform hook, with the arguments it received.  For
`ibus_platform_log_message(msg, len)` the record holds the `len` bytes the
pointer `msg` designates, and `len` itself. -/
inductive Event
  | state_changed (new_state hijack_state : ibus_state_t)
  | button_event (button_code released long_press : Nat)
  | knob_event (clockwise steps : Nat)
  | log_message (msg : List Nat) (len : Nat)
  deriving DecidableEq, Repr

/-- The file-scope variables of `ibus_protocol.c`, and the hook calls made so far. -/
structure IbusCore where
  ibus_data : Nat → Nat
  ibus_data_index : Nat
  ibus_state : ibus_state_t
  ibus_hijack_state : ibus_state_t
  platform_calls : List Event

/-- C `memset(&a[start], 0, n)` on an array seen as a map from offsets to bytes. -/
def memset_zero (a : Nat → Nat) (start n : Nat) : Nat → Nat :=
  fun i => if start ≤ i ∧ i < start + n then 0 else a i

/-- C `memmove(&a[0], &a[src], n)`: the `n` bytes at `src..` are copied to offset 0. -/
def memmove_front (a : Nat → Nat) (src n : Nat) : Nat → Nat :=
  fun i => if i < n then a (src + i) else a i

/-- The decoder as the C runtime leaves it before `main`: static storage is
zero-initialised, both states are `IBUS_STATE_UNKNOWN`, no hook was called. -/
def ibus_startup : IbusCore :=
  { ibus_data := fun _ => 0
    ibus_data_index := 0
    ibus_state := IBUS_STATE_UNKNOWN
    ibus_hijack_state := IBUS_STATE_UNKNOWN
    platform_calls := [] }

/-! ## Platform hooks: each call is recorded -/

def ibus_platform_state_changed (s : IbusCore) (new_state hijack_state : ibus_state_t) :
    IbusCore :=
  { s with platform_calls := s.platform_calls ++ [Event.state_changed new_state hijack_state] }

def ibus_platform_button_event (s : IbusCore) (button_code released long_press : Nat) :
    IbusCore :=
  { s with platform_calls :=
      s.platform_calls ++ [Event.button_event button_code released long_press] }

def ibus_platform_knob_event (s : IbusCore) (clockwise steps : Nat) : IbusCore :=
  { s with platform_calls := s.platform_calls ++ [Event.knob_event clockwise steps] }

def ibus_platform_log_message (s : IbusCore) (len : Nat) : IbusCore :=
  { s with platform_calls :=
      s.platform_calls ++ [Event.log_message ((List.range len).map s.ibus_data) len] }

/-! ## Accessors -/

/-- The declared message length, truncated to `uint8_t` as in the source. -/
def ibus_get_message_length (s : IbusCore) : Nat :=
  (s.ibus_data IBUS_POS_LENGTH + IBUS_SENDER_AND_LENGTH_LEN) % 256

def ibus_get_data_length (s : IbusCore) : Nat :=
  let len := ibus_get_message_length s
  if len ≤ IBUS_MIN_MESSAGE_LEN then 0 else (len - IBUS_MIN_MESSAGE_LEN) % 256

def ibus_get_sender (s : IbusCore) : Nat := s.ibus_data IBUS_POS_SENDER

def ibus_get_receiver (s : IbusCore) : Nat := s.ibus_data IBUS_POS_RECEIVER

def ibus_get_message (s : IbusCore) : Nat := s.ibus_data IBUS_POS_MESSAGE

def ibus_get_data_byte (s : IbusCore) (idx : Nat) : Nat :=
  s.ibus_data (IBUS_POS_DATA_START + idx)

/-- The loop of `ibus_calc_checksum`: XOR of the bytes at `i, i+1, ..` (`count` of them)
into the `uint8_t` accumulator `checksum`. -/
def ibus_calc_checksum_loop (a : Nat → Nat) : Nat → Nat → Nat → Nat
  | _, 0, checksum => checksum
  | i, count + 1, checksum => ibus_calc_checksum_loop a (i + 1) count ((checksum ^^^ a i) % 256)

def ibus_calc_checksum (s : IbusCore) (checksum_index : Nat) : Nat :=
  ibus_calc_checksum_loop s.ibus_data 0 checksum_index 0

/-! ## Text search (`strstr` over the data region) -/

/-- C `strlen` of the string starting at offset `start`, when `room` bytes of the
array remain from `start` on: `none` when no NUL lies inside the array, so that the
scan would leave it. -/
def c_strlen (a : Nat → Nat) : Nat → Nat → Option Nat
  | _, 0 => none
  | start, room + 1 =>
    if a start = 0 then some 0 else (c_strlen a (start + 1) room).map (· + 1)

/-- Whether the byte list `tag` stands at the head of `hay`. -/
def starts_with : List Nat → List Nat → Bool
  | _, [] => true
  | [], _ :: _ => false
  | h :: hay, t :: tag => h == t && starts_with hay tag

/-- C `strstr(hay, tag) != NULL` on the bytes of a string (NUL excluded). -/
def strstr_found : List Nat → List Nat → Bool
  | [], tag => starts_with [] tag
  | h :: hay, tag => starts_with (h :: hay) tag || strstr_found hay tag

/-- The bytes of the string literal `tag`. -/
def tag_bytes (tag : String) : List Nat := tag.toList.map Char.toNat

/-- Result of `ibus_data_contains(tag)`; `none` when the string starting at the data
offset has no terminating NUL inside `ibus_data` (the search reads past the array). -/
def ibus_data_contains (s : IbusCore) (tag : List Nat) : Option Bool :=
  (c_strlen s.ibus_data IBUS_POS_DATA_START (IBUS_DATA_SIZE - IBUS_POS_DATA_START)).map
    (fun n => strstr_found ((List.range n).map (fun k => s.ibus_data (IBUS_POS_DATA_START + k))) tag)

/-! ## State handling -/

def ibus_change_state (s : IbusCore) (new_state : ibus_state_t) : IbusCore :=
  if s.ibus_state = new_state then s
  else
    let s1 := { s with ibus_state := new_state }
    ibus_platform_state_changed s1 s1.ibus_state s1.ibus_hijack_state

def ibus_get_state (s : IbusCore) : ibus_state_t := s.ibus_state

def ibus_reset_buffer (s : IbusCore) : IbusCore :=
  { s with ibus_data := memset_zero s.ibus_data 0 IBUS_DATA_SIZE, ibus_data_index := 0 }

/-- The argument is converted to `uint8_t` at the call. -/
def ibus_append_byte (s : IbusCore) (byte : Nat) : IbusCore :=
  if s.ibus_data_index ≥ IBUS_DATA_SIZE then ibus_reset_buffer s
  else
    { s with
      ibus_data := fun i => if i = s.ibus_data_index then byte % 256 else s.ibus_data i
      ibus_data_index := s.ibus_data_index + 1 }

def ibus_has_pending_data (s : IbusCore) : Bool := decide (s.ibus_data_index > 0)

def ibus_init (s : IbusCore) (hijack_state : ibus_state_t) : IbusCore :=
  { ibus_reset_buffer s with
    ibus_state := IBUS_STATE_UNKNOWN
    ibus_hijack_state := hijack_state }

/-! ## Button and knob decoding (the dispatch part of `ibus_process_messages`) -/

/-- Locals `databyte`, `released`, `longPress` after the flag extraction. -/
structure BtnFlags where
  databyte : Nat
  released : Nat
  longPress : Nat
  deriving DecidableEq, Repr

/-- The flag extraction of the BMBTB1 and BMBTB0 branches:
`if (databyte & LONG_PRESS) {..} else if (databyte & RELEASE) {..}`;
`databyte &= ~FLAG` on a `uint8_t` keeps the other seven bits. -/
def ibus_bmbt_flags (databyte : Nat) : BtnFlags :=
  if databyte &&& IBUS_BTN_FLAG_LONG_PRESS ≠ 0 then
    { databyte := databyte &&& (255 - IBUS_BTN_FLAG_LONG_PRESS), released := 0, longPress := 1 }
  else if databyte &&& IBUS_BTN_FLAG_RELEASE ≠ 0 then
    { databyte := databyte &&& (255 - IBUS_BTN_FLAG_RELEASE), released := 1, longPress := 0 }
  else
    { databyte := databyte, released := 0, longPress := 0 }

/-- Step "1) Handle button-related messages" of `ibus_process_messages`. -/
def ibus_handle_buttons (s : IbusCore) : IbusCore :=
  let sender := ibus_get_sender s
  let receiver := ibus_get_receiver s
  let msg := ibus_get_message s
  let data_len := ibus_get_data_length s
  if sender = IBUS_DEV_BMBT then
    if msg = IBUS_MSG_BMBTB1 ∧ data_len ≥ 1 then
      let f := ibus_bmbt_flags (ibus_get_data_byte s 0)
      let s1 :=
        if f.databyte = IBUS_BTN_RADIO_POWER then ibus_change_state s IBUS_STATE_POWER_OFF
        else s
      ibus_platform_button_event s1 f.databyte f.released f.longPress
    else if msg = IBUS_MSG_BMBTB0 ∧ data_len ≥ 2 then
      let f := ibus_bmbt_flags (ibus_get_data_byte s 1)
      if f.databyte = IBUS_BTN_SELECT_TAPE_MODE then
        ibus_platform_button_event s IBUS_BTN_IDX_SELECT_TAPE f.released f.longPress
      else s
    else if msg = IBUS_MSG_KNOB ∧ data_len ≥ 1 then
      let d := ibus_get_data_byte s 0
      let clockwise := if d &&& IBUS_BTN_MENU_KNOB_CW_MASK ≠ 0 then 1 else 0
      let databyte :=
        if d &&& IBUS_BTN_MENU_KNOB_CW_MASK ≠ 0 then d &&& (255 - IBUS_BTN_MENU_KNOB_CW_MASK)
        else d
      if databyte > 0 then ibus_platform_knob_event s clockwise databyte else s
    else if msg = IBUS_MSG_MFLB ∧ data_len ≥ 1 then s
    else s
  else if sender = IBUS_DEV_MFL ∧ receiver = IBUS_DEV_RAD then
    if msg = IBUS_MSG_MFLB ∧ data_len ≥ 1 then s
    else if msg = IBUS_MSG_MFLB2 ∧ data_len ≥ 1 then
      let d := ibus_get_data_byte s 0
      let released := if d &&& IBUS_MFL2_BTN_RELEASE ≠ 0 then 1 else 0
      let databyte :=
        if d &&& IBUS_MFL2_BTN_RELEASE ≠ 0 then d &&& (255 - IBUS_MFL2_BTN_RELEASE) else d
      if databyte &&& IBUS_MFL2_BTN_CH_UP ≠ 0 then
        ibus_platform_button_event s IBUS_BTN_IDX_MFL2_CH_UP released 0
      else if databyte &&& IBUS_MFL2_BTN_CH_DOWN ≠ 0 then
        ibus_platform_button_event s IBUS_BTN_IDX_MFL2_CH_DOWN released 0
      else s
    else s
  else s

/-! ## Head-unit state from UMID / ST / LCDC -/

/-- The function `ibus_handle_headunit_state`; `none` when a text search leaves the array. -/
def ibus_handle_headunit_state (s : IbusCore) : Option IbusCore :=
  if ibus_get_sender s = IBUS_DEV_RAD ∧ ibus_get_receiver s = IBUS_DEV_GT then
    let msg := ibus_get_message s
    if msg = IBUS_MSG_UMID then
      if ibus_get_data_length s > 0 ∧ ibus_get_data_byte s 0 = 0x62 then
        (ibus_data_contains s (tag_bytes "AUX")).bind fun aux =>
        if aux then some (ibus_change_state s IBUS_STATE_AUX)
        else (ibus_data_contains s (tag_bytes "CDC")).bind fun cdc =>
        if cdc then some (ibus_change_state s IBUS_STATE_CD_CHANGER)
        else (ibus_data_contains s (tag_bytes "TAPE")).bind fun tape =>
        if tape then some (ibus_change_state s IBUS_STATE_TAPE)
        else some s
      else some s
    else if msg = IBUS_MSG_ST then
      if ibus_get_data_length s > 0 ∧ ibus_get_data_byte s 0 = 0x62 then
        (ibus_data_contains s (tag_bytes "RDS")).bind fun rds =>
        if rds then some (ibus_change_state s IBUS_STATE_FM)
        else (ibus_data_contains s (tag_bytes "FM")).bind fun fm =>
        if fm then some (ibus_change_state s IBUS_STATE_FM)
        else (ibus_data_contains s (tag_bytes "REG")).bind fun reg =>
        if reg then some (ibus_change_state s IBUS_STATE_FM)
        else (ibus_data_contains s (tag_bytes "MWA")).bind fun mwa =>
        if mwa then some (ibus_change_state s IBUS_STATE_FM)
        else some s
      else some s
    else if msg = IBUS_MSG_LCDC then
      if ibus_get_data_length s = 1 then
        let d0 := ibus_get_data_byte s 0
        if d0 = 0x01 ∨ d0 = 0x02 then some (ibus_change_state s IBUS_STATE_MENU) else some s
      else some s
    else some s
  else some s

/-! ## The drain `ibus_process_messages` -/

/-- Step "3) Remove this message from the buffer": `memmove`, index update, `memset`. -/
def ibus_remove_message (s : IbusCore) (cur_len : Nat) : IbusCore :=
  let moved := memmove_front s.ibus_data cur_len (s.ibus_data_index - cur_len)
  let idx := s.ibus_data_index - cur_len
  { s with ibus_data := memset_zero moved idx cur_len, ibus_data_index := idx }

/-- Steps "1) Handle button-related messages" and "2) Handle headunit state messages
(only if hijack mode is set)" of the loop body; `none` when the text search of step 2
leaves the array. -/
def ibus_dispatch (s1 : IbusCore) : Option IbusCore :=
  let s2 := ibus_handle_buttons s1
  if s2.ibus_hijack_state ≠ IBUS_STATE_UNKNOWN then ibus_handle_headunit_state s2
  else some s2

/-- How one pass through the body of the `while` loop ends. -/
inductive Pass
  | stop (s : IbusCore)
  | again (s : IbusCore)
  | fault

/-- The body of the `while` loop of `ibus_process_messages`: `stop` is a `break` or a
`return`, `again` is reaching the end of the body, `fault` a read past the array. -/
def ibus_process_pass (s : IbusCore) : Pass :=
  if s.ibus_data_index < IBUS_MIN_MESSAGE_LEN then Pass.stop s
  else
    let cur_len := ibus_get_message_length s
    if s.ibus_data_index < cur_len then Pass.stop s
    else
      let checksum_index := (cur_len + 256 - 1) % 256
      if ibus_calc_checksum s checksum_index ≠ s.ibus_data checksum_index then
        Pass.stop (ibus_reset_buffer s)
      else
        match ibus_dispatch (ibus_platform_log_message s cur_len) with
        | none => Pass.fault
        | some s3 =>
          if s3.ibus_data_index ≥ cur_len then Pass.again (ibus_remove_message s3 cur_len)
          else Pass.stop (ibus_reset_buffer s3)

/-- How a call of `ibus_process_messages` ends: it returns with the decoder in state
`s`, or a text search read past the array, or the passes allowed were used up. -/
inductive Drain
  | returned (s : IbusCore)
  | fault
  | out_of_fuel

/-- The `while (ibus_data_index > 0)` loop, with at most `fuel` passes. -/
def ibus_process_loop : Nat → IbusCore → Drain
  | 0, _ => Drain.out_of_fuel
  | fuel + 1, s =>
    if s.ibus_data_index > 0 then
      match ibus_process_pass s with
      | Pass.stop s1 => Drain.returned s1
      | Pass.again s1 => ibus_process_loop fuel s1
      | Pass.fault => Drain.fault
    else Drain.returned s

/-- The drain.  A pass that ends in `again` with a non-zero `cur_len` shortens the
buffered data, so `ibus_data_index + 1` passes are enough whenever the C loop ends
(`ibus_process_loop_fuel_enough`). -/
def ibus_process_messages (s : IbusCore) : Drain :=
  ibus_process_loop (s.ibus_data_index + 1) s

/-- The decoder state a drain returned with, if it returned. -/
def Drain.state? : Drain → Option IbusCore
  | Drain.returned s => some s
  | _ => none

/-- Feeding bytes with `ibus_append_byte`, no drain in between. -/
def ibus_feed (s : IbusCore) (bytes : List Nat) : IbusCore :=
  bytes.foldl ibus_append_byte s

/-- An event that is a call of `ibus_platform_log_message`. -/
def Event.is_log : Event → Bool
  | Event.log_message _ _ => true
  | _ => false

/-- The state `s1` differs from `s` at most in the head-unit state and by further hook
calls, none of them a log call. -/
def dispatched (s s1 : IbusCore) : Prop :=
  s1.ibus_data = s.ibus_data ∧ s1.ibus_data_index = s.ibus_data_index ∧
  s1.ibus_hijack_state = s.ibus_hijack_state ∧
  ∃ evs : List Event, s1.platform_calls = s.platform_calls ++ evs ∧ ∀ e ∈ evs, e.is_log = false

/-- XOR of a list of bytes (the checksum the wire format asks for). -/
def xor_bytes (l : List Nat) : Nat := l.foldl (fun c b => c ^^^ b) 0

/-- The `n` bytes of the RX array at offsets `off, off+1, ..`. -/
def buffer_slice (s : IbusCore) (off n : Nat) : List Nat :=
  (List.range n).map (fun k => s.ibus_data (off + k))

/-- Every element of the RX array is a byte (`uint8_t`). -/
def bytes_ok (s : IbusCore) : Prop := ∀ i, s.ibus_data i < 256

/-- The RX array is zero from the logical length on. -/
def zero_tail (s : IbusCore) : Prop :=
  ∀ i, s.ibus_data_index ≤ i → i < IBUS_DATA_SIZE → s.ibus_data i = 0

/-- The decoder holding exactly the bytes `bytes` at the start of a zero RX array. -/
def ibus_holding (bytes : List Nat) (state hijack : ibus_state_t) (calls : List Event) :
    IbusCore :=
  { ibus_data := fun i => bytes.getD i 0
    ibus_data_index := bytes.length
    ibus_state := state
    ibus_hijack_state := hijack
    platform_calls := calls }

/-- The pass accepts a candidate whose declared length was truncated to 0: at least 5
bytes are buffered, `(uint8_t)(buffer[1] + 2)` is 0, and the XOR of bytes `0..254` equals
byte 255. -/
def zero_length_candidate (s : IbusCore) : Prop :=
  IBUS_MIN_MESSAGE_LEN ≤ s.ibus_data_index ∧ ibus_get_message_length s = 0 ∧
    ibus_calc_checksum s 255 = s.ibus_data 255

/-- The decoder after bit `k` of the buffered byte at offset `p` was flipped. -/
def flip_bit (s : IbusCore) (p k : Nat) : IbusCore :=
  { s with ibus_data := fun i => if i = p then s.ibus_data p ^^^ 2 ^ k else s.ibus_data i }

/-- A byte list that is a checksum-valid frame of total length 5..255: its bytes are
`uint8_t` values, its length is its second byte plus 2, and its last byte is the XOR of
the bytes before it. -/
def valid_frame (f : List Nat) : Prop :=
  (∀ b ∈ f, b < 256) ∧ 5 ≤ f.length ∧ f.length ≤ 255 ∧ f.length = f.getD 1 0 + 2 ∧
    f.getD (f.length - 1) 0 = xor_bytes (f.take (f.length - 1))

instance (f : List Nat) : Decidable (valid_frame f) := by
  unfold valid_frame
  infer_instance

/-- The buffer of `s` holds exactly the bytes `l`: they stand at offsets `0..`, the logical
length is their number, and the rest of the array is zero. -/
def holds (s : IbusCore) (l : List Nat) : Prop :=
  s.ibus_data_index = l.length ∧ (∀ i, i < l.length → s.ibus_data i = l.getD i 0) ∧
    zero_tail s

/-- The text search from the data offset finds its NUL inside the array, or is never run
because the hijack target is `IBUS_STATE_UNKNOWN`. -/
def search_in_bounds (s : IbusCore) : Prop :=
  s.ibus_hijack_state = IBUS_STATE_UNKNOWN ∨
    ∃ z, IBUS_POS_DATA_START ≤ z ∧ z < IBUS_DATA_SIZE ∧ s.ibus_data z = 0

/-- The decoder `x` with the RX array and the logical length of `b`. -/
def with_buffer_of (x b : IbusCore) : IbusCore :=
  { x with ibus_data := b.ibus_data, ibus_data_index := b.ibus_data_index }

/-- Bytes delivered one at a time: each `ibus_append_byte` is followed by a call of
`ibus_process_messages`; the result is that of the first drain that does not return, or
the state after the last drain. -/
def ibus_feed_draining : IbusCore → List Nat → Drain
  | s, [] => Drain.returned s
  | s, b :: bs =>
    match ibus_process_messages (ibus_append_byte s b) with
    | Drain.returned s1 => ibus_feed_draining s1 bs
    | Drain.fault => Drain.fault
    | Drain.out_of_fuel => Drain.out_of_fuel

/-- A byte list on which the drain waits: its bytes are `uint8_t` values and it has fewer
than 5 bytes, or its length byte is at most 253 and it has fewer bytes than the length
byte plus 2. -/
def incomplete_candidate (t : List Nat) : Prop :=
  (∀ b ∈ t, b < 256) ∧ (t.length < 5 ∨ (t.getD 1 0 ≤ 253 ∧ t.length < t.getD 1 0 + 2))

instance (t : List Nat) : Decidable (incomplete_candidate t) := by
  unfold incomplete_candidate
  infer_instance

/-- The state `s1` differs from `s` at most in the head-unit state and by further hook
calls, all of them state-change calls. -/
def only_state_changes (s s1 : IbusCore) : Prop :=
  ∃ evs : List Event, s1.platform_calls = s.platform_calls ++ evs ∧
    ∀ e ∈ evs, ∃ st hj, e = Event.state_changed st hj

/-- The bytes an empty buffer holds after `bytes` were appended to it: a byte that arrives
at a full buffer clears the buffer and is dropped, so what stays is the last
`bytes.length % (IBUS_DATA_SIZE + 1)` bytes, each converted to `uint8_t`. -/
def kept_after_overflow (bytes : List Nat) : List Nat :=
  (bytes.drop (bytes.length - bytes.length % (IBUS_DATA_SIZE + 1))).map (· % 256)

/-- The data bytes of a frame: what stands between the message id and the checksum. -/
def frame_data (f : List Nat) : List Nat := (f.drop 4).take (f.length - 5)

/-- The byte list `l` contains the bytes of the text `tag` as a contiguous run. -/
def contains_text (l : List Nat) (tag : String) : Prop :=
  ∃ pre post : List Nat, l = pre ++ tag_bytes tag ++ post

/-- A call of the core API that writes the decoder (`ibus_init` apart). -/
inductive ibus_call
  | append_byte (byte : Nat)
  | process_messages
  | reset_buffer

/-- A sequence of API calls made one after the other, starting from the decoder `s`: the
result is that of the first `ibus_process_messages` that does not return, or the decoder
after the last call. -/
def ibus_run : IbusCore → List ibus_call → Drain
  | s, [] => Drain.returned s
  | s, ibus_call.append_byte b :: cs => ibus_run (ibus_append_byte s b) cs
  | s, ibus_call.reset_buffer :: cs => ibus_run (ibus_reset_buffer s) cs
  | s, ibus_call.process_messages :: cs =>
    match ibus_process_messages s with
    | Drain.returned s1 => ibus_run s1 cs
    | Drain.fault => Drain.fault
    | Drain.out_of_fuel => Drain.out_of_fuel

/-- The buffer invariant: the logical length does not exceed the array, and the array is
zero from the logical length on. -/
def buffer_inv (s : IbusCore) : Prop :=
  s.ibus_data_index ≤ IBUS_DATA_SIZE ∧ zero_tail s

/-- The state `s1` differs from `s` at most by a head-unit state set to PowerOff and by
further hook calls, whose state-change calls all carry PowerOff. -/
def only_power_off (s s1 : IbusCore) : Prop :=
  (s1.ibus_state = s.ibus_state ∨ s1.ibus_state = IBUS_STATE_POWER_OFF) ∧
  s1.ibus_hijack_state = s.ibus_hijack_state ∧
  ∃ evs : List Event, s1.platform_calls = s.platform_calls ++ evs ∧
    ∀ st hj, Event.state_changed st hj ∈ evs → st = IBUS_STATE_POWER_OFF

/-- What holds of a decoder initialised with hijack target Unknown when the hook calls
made before `ibus_init` were `c0`: the hijack target is Unknown, the head-unit state is
Unknown or PowerOff, and every state-change call made since carries PowerOff. -/
def hijack_unknown_inv (c0 : List Event) (s : IbusCore) : Prop :=
  s.ibus_hijack_state = IBUS_STATE_UNKNOWN ∧
  (s.ibus_state = IBUS_STATE_UNKNOWN ∨ s.ibus_state = IBUS_STATE_POWER_OFF) ∧
  ∃ evs : List Event, s.platform_calls = c0 ++ evs ∧
    ∀ st hj, Event.state_changed st hj ∈ evs → st = IBUS_STATE_POWER_OFF

/-! ## Diagnostic name tables of `main_linux.c` -/

/-- The initialisers of `IBUSDevices[256]` in `main_linux.c`, in source order. -/
def IBUSDevices : List String :=
  ["Body module", "0x01", "0x02", "0x03", "0x04", "0x05", "0x06", "0x07", "Sunroof Control",
    "0x09", "0x0A", "0x0B", "0x0C", "0x0D", "0x0E", "0x0F", "0x10", "0x11", "0x12", "0x13",
    "0x14", "0x15", "0x16", "0x17", "CD Changer", "0x19", "0x1A", "0x1B", "0x1C", "0x1D",
    "0x1E", "0x1F", "0x20", "0x21", "0x22", "0x23", "0x24", "0x25", "0x26", "0x27",
    "Radio controlled clock", "0x29", "0x2A", "0x2B", "0x2C", "0x2D", "0x2E", "0x2F",
    "Check control module", "0x31", "0x32", "0x33", "0x34", "0x35", "0x36", "0x37", "0x38",
    "0x39", "0x3A", "Graphics driver", "0x3C", "0x3D", "0x3E", "Diagnostic",
    "Remote control central locking", "0x41", "0x42", "0x43", "Immobiliser", "0x45",
    "Central information display", "0x47", "0x48", "0x49", "0x4A", "0x4B", "0x4C", "0x4D",
    "0x4E", "0x4F", "Multi function steering wheel", "Mirror memory", "0x52", "0x53", "0x54",
    "0x55", "0x56", "0x57", "0x58", "0x59", "0x5A", "Integrated heating and air conditioning",
    "0x5C", "0x5D", "0x5E", "0x5F", "Park distance control", "0x61", "0x62", "0x63", "0x64",
    "0x65", "0x66", "0x67", "Radio", "0x69", "Digital signal processing audio amplifier",
    "0x6B", "0x6C", "0x6D", "0x6E", "0x6F", "0x70", "0x71", "Seat memory", "Sirius Radio",
    "0x74", "0x75", "CD changer, DIN size", "0x77", "0x78", "0x79", "0x7A", "0x7B", "0x7C",
    "0x7D", "0x7E", "Navigation", "Instrument cluster electronics", "0x81", "0x82", "0x83",
    "0x84", "0x85", "0x86", "0x87", "0x88", "0x89", "0x8A", "0x8B", "0x8C", "0x8D", "0x8E",
    "0x8F", "0x90", "0x91", "0x92", "0x93", "0x94", "0x95", "0x96", "0x97", "0x98", "0x99",
    "0x9A", "Mirror memory", "Mirror memory", "0x9D", "0x9E", "0x9F", "Rear multi-info-display",
    "0xA1", "0xA2", "0xA3", "Air bag module", "0xA5", "0xA6", "0xA7", "0xA8", "0xA9", "0xAA",
    "0xAB", "0xAC", "0xAD", "0xAE", "0xAF", "Speed recognition system", "0xB1", "0xB2", "0xB3",
    "0xB4", "0xB5", "0xB6", "0xB7", "0xB8", "0xB9", "0xBA", "Navigation", "0xBC", "0xBD",
    "0xBE", "Global, broadcast address", "Multi-info display", "0xC1", "0xC2", "0xC3", "0xC4",
    "0xC5", "0xC6", "0xC7", "Telephone", "0xC9", "0xCA", "0xCB", "0xCC", "0xCD", "0xCE", "0xCF",
    "Light control module", "0xD1", "0xD2", "0xD3", "RDS channel list", "0xD5", "0xD6", "0xD7",
    "0xD8", "0xD9", "0xDA", "0xDB", "0xDC", "0xDD", "0xDE", "0xDF",
    "Integrated radio information system", "0xE1", "0xE2", "0xE3", "0xE4", "0xE5", "0xE6",
    "Front display", "Rain/Light Sensor", "0xE9", "0xEA", "0xEB", "0xEC", "Television", "0xEE",
    "0xEF", "On-board monitor operating part", "0xF1", "0xF2", "0xF3", "0xF4", "0xF5", "0xF6",
    "0xF7", "0xF8", "0xF9", "0xFA", "0xFB", "0xFC", "0xFD", "0xFE", "Local"]

/-- The initialisers of `IBUSMessages[256]` in `main_linux.c`, in source order. -/
def IBUSMessages : List String :=
  ["0x00", "Device status request", "Device status ready", "Bus status request", "Bus status",
    "0x05", "DIAG read memory", "DIAG write memory", "DIAG read coding data",
    "DIAG write coding data", "0x0A", "0x0B", "Vehicle control", "0x0D", "0x0E", "0x0F",
    "Ignition status request", "Ignition status", "IKE sensor status request",
    "IKE sensor status", "Country coding status request", "Country coding status",
    "Odometer request", "Odometer", "Speed/RPM", "Temperature", "IKE text display/Gong",
    "IKE text status", "Gong", "Temperature request", "0x1E", "UTC time and date", "0x20",
    "Radio Short cuts", "Text display confirmation", "Display Text", "Update ANZV", "0x25",
    "0x26", "0x27", "0x28", "0x29", "On-Board Computer State Update", "Telephone indicators",
    "0x2C", "0x2D", "0x2E", "0x2F", "0x30", "0x31", "MFL buttons", "0x33",
    "DSP Equalizer Button", "0x35", "0x36", "0x37", "CD status request", "CD status", "0x3A",
    "MFL buttons 2", "0x3C", "SDRS status request", "SDRS status", "0x3F",
    "Set On-Board Computer Data", "On-Board Computer Data Request", "0x42", "0x43", "0x44",
    "0x45", "LCD Clear", "BMBT buttons (local)", "BMBT buttons (RAD)", "KNOB button",
    "Cassette control", "Cassette status", "0x4C", "0x4D", "0x4E", "RGB Control", "0x50",
    "0x51", "0x52", "Vehicle data request", "Vehicle data status", "0x55", "0x56", "0x57",
    "0x58", "0x59", "Lamp status request", "Lamp status", "Instrument cluster lighting status",
    "0x5D", "0x5E", "0x5F", "0x60", "0x61", "0x62", "0x63", "0x64", "0x65", "0x66", "0x67",
    "0x68", "0x69", "0x6A", "0x6B", "0x6C", "0x6D", "0x6E", "0x6F", "0x70",
    "Rain sensor status request", "Remote Key buttons", "0x73", "EWS key status", "0x75",
    "0x76", "0x77", "Doors/windows status request", "Doors/windows status", "0x7B",
    "SHD status", "0x7D", "0x7E", "0x7F", "0x80", "0x81", "0x82", "0x83", "0x84", "0x85",
    "0x86", "0x87", "0x88", "0x89", "0x8A", "0x8B", "0x8C", "0x8D", "0x8E", "0x8F", "0x90",
    "0x91", "0x92", "0x93", "0x94", "0x95", "0x96", "0x97", "0x98", "0x99", "0x9A", "0x9B",
    "0x9C", "0x9D", "0x9E", "0x9F", "DIAG data", "0xA1", "Current position and time", "0xA3",
    "Current location", "Screen text", "0xA6", "TMC status request", "0xA8", "0xA9",
    "Navigation Control", "0xAB", "0xAC", "0xAD", "0xAE", "0xAF", "0xB0", "0xB1", "0xB2",
    "0xB3", "0xB4", "0xB5", "0xB6", "0xB7", "0xB8", "0xB9", "0xBA", "0xBB", "0xBC", "0xBD",
    "0xBE", "0xBF", "0xC0", "0xC1", "0xC2", "0xC3", "0xC4", "0xC5", "0xC6", "0xC7", "0xC8",
    "0xC9", "0xCA", "0xCB", "0xCC", "0xCD", "0xCE", "0xCF", "0xD0", "0xD1", "0xD2", "0xD3",
    "RDS channel list", "0xD5", "0xD6", "0xD7", "0xD8", "0xD9", "0xDA", "0xDB", "0xDC", "0xDD",
    "0xDE", "0xDF", "0xE0", "0xE1", "0xE2", "0xE3", "0xE4", "0xE5", "0xE6", "0xE7", "0xE8",
    "0xE9", "0xEA", "0xEB", "0xEC", "0xED", "0xEE", "0xEF", "0xF0", "0xF1", "0xF2", "0xF3",
    "0xF4", "0xF5", "0xF6", "0xF7", "0xF8", "0xF9", "0xFA", "0xFB", "0xFC", "0xFD", "0xFE",
    "0xFF"]

/-- Element `i` of a `static const char *T[256]` array with the initialisers `t`, for a
`uint8_t` index `i`: the elements after the last initialiser are null pointers (`none`). -/
def name_table_entry (t : List String) (i : Nat) : Option String := t[i % 256]?

/-- An upper-case hexadecimal digit. -/
def hex_digit (d : Nat) : Char := if d < 10 then Char.ofNat (48 + d) else Char.ofNat (55 + d)

/-- The fallback name `"0xNN"` of the byte value `n`. -/
def hex_fallback (n : Nat) : String := String.mk ['0', 'x', hex_digit (n / 16), hex_digit (n % 16)]

/-- A table entry of the `"0x.."` kind. -/
def is_hex_fallback (e : String) : Bool := e.data.take 2 == ['0', 'x']

/-- Index `i` of the table names a byte value, and if its entry is of the `"0x.."` kind it
is the fallback name of `i` itself. -/
def entry_aligned (t : List String) (i : Nat) : Bool :=
  match name_table_entry t i with
  | none => false
  | some e => !is_hex_fallback e || e == hex_fallback i

/-- The table is total and index-aligned on the byte values `0..255`. -/
def table_aligned (t : List String) : Bool := (List.range 256).all (entry_aligned t)

/-- The NUL-terminated string the text search reads when the buffer holds the bytes `l` at
the start of an otherwise zero array: the bytes from the data offset up to the first
zero. -/
def searched_text (l : List Nat) : List Nat :=
  (l.drop IBUS_POS_DATA_START).takeWhile (fun b => b != 0)

/-- The state the UMID branch of `ibus_handle_headunit_state` asks for when the searched
string is `text` and the current state is `st`. -/
def umid_text_state (text : List Nat) (st : ibus_state_t) : ibus_state_t :=
  if strstr_found text (tag_bytes "AUX") then IBUS_STATE_AUX
  else if strstr_found text (tag_bytes "CDC") then IBUS_STATE_CD_CHANGER
  else if strstr_found text (tag_bytes "TAPE") then IBUS_STATE_TAPE
  else st

/-- The state the ST branch of `ibus_handle_headunit_state` asks for when the searched
string is `text` and the current state is `st`. -/
def st_text_state (text : List Nat) (st : ibus_state_t) : ibus_state_t :=
  if strstr_found text (tag_bytes "RDS") || strstr_found text (tag_bytes "FM") ||
      strstr_found text (tag_bytes "REG") || strstr_found text (tag_bytes "MWA")
  then IBUS_STATE_FM else st

/-- A checksum-valid frame of the wire format, of total length 5..257
(`IBUS_MIN_MESSAGE_LEN`..`IBUS_MAX_MESSAGE_LEN`): its bytes are `uint8_t` values, its length
is its second byte plus 2, and its last byte is the XOR of the bytes before it. -/
def wire_frame (f : List Nat) : Prop :=
  (∀ b ∈ f, b < 256) ∧ 5 ≤ f.length ∧ f.length ≤ 257 ∧ f.length = f.getD 1 0 + 2 ∧
    f.getD (f.length - 1) 0 = xor_bytes (f.take (f.length - 1))

instance (f : List Nat) : Decidable (wire_frame f) := by
  unfold wire_frame
  infer_instance

/-! ## The drain when a text search that leaves the array goes on -/

/-- `ibus_data_contains(tag)` made total: a search that finds no NUL inside `ibus_data`
reads on past the array, and `past tag` stands for the answer it then gives. -/
def ibus_data_contains_past (past : List Nat → Bool) (s : IbusCore) (tag : List Nat) : Bool :=
  (ibus_data_contains s tag).getD (past tag)

/-- The function `ibus_handle_headunit_state`, with `ibus_data_contains_past` for the text
search. -/
def ibus_handle_headunit_state_past (past : List Nat → Bool) (s : IbusCore) : IbusCore :=
  if ibus_get_sender s = IBUS_DEV_RAD ∧ ibus_get_receiver s = IBUS_DEV_GT then
    let msg := ibus_get_message s
    if msg = IBUS_MSG_UMID then
      if ibus_get_data_length s > 0 ∧ ibus_get_data_byte s 0 = 0x62 then
        if ibus_data_contains_past past s (tag_bytes "AUX") then
          ibus_change_state s IBUS_STATE_AUX
        else if ibus_data_contains_past past s (tag_bytes "CDC") then
          ibus_change_state s IBUS_STATE_CD_CHANGER
        else if ibus_data_contains_past past s (tag_bytes "TAPE") then
          ibus_change_state s IBUS_STATE_TAPE
        else s
      else s
    else if msg = IBUS_MSG_ST then
      if ibus_get_data_length s > 0 ∧ ibus_get_data_byte s 0 = 0x62 then
        if ibus_data_contains_past past s (tag_bytes "RDS") then
          ibus_change_state s IBUS_STATE_FM
        else if ibus_data_contains_past past s (tag_bytes "FM") then
          ibus_change_state s IBUS_STATE_FM
        else if ibus_data_contains_past past s (tag_bytes "REG") then
          ibus_change_state s IBUS_STATE_FM
        else if ibus_data_contains_past past s (tag_bytes "MWA") then
          ibus_change_state s IBUS_STATE_FM
        else s
      else s
    else if msg = IBUS_MSG_LCDC then
      if ibus_get_data_length s = 1 then
        let d0 := ibus_get_data_byte s 0
        if d0 = 0x01 ∨ d0 = 0x02 then ibus_change_state s IBUS_STATE_MENU else s
      else s
    else s
  else s

/-- Steps 1 and 2 of the loop body, with `ibus_handle_headunit_state_past` for step 2. -/
def ibus_dispatch_past (past : List Nat → Bool) (s1 : IbusCore) : IbusCore :=
  let s2 := ibus_handle_buttons s1
  if s2.ibus_hijack_state ≠ IBUS_STATE_UNKNOWN then ibus_handle_headunit_state_past past s2
  else s2

/-- The body of the `while` loop of `ibus_process_messages`, with `ibus_dispatch_past` for
steps 1 and 2: no pass ends in `fault`. -/
def ibus_process_pass_past (past : List Nat → Bool) (s : IbusCore) : Pass :=
  if s.ibus_data_index < IBUS_MIN_MESSAGE_LEN then Pass.stop s
  else
    let cur_len := ibus_get_message_length s
    if s.ibus_data_index < cur_len then Pass.stop s
    else
      let checksum_index := (cur_len + 256 - 1) % 256
      if ibus_calc_checksum s checksum_index ≠ s.ibus_data checksum_index then
        Pass.stop (ibus_reset_buffer s)
      else
        let s3 := ibus_dispatch_past past (ibus_platform_log_message s cur_len)
        if s3.ibus_data_index ≥ cur_len then Pass.again (ibus_remove_message s3 cur_len)
        else Pass.stop (ibus_reset_buffer s3)

/-- The `while (ibus_data_index > 0)` loop over `ibus_process_pass_past`, with at most
`fuel` passes. -/
def ibus_process_loop_past (past : List Nat → Bool) : Nat → IbusCore → Drain
  | 0, _ => Drain.out_of_fuel
  | fuel + 1, s =>
    if s.ibus_data_index > 0 then
      match ibus_process_pass_past past s with
      | Pass.stop s1 => Drain.returned s1
      | Pass.again s1 => ibus_process_loop_past past fuel s1
      | Pass.fault => Drain.fault
    else Drain.returned s

/-- The drain `ibus_process_messages` when a text search that leaves the array goes on and
answers `past tag`.  It is `ibus_process_messages` whenever that one returns
(`ibus_process_messages_past_eq`). -/
def ibus_process_messages_past (past : List Nat → Bool) (s : IbusCore) : Drain :=
  ibus_process_loop_past past (s.ibus_data_index + 1) s

/-- The decoder is about to run the text search of `ibus_handle_headunit_state` on the
message at the start of its buffer: Radio to GraphicsDriver, message id UMID or ST, at least
one data byte, data[0] = 0x62. -/
def runs_text_search (s : IbusCore) : Prop :=
  ibus_get_sender s = IBUS_DEV_RAD ∧ ibus_get_receiver s = IBUS_DEV_GT ∧
    (ibus_get_message s = IBUS_MSG_UMID ∨ ibus_get_message s = IBUS_MSG_ST) ∧
    ibus_get_data_length s > 0 ∧ ibus_get_data_byte s 0 = 0x62

/-- A frame on which `ibus_handle_headunit_state` runs the text search: Radio (0x68) to
GraphicsDriver (0x3B), message id 0x23 or 0xA5, at least one data byte, data[0] = 0x62. -/
def text_frame (f : List Nat) : Prop :=
  f.getD 0 0 = IBUS_DEV_RAD ∧ f.getD 2 0 = IBUS_DEV_GT ∧
    (f.getD 3 0 = IBUS_MSG_UMID ∨ f.getD 3 0 = IBUS_MSG_ST) ∧
    6 ≤ f.length ∧ f.getD 4 0 = 0x62

instance (f : List Nat) : Decidable (text_frame f) := by
  unfold text_frame
  infer_instance

/-- The state the text search of the text frame `f` asks for when the searched string is
`text` and the current state is `st`. -/
def text_frame_state (f : List Nat) (text : List Nat) (st : ibus_state_t) : ibus_state_t :=
  if f.getD 3 0 = IBUS_MSG_UMID then umid_text_state text st else st_text_state text st

/-- The text search on a buffer that holds the bytes `l` stays inside the array: the buffer
is not completely full, or `l` has a zero byte at the data offset or later. -/
def search_fits (l : List Nat) : Prop :=
  l.length < IBUS_DATA_SIZE ∨
    ∃ z, IBUS_POS_DATA_START ≤ z ∧ z < l.length ∧ l.getD z 0 = 0

/-- For every text frame of the sequence `frames ++ [tail]`: the text search, run with the
rest of the sequence buffered behind the frame, stays inside the array and asks for the
same state as when it is run on the frame alone. -/
def text_agrees : List (List Nat) → List Nat → Prop
  | [], _ => True
  | f :: rest, tail =>
    (text_frame f → search_fits (f ++ (rest.flatten ++ tail)) ∧
      ∀ st, text_frame_state f (searched_text (f ++ (rest.flatten ++ tail))) st =
        text_frame_state f (searched_text f) st) ∧
    text_agrees rest tail

/-! # Lemmas and theorems -/

theorem dispatched_refl (s : IbusCore) : dispatched s s :=
  ⟨rfl, rfl, rfl, [], by simp, by simp⟩

theorem dispatched_trans {s s1 s2 : IbusCore} (h1 : dispatched s s1) (h2 : dispatched s1 s2) :
    dispatched s s2 := by
  obtain ⟨a1, b1, c1, e1, d1, f1⟩ := h1
  obtain ⟨a2, b2, c2, e2, d2, f2⟩ := h2
  refine ⟨a2.trans a1, b2.trans b1, c2.trans c1, e1 ++ e2, ?_, ?_⟩
  · rw [d2, d1, List.append_assoc]
  · intro e he
    rcases List.mem_append.mp he with h | h
    · exact f1 e h
    · exact f2 e h

theorem dispatched_change_state (s : IbusCore) (n : ibus_state_t) :
    dispatched s (ibus_change_state s n) := by
  unfold ibus_change_state
  split
  · exact dispatched_refl s
  · exact ⟨rfl, rfl, rfl, [Event.state_changed n s.ibus_hijack_state], rfl, by simp [Event.is_log]⟩

theorem dispatched_button_event (s : IbusCore) (c r l : Nat) :
    dispatched s (ibus_platform_button_event s c r l) :=
  ⟨rfl, rfl, rfl, [Event.button_event c r l], rfl, by simp [Event.is_log]⟩

theorem dispatched_knob_event (s : IbusCore) (c n : Nat) :
    dispatched s (ibus_platform_knob_event s c n) :=
  ⟨rfl, rfl, rfl, [Event.knob_event c n], rfl, by simp [Event.is_log]⟩

theorem dispatched_handle_buttons (s : IbusCore) : dispatched s (ibus_handle_buttons s) := by
  unfold ibus_handle_buttons
  dsimp only
  repeat' split
  all_goals first
    | exact dispatched_refl s
    | exact dispatched_button_event s _ _ _
    | exact dispatched_knob_event s _ _
    | exact dispatched_trans (dispatched_change_state s _) (dispatched_button_event _ _ _ _)

theorem dispatched_handle_headunit_state {s s1 : IbusCore}
    (h : ibus_handle_headunit_state s = some s1) : dispatched s s1 := by
  unfold ibus_handle_headunit_state ibus_data_contains at h
  dsimp only at h
  cases hc : c_strlen s.ibus_data IBUS_POS_DATA_START (IBUS_DATA_SIZE - IBUS_POS_DATA_START) with
  | none =>
    rw [hc] at h
    simp only [Option.map_none', Option.none_bind] at h
    repeat' split at h
    all_goals first
      | (cases h <;> first | exact dispatched_refl _ | exact dispatched_change_state _ _)
  | some n =>
    rw [hc] at h
    simp only [Option.map_some', Option.some_bind] at h
    repeat' split at h
    all_goals first
      | (cases h; first | exact dispatched_refl _ | exact dispatched_change_state _ _)

theorem ibus_calc_checksum_loop_eq (a : Nat → Nat) (ha : ∀ i, a i < 256) :
    ∀ (count i c : Nat), c < 256 →
      ibus_calc_checksum_loop a i count c =
        ((List.range count).map (fun k => a (i + k))).foldl (fun c b => c ^^^ b) c := by
  intro count
  induction count with
  | zero => intro i c _; simp [ibus_calc_checksum_loop]
  | succ n ih =>
    intro i c hc
    have hx : c ^^^ a i < 256 := Nat.xor_lt_two_pow (n := 8) hc (ha i)
    rw [ibus_calc_checksum_loop, Nat.mod_eq_of_lt hx, ih (i + 1) _ hx, List.range_succ_eq_map]
    simp only [List.map_cons, List.foldl_cons, List.map_map, Nat.add_zero]
    congr 2
    funext k
    simp only [Function.comp, Nat.succ_eq_add_one]
    congr 1
    omega

theorem ibus_calc_checksum_eq (s : IbusCore) (hs : bytes_ok s) (k : Nat) :
    ibus_calc_checksum s k = xor_bytes (buffer_slice s 0 k) := by
  unfold ibus_calc_checksum xor_bytes buffer_slice
  rw [ibus_calc_checksum_loop_eq s.ibus_data hs k 0 0 (by decide)]

theorem c_strlen_of_zero (a : Nat → Nat) :
    ∀ (room start z : Nat), start ≤ z → z < start + room → a z = 0 →
      ∃ n, c_strlen a start room = some n ∧ start + n ≤ z ∧ a (start + n) = 0 ∧
        ∀ k, k < n → a (start + k) ≠ 0 := by
  intro room
  induction room with
  | zero => intro start z h1 h2 _; omega
  | succ r ih =>
    intro start z h1 h2 hz
    unfold c_strlen
    by_cases h0 : a start = 0
    · exact ⟨0, by simp [h0], by omega, by simpa using h0, by intro k hk; omega⟩
    · have hne : start ≠ z := fun h => h0 (h ▸ hz)
      obtain ⟨n, hn, hle, hzero, hnz⟩ := ih (start + 1) z (by omega) (by omega) hz
      refine ⟨n + 1, by simp [h0, hn], by omega, ?_, ?_⟩
      · rw [← hzero]; congr 1; omega
      · intro k hk
        cases k with
        | zero => simpa using h0
        | succ k =>
          have := hnz k (by omega)
          rwa [show start + (k + 1) = start + 1 + k by omega]

theorem ibus_handle_headunit_state_isSome (s : IbusCore) (n : Nat)
    (h : c_strlen s.ibus_data IBUS_POS_DATA_START (IBUS_DATA_SIZE - IBUS_POS_DATA_START) = some n) :
    ∃ s1, ibus_handle_headunit_state s = some s1 := by
  unfold ibus_handle_headunit_state ibus_data_contains
  dsimp only
  rw [h]
  simp only [Option.map_some', Option.some_bind]
  repeat' split
  all_goals exact ⟨_, rfl⟩

theorem dispatched_dispatch {s s1 : IbusCore} (h : ibus_dispatch s = some s1) :
    dispatched s s1 := by
  unfold ibus_dispatch at h
  dsimp only at h
  split at h
  · exact dispatched_trans (dispatched_handle_buttons s) (dispatched_handle_headunit_state h)
  · cases h
    exact dispatched_handle_buttons s

theorem ibus_dispatch_isSome (s : IbusCore)
    (h : s.ibus_hijack_state = IBUS_STATE_UNKNOWN ∨
      ∃ n, c_strlen s.ibus_data IBUS_POS_DATA_START (IBUS_DATA_SIZE - IBUS_POS_DATA_START)
        = some n) :
    ∃ s1, ibus_dispatch s = some s1 := by
  unfold ibus_dispatch
  dsimp only
  have hb := dispatched_handle_buttons s
  split
  · rename_i hne
    rcases h with h | ⟨n, hn⟩
    · exact absurd (hb.2.2.1.trans h) hne
    · exact ibus_handle_headunit_state_isSome _ n (by rw [hb.1]; exact hn)
  · exact ⟨_, rfl⟩

theorem ibus_process_pass_short (s : IbusCore) (h : s.ibus_data_index < IBUS_MIN_MESSAGE_LEN) :
    ibus_process_pass s = Pass.stop s := by
  unfold ibus_process_pass
  rw [if_pos h]

theorem ibus_process_pass_wait (s : IbusCore)
    (h : s.ibus_data_index < ibus_get_message_length s) :
    ibus_process_pass s = Pass.stop s := by
  unfold ibus_process_pass
  dsimp only
  split <;> rfl

theorem ibus_process_pass_bad_checksum (s : IbusCore)
    (h5 : IBUS_MIN_MESSAGE_LEN ≤ s.ibus_data_index)
    (hlen : ibus_get_message_length s ≤ s.ibus_data_index)
    (hck : ibus_calc_checksum s ((ibus_get_message_length s + 256 - 1) % 256) ≠
      s.ibus_data ((ibus_get_message_length s + 256 - 1) % 256)) :
    ibus_process_pass s = Pass.stop (ibus_reset_buffer s) := by
  unfold ibus_process_pass
  dsimp only
  rw [if_neg (by omega), if_neg (by omega), if_pos hck]

theorem ibus_process_pass_valid (s s3 : IbusCore)
    (h5 : IBUS_MIN_MESSAGE_LEN ≤ s.ibus_data_index)
    (hlen : ibus_get_message_length s ≤ s.ibus_data_index)
    (hck : ibus_calc_checksum s ((ibus_get_message_length s + 256 - 1) % 256) =
      s.ibus_data ((ibus_get_message_length s + 256 - 1) % 256))
    (hd : ibus_dispatch (ibus_platform_log_message s (ibus_get_message_length s)) = some s3) :
    ibus_process_pass s = Pass.again (ibus_remove_message s3 (ibus_get_message_length s)) := by
  have h3 := (dispatched_dispatch hd).2.1
  unfold ibus_process_pass
  dsimp only
  rw [if_neg (by omega), if_neg (by omega), if_neg (by simpa using hck), hd]
  dsimp only
  rw [if_pos]
  rw [h3]
  exact hlen

theorem ibus_get_message_length_eq (s : IbusCore) (n : Nat)
    (hn : n = s.ibus_data IBUS_POS_LENGTH + 2) (hn255 : n ≤ 255) :
    ibus_get_message_length s = n := by
  unfold ibus_get_message_length IBUS_SENDER_AND_LENGTH_LEN
  omega

theorem ibus_process_loop_succ_pos (fuel : Nat) (s : IbusCore) (h : 0 < s.ibus_data_index) :
    ibus_process_loop (fuel + 1) s =
      match ibus_process_pass s with
      | Pass.stop s1 => Drain.returned s1
      | Pass.again s1 => ibus_process_loop fuel s1
      | Pass.fault => Drain.fault := by
  rw [ibus_process_loop, if_pos h]

theorem ibus_process_loop_empty (fuel : Nat) (s : IbusCore) (h : s.ibus_data_index = 0) :
    ibus_process_loop (fuel + 1) s = Drain.returned s := by
  rw [ibus_process_loop, if_neg (by omega)]

theorem ibus_process_loop_short (fuel : Nat) (s : IbusCore)
    (h : s.ibus_data_index < IBUS_MIN_MESSAGE_LEN) :
    ibus_process_loop (fuel + 1) s = Drain.returned s := by
  by_cases h0 : 0 < s.ibus_data_index
  · rw [ibus_process_loop_succ_pos fuel s h0, ibus_process_pass_short s h]
  · exact ibus_process_loop_empty fuel s (by omega)

/-- C1: a buffer with zero tail that starts with a checksum-valid frame of total length
`n = buffer[1] + 2`, `5 ≤ n ≤ 255`, followed by `t < 5` trailing bytes: the drain returns
with logical length `t`, the trailing bytes verbatim at offsets `0..t-1`, and every other
byte of the array zero. -/
theorem C1_frame_consumed_trailing_kept (s : IbusCore) (n t : Nat)
    (hb : bytes_ok s) (hz : zero_tail s)
    (hn : n = s.ibus_data IBUS_POS_LENGTH + 2) (hn5 : 5 ≤ n) (hn255 : n ≤ 255)
    (hck : s.ibus_data (n - 1) = xor_bytes (buffer_slice s 0 (n - 1)))
    (hidx : s.ibus_data_index = n + t) (ht : t < 5) :
    ∃ s1, ibus_process_messages s = Drain.returned s1 ∧
      s1.ibus_data_index = t ∧
      (∀ i, i < t → s1.ibus_data i = s.ibus_data (n + i)) ∧
      (∀ i, t ≤ i → i < IBUS_DATA_SIZE → s1.ibus_data i = 0) := by
  have hlen := ibus_get_message_length_eq s n hn hn255
  have hci : (n + 256 - 1) % 256 = n - 1 := by omega
  have hzero : s.ibus_data (n + t) = 0 := hz (n + t) (by omega) (by unfold IBUS_DATA_SIZE IBUS_MAX_MESSAGE_LEN; omega)
  obtain ⟨m, hm, -⟩ := c_strlen_of_zero s.ibus_data (IBUS_DATA_SIZE - IBUS_POS_DATA_START)
    IBUS_POS_DATA_START (n + t) (by unfold IBUS_POS_DATA_START; omega)
    (by unfold IBUS_DATA_SIZE IBUS_MAX_MESSAGE_LEN IBUS_POS_DATA_START; omega) hzero
  obtain ⟨s3, hs3⟩ := ibus_dispatch_isSome (ibus_platform_log_message s n) (Or.inr ⟨m, hm⟩)
  obtain ⟨hdata, hindex, -⟩ := dispatched_dispatch hs3
  have hpass : ibus_process_pass s = Pass.again (ibus_remove_message s3 n) := by
    have := ibus_process_pass_valid s s3 (by unfold IBUS_MIN_MESSAGE_LEN; omega)
      (by omega) (by rw [hlen, hci, ibus_calc_checksum_eq s hb, hck]) (by rw [hlen]; exact hs3)
    rwa [hlen] at this
  have hdata3 : s3.ibus_data = s.ibus_data := hdata
  have hindex3 : s3.ibus_data_index = n + t := hindex.trans hidx
  refine ⟨ibus_remove_message s3 n, ?_, ?_, ?_, ?_⟩
  · unfold ibus_process_messages
    rw [ibus_process_loop_succ_pos _ s (by omega), hpass, hidx]
    dsimp only
    rw [show n + t = (n + t - 1) + 1 by omega]
    apply ibus_process_loop_short
    unfold ibus_remove_message IBUS_MIN_MESSAGE_LEN
    dsimp only
    omega
  · unfold ibus_remove_message
    dsimp only
    omega
  · intro i hi
    unfold ibus_remove_message memset_zero memmove_front
    dsimp only
    rw [hindex3, hdata3, if_neg (by omega), if_pos (by omega)]
  · intro i hi hi2
    unfold ibus_remove_message memset_zero memmove_front
    dsimp only
    rw [hindex3, hdata3]
    split
    · rfl
    · rw [if_neg (by omega)]
      exact hz i (by omega) hi2

theorem bytes_ok_holding (bytes : List Nat) (st hj : ibus_state_t) (c : List Event)
    (h : ∀ b ∈ bytes, b < 256) : bytes_ok (ibus_holding bytes st hj c) := by
  intro i
  show bytes.getD i 0 < 256
  by_cases hi : i < bytes.length
  · rw [List.getD_eq_getElem _ _ hi]
    exact h _ (List.getElem_mem _)
  · rw [List.getD_eq_default _ _ (by omega)]
    decide

theorem zero_tail_holding (bytes : List Nat) (st hj : ibus_state_t) (c : List Event) :
    zero_tail (ibus_holding bytes st hj c) := by
  intro i hi _
  exact List.getD_eq_default _ _ hi

/-- C1 at a concrete buffer: the 5-byte frame `68 03 3B 46 16` followed by the two bytes
`F0 04`. -/
theorem C1_witness :
    ∃ s1, ibus_process_messages
        (ibus_holding [0x68, 3, 0x3B, 0x46, 0x16, 0xF0, 0x04] IBUS_STATE_UNKNOWN IBUS_STATE_AUX [])
        = Drain.returned s1 ∧
      s1.ibus_data_index = 2 ∧ s1.ibus_data 0 = 0xF0 ∧ s1.ibus_data 1 = 0x04 ∧
      s1.ibus_data 2 = 0 ∧ s1.ibus_data 6 = 0 := by
  obtain ⟨s1, h1, h2, h3, h4⟩ := C1_frame_consumed_trailing_kept
    (ibus_holding [0x68, 3, 0x3B, 0x46, 0x16, 0xF0, 0x04] IBUS_STATE_UNKNOWN IBUS_STATE_AUX [])
    5 2 (bytes_ok_holding _ _ _ _ (by decide)) (zero_tail_holding _ _ _ _)
    (by decide) (by decide) (by decide) (by decide) (by decide) (by decide)
  exact ⟨s1, h1, h2, h3 0 (by decide), h3 1 (by decide), h4 2 (by decide) (by decide),
    h4 6 (by decide) (by decide)⟩

/-- C2: when the buffer holds at least `n = buffer[1] + 2` bytes (`5 ≤ n ≤ 255`) and byte
`n-1` differs from the XOR of bytes `0..n-2`, the drain returns having made no hook call,
with the head-unit state (and hijack target) unchanged, logical length 0 and every byte of
the array zero, whatever was buffered after the bad candidate. -/
theorem C2_bad_checksum_clears_everything (s : IbusCore) (n : Nat)
    (hb : bytes_ok s)
    (hn : n = s.ibus_data IBUS_POS_LENGTH + 2) (hn5 : 5 ≤ n) (hn255 : n ≤ 255)
    (hidx : n ≤ s.ibus_data_index)
    (hck : s.ibus_data (n - 1) ≠ xor_bytes (buffer_slice s 0 (n - 1))) :
    ∃ s1, ibus_process_messages s = Drain.returned s1 ∧
      s1.platform_calls = s.platform_calls ∧
      s1.ibus_state = s.ibus_state ∧
      s1.ibus_hijack_state = s.ibus_hijack_state ∧
      s1.ibus_data_index = 0 ∧
      ∀ i, i < IBUS_DATA_SIZE → s1.ibus_data i = 0 := by
  have hlen := ibus_get_message_length_eq s n hn hn255
  have hci : (n + 256 - 1) % 256 = n - 1 := by omega
  have hpass : ibus_process_pass s = Pass.stop (ibus_reset_buffer s) := by
    apply ibus_process_pass_bad_checksum s (by unfold IBUS_MIN_MESSAGE_LEN; omega) (by omega)
    rw [hlen, hci, ibus_calc_checksum_eq s hb]
    exact fun h => hck h.symm
  refine ⟨ibus_reset_buffer s, ?_, rfl, rfl, rfl, rfl, ?_⟩
  · unfold ibus_process_messages
    rw [ibus_process_loop_succ_pos _ s (by omega), hpass]
  · intro i hi
    unfold ibus_reset_buffer memset_zero
    dsimp only
    rw [if_pos ⟨Nat.zero_le i, by omega⟩]

/-- C2 at a concrete buffer: the candidate `68 03 3B 46 17` (checksum should be `16`)
followed by the valid frame `68 03 3B 46 16`. -/
theorem C2_witness :
    ∃ s1, ibus_process_messages
        (ibus_holding [0x68, 3, 0x3B, 0x46, 0x17, 0x68, 3, 0x3B, 0x46, 0x16]
          IBUS_STATE_FM IBUS_STATE_AUX []) = Drain.returned s1 ∧
      s1.platform_calls = [] ∧ s1.ibus_state = IBUS_STATE_FM ∧
      s1.ibus_hijack_state = IBUS_STATE_AUX ∧ s1.ibus_data_index = 0 ∧
      s1.ibus_data 0 = 0 ∧ s1.ibus_data 9 = 0 := by
  obtain ⟨s1, h1, h2, h3, h4, h5, h6⟩ := C2_bad_checksum_clears_everything
    (ibus_holding [0x68, 3, 0x3B, 0x46, 0x17, 0x68, 3, 0x3B, 0x46, 0x16]
      IBUS_STATE_FM IBUS_STATE_AUX [])
    5 (bytes_ok_holding _ _ _ _ (by decide)) (by decide) (by decide) (by decide) (by decide)
    (by decide)
  exact ⟨s1, h1, h2, h3, h4, h5, h6 0 (by decide), h6 9 (by decide)⟩

/-- C5: with fewer than 5 bytes buffered, or with at least 5 bytes buffered,
`buffer[1] ≤ 253` and fewer than `buffer[1] + 2` bytes buffered, the drain returns with
the decoder exactly as it was: array, logical length, head-unit state and the record of
hook calls are all unchanged. -/
theorem C5_incomplete_frame_changes_nothing (s : IbusCore)
    (h : s.ibus_data_index < 5 ∨
      (5 ≤ s.ibus_data_index ∧ s.ibus_data IBUS_POS_LENGTH ≤ 253 ∧
        s.ibus_data_index < s.ibus_data IBUS_POS_LENGTH + 2)) :
    ibus_process_messages s = Drain.returned s := by
  unfold ibus_process_messages
  rcases h with h | ⟨h5, h253, hlt⟩
  · exact ibus_process_loop_short _ s h
  · have hlen := ibus_get_message_length_eq s (s.ibus_data IBUS_POS_LENGTH + 2) rfl (by omega)
    rw [ibus_process_loop_succ_pos _ s (by omega), ibus_process_pass_wait s (by omega)]

/-- C5 at a concrete buffer: six bytes of a candidate that declares seven. -/
theorem C5_witness :
    ibus_process_messages (ibus_holding [0x68, 5, 0x3B, 0x46, 0x16, 7] IBUS_STATE_FM
        IBUS_STATE_AUX [Event.knob_event 1 3]) =
      Drain.returned (ibus_holding [0x68, 5, 0x3B, 0x46, 0x16, 7] IBUS_STATE_FM
        IBUS_STATE_AUX [Event.knob_event 1 3]) :=
  C5_incomplete_frame_changes_nothing _ (Or.inr (by decide))

/-- C10: `ibus_append_byte` with fewer than 2056 (= 8 x 257) bytes buffered stores the
byte at the end, adds one to the logical length and leaves every other byte as it was;
with 2056 bytes buffered it clears the whole array, sets the logical length to 0 and does
not store the byte.  In both cases the head-unit state, the hijack target and the record
of hook calls are unchanged. -/
theorem C10_append_byte (s : IbusCore) (byte : Nat) (hbyte : byte < 256) :
    (s.ibus_data_index < 2056 →
      (ibus_append_byte s byte).ibus_data s.ibus_data_index = byte ∧
      (ibus_append_byte s byte).ibus_data_index = s.ibus_data_index + 1 ∧
      ∀ i, i ≠ s.ibus_data_index → (ibus_append_byte s byte).ibus_data i = s.ibus_data i) ∧
    (s.ibus_data_index = 2056 →
      (ibus_append_byte s byte).ibus_data_index = 0 ∧
      ∀ i, i < 2056 → (ibus_append_byte s byte).ibus_data i = 0) ∧
    2056 = 8 * IBUS_MAX_MESSAGE_LEN ∧ IBUS_DATA_SIZE = 2056 ∧
    (ibus_append_byte s byte).ibus_state = s.ibus_state ∧
    (ibus_append_byte s byte).ibus_hijack_state = s.ibus_hijack_state ∧
    (ibus_append_byte s byte).platform_calls = s.platform_calls := by
  have hsize : IBUS_DATA_SIZE = 2056 := by decide
  refine ⟨?_, ?_, by decide, hsize, ?_, ?_, ?_⟩
  · intro h
    have hlt : ¬ s.ibus_data_index ≥ IBUS_DATA_SIZE := by omega
    unfold ibus_append_byte
    rw [if_neg hlt]
    refine ⟨?_, rfl, ?_⟩
    · dsimp only
      rw [if_pos rfl, Nat.mod_eq_of_lt hbyte]
    · intro i hi
      dsimp only
      rw [if_neg hi]
  · intro h
    have hge : s.ibus_data_index ≥ IBUS_DATA_SIZE := by omega
    unfold ibus_append_byte
    rw [if_pos hge]
    refine ⟨rfl, ?_⟩
    intro i hi
    unfold ibus_reset_buffer memset_zero
    dsimp only
    rw [if_pos ⟨Nat.zero_le i, by omega⟩]
  all_goals
    unfold ibus_append_byte
    split <;> rfl

/-- C10 at a concrete buffer: a third byte appended to two buffered bytes. -/
theorem C10_witness :
    (ibus_append_byte (ibus_holding [0x68, 3] IBUS_STATE_FM IBUS_STATE_AUX []) 0x3B).ibus_data 2
      = 0x3B ∧
    (ibus_append_byte (ibus_holding [0x68, 3] IBUS_STATE_FM IBUS_STATE_AUX []) 0x3B).ibus_data_index
      = 3 :=
  ⟨((C10_append_byte (ibus_holding [0x68, 3] IBUS_STATE_FM IBUS_STATE_AUX []) 0x3B
      (by decide)).1 (by decide)).1,
   ((C10_append_byte (ibus_holding [0x68, 3] IBUS_STATE_FM IBUS_STATE_AUX []) 0x3B
      (by decide)).1 (by decide)).2.1⟩

theorem ibus_handle_buttons_no_data (s : IbusCore) (h : ibus_get_data_length s = 0) :
    ibus_handle_buttons s = s := by
  unfold ibus_handle_buttons
  dsimp only
  rw [h]
  simp

theorem ibus_handle_headunit_state_no_data (s : IbusCore) (h : ibus_get_data_length s = 0) :
    ibus_handle_headunit_state s = some s := by
  unfold ibus_handle_headunit_state
  dsimp only
  rw [h]
  simp

theorem ibus_dispatch_no_data (s : IbusCore) (h : ibus_get_data_length s = 0) :
    ibus_dispatch s = some s := by
  unfold ibus_dispatch
  dsimp only
  rw [ibus_handle_buttons_no_data s h, ibus_handle_headunit_state_no_data s h]
  simp

theorem ibus_process_pass_zero_length (s : IbusCore) (h : zero_length_candidate s) :
    ∃ s1, ibus_process_pass s = Pass.again s1 ∧ s1.ibus_data = s.ibus_data ∧
      s1.ibus_data_index = s.ibus_data_index ∧ s1.ibus_state = s.ibus_state ∧
      s1.ibus_hijack_state = s.ibus_hijack_state ∧
      s1.platform_calls = s.platform_calls ++ [Event.log_message [] 0] := by
  obtain ⟨h5, hlen, hck⟩ := h
  have hd : ibus_dispatch (ibus_platform_log_message s (ibus_get_message_length s)) =
      some (ibus_platform_log_message s (ibus_get_message_length s)) := by
    apply ibus_dispatch_no_data
    have : ibus_get_message_length (ibus_platform_log_message s (ibus_get_message_length s)) = 0 :=
      hlen
    unfold ibus_get_data_length
    dsimp only
    rw [this]
    rfl
  have hp := ibus_process_pass_valid s _ h5 (by omega) (by rw [hlen]; exact hck) hd
  refine ⟨_, hp, ?_, ?_, rfl, rfl, ?_⟩
  · rw [hlen]
    funext i
    unfold ibus_remove_message memset_zero memmove_front ibus_platform_log_message
    dsimp only
    rw [if_neg (by omega)]
    split
    · rw [Nat.zero_add]
    · rfl
  · rw [hlen]; rfl
  · rw [hlen]; rfl

theorem zero_length_candidate_congr {s s1 : IbusCore} (hd : s1.ibus_data = s.ibus_data)
    (hi : s1.ibus_data_index = s.ibus_data_index) (h : zero_length_candidate s) :
    zero_length_candidate s1 := by
  unfold zero_length_candidate ibus_get_message_length ibus_calc_checksum at *
  rw [hd, hi]
  exact h

theorem ibus_process_loop_zero_length (fuel : Nat) :
    ∀ s, zero_length_candidate s → ibus_process_loop fuel s = Drain.out_of_fuel := by
  induction fuel with
  | zero => intro s _; rfl
  | succ n ih =>
    intro s h
    obtain ⟨s1, hp, hd, hi, -⟩ := ibus_process_pass_zero_length s h
    have h5 : 0 < s.ibus_data_index := by
      have := h.1
      unfold IBUS_MIN_MESSAGE_LEN at this
      omega
    rw [ibus_process_loop_succ_pos n s h5, hp]
    exact ih s1 (zero_length_candidate_congr hd hi h)

set_option maxRecDepth 20000 in
/-- C3 (evaluation at the failing input): after `ibus_init` with any hijack target and
the five bytes `FE FE 00 00 00`, every pass of the drain loop accepts a candidate of
truncated length 0, logs it with `len = 0` and removes nothing, so the loop does not end
within any number of passes, and the pass neither stops nor shortens the buffered data. -/
theorem C3_drain_does_not_terminate (hj : ibus_state_t) (fuel : Nat) :
    ibus_process_loop fuel (ibus_feed (ibus_init ibus_startup hj) [0xFE, 0xFE, 0, 0, 0])
      = Drain.out_of_fuel ∧
    ∃ s1, ibus_process_pass (ibus_feed (ibus_init ibus_startup hj) [0xFE, 0xFE, 0, 0, 0])
        = Pass.again s1 ∧ s1.ibus_data_index = 5 ∧
      s1.platform_calls = [Event.log_message [] 0] := by
  have hz : zero_length_candidate (ibus_feed (ibus_init ibus_startup hj) [0xFE, 0xFE, 0, 0, 0]) :=
    ⟨by cases hj <;> decide, by cases hj <;> decide, by cases hj <;> decide⟩
  refine ⟨ibus_process_loop_zero_length fuel _ hz, ?_⟩
  obtain ⟨s1, hp, -, hi, -, -, hc⟩ := ibus_process_pass_zero_length _ hz
  exact ⟨s1, hp, hi, hc⟩

theorem ibus_process_pass_again_inv {s s1 : IbusCore} (h : ibus_process_pass s = Pass.again s1) :
    IBUS_MIN_MESSAGE_LEN ≤ s.ibus_data_index ∧
    ibus_get_message_length s ≤ s.ibus_data_index ∧
    ibus_calc_checksum s ((ibus_get_message_length s + 256 - 1) % 256) =
      s.ibus_data ((ibus_get_message_length s + 256 - 1) % 256) ∧
    ∃ s3, ibus_dispatch (ibus_platform_log_message s (ibus_get_message_length s)) = some s3 ∧
      s1 = ibus_remove_message s3 (ibus_get_message_length s) := by
  unfold ibus_process_pass at h
  dsimp only at h
  split at h
  · cases h
  · split at h
    · cases h
    · split at h
      · cases h
      · rename_i h1 h2 h3
        split at h
        · cases h
        · rename_i s3 hs3
          split at h
          · cases h
            exact ⟨by omega, by omega, by simpa using h3, s3, hs3, rfl⟩
          · cases h

theorem ibus_process_pass_again_cases {s s1 : IbusCore}
    (h : ibus_process_pass s = Pass.again s1) :
    s1.ibus_data_index < s.ibus_data_index ∨ zero_length_candidate s1 := by
  obtain ⟨h5, hle, hck, s3, hd, rfl⟩ := ibus_process_pass_again_inv h
  have hi : s3.ibus_data_index = s.ibus_data_index := (dispatched_dispatch hd).2.1
  by_cases h0 : ibus_get_message_length s = 0
  · right
    have hz : zero_length_candidate s := ⟨h5, h0, by rw [h0] at hck; exact hck⟩
    obtain ⟨s1, hp, hd1, hi1, -⟩ := ibus_process_pass_zero_length s hz
    rw [h] at hp
    cases hp
    exact zero_length_candidate_congr hd1 hi1 hz
  · left
    unfold ibus_remove_message
    dsimp only
    unfold IBUS_MIN_MESSAGE_LEN at h5
    omega

/-- Fuel adequacy: `ibus_data_index + 1` passes decide the outcome of the drain loop; more
passes give the same result.  So `ibus_process_messages s = Drain.out_of_fuel` means that
the C loop never ends. -/
theorem ibus_process_loop_fuel_enough (fuel : Nat) :
    ∀ (s : IbusCore) (more : Nat), s.ibus_data_index < fuel → fuel ≤ more →
      ibus_process_loop more s = ibus_process_loop fuel s := by
  induction fuel with
  | zero => intro s more h; omega
  | succ n ih =>
    intro s more h hm
    obtain ⟨m, rfl⟩ : ∃ m, more = m + 1 := ⟨more - 1, by omega⟩
    by_cases h0 : 0 < s.ibus_data_index
    · rw [ibus_process_loop_succ_pos m s h0, ibus_process_loop_succ_pos n s h0]
      cases hp : ibus_process_pass s with
      | stop s1 => rfl
      | fault => rfl
      | again s1 =>
        dsimp only
        rcases ibus_process_pass_again_cases hp with hlt | hz
        · exact ih s1 m (by omega) (by omega)
        · rw [ibus_process_loop_zero_length m s1 hz, ibus_process_loop_zero_length n s1 hz]
    · rw [ibus_process_loop_empty m s (by omega), ibus_process_loop_empty n s (by omega)]

theorem ibus_process_messages_eq_loop (s : IbusCore) (fuel : Nat)
    (h : s.ibus_data_index < fuel) :
    ibus_process_loop fuel s = ibus_process_messages s :=
  ibus_process_loop_fuel_enough (s.ibus_data_index + 1) s fuel (by omega) (by omega)

set_option maxRecDepth 20000 in
/-- C8 (evaluation at the failing inputs): the 257-byte frame `68 FF 00 .. 00 97` is
checksum-valid with length byte 255, yet the drain takes `cur_len = (uint8_t)(255 + 2) = 1`,
compares the XOR of no bytes with byte 0 and resets the buffer without a log call; with
only its first 5 bytes buffered the drain does not wait but resets as well; and the
checksum-valid 256-byte frame `68 FE 00 .. 00 96` (length byte 254, `cur_len = 0`) keeps
the drain loop running for any number of passes. -/
theorem C8_length_bytes_254_255_truncated :
    (([0x68, 0xFF] ++ List.replicate 254 0 ++ [0x97]).length = 257 ∧
      ([0x68, 0xFF] ++ List.replicate 254 0 ++ [0x97]).getD 1 0 + 2 = 257 ∧
      xor_bytes ([0x68, 0xFF] ++ List.replicate 254 0) = 0x97) ∧
    ibus_process_messages
        (ibus_holding ([0x68, 0xFF] ++ List.replicate 254 0 ++ [0x97])
          IBUS_STATE_UNKNOWN IBUS_STATE_UNKNOWN []) =
      Drain.returned (ibus_reset_buffer
        (ibus_holding ([0x68, 0xFF] ++ List.replicate 254 0 ++ [0x97])
          IBUS_STATE_UNKNOWN IBUS_STATE_UNKNOWN [])) ∧
    ibus_process_messages
        (ibus_holding [0x68, 0xFF, 0, 0, 0] IBUS_STATE_UNKNOWN IBUS_STATE_UNKNOWN []) =
      Drain.returned (ibus_reset_buffer
        (ibus_holding [0x68, 0xFF, 0, 0, 0] IBUS_STATE_UNKNOWN IBUS_STATE_UNKNOWN [])) ∧
    (([0x68, 0xFE] ++ List.replicate 253 0 ++ [0x96]).length = 256 ∧
      xor_bytes ([0x68, 0xFE] ++ List.replicate 253 0) = 0x96) ∧
    ∀ fuel, ibus_process_loop fuel
        (ibus_holding ([0x68, 0xFE] ++ List.replicate 253 0 ++ [0x96])
          IBUS_STATE_UNKNOWN IBUS_STATE_UNKNOWN []) = Drain.out_of_fuel := by
  refine ⟨by decide, ?_, ?_, by decide, ?_⟩
  · unfold ibus_process_messages
    rw [ibus_process_loop_succ_pos _ _ (by decide),
      ibus_process_pass_bad_checksum _ (by decide) (by decide) (by decide)]
  · unfold ibus_process_messages
    rw [ibus_process_loop_succ_pos _ _ (by decide),
      ibus_process_pass_bad_checksum _ (by decide) (by decide) (by decide)]
  · intro fuel
    exact ibus_process_loop_zero_length fuel _ ⟨by decide, by decide, by decide⟩

/-- C9 (evaluation at the failing inputs): after `ibus_init` and five zero bytes the
candidate has declared length `0 + 2 = 2` and passes the checksum test (`0 = 0`), so the
drain calls the log hook with `len = 2`; with `00 02 00 02 01` buffered it logs a message
of length 4. -/
theorem C9_short_candidates_are_logged :
    ((ibus_process_messages
        (ibus_feed (ibus_init ibus_startup IBUS_STATE_UNKNOWN) [0, 0, 0, 0, 0])).state?.map
      (fun s => s.platform_calls)) = some [Event.log_message [0, 0] 2] ∧
    ((ibus_process_messages
        (ibus_feed (ibus_init ibus_startup IBUS_STATE_UNKNOWN) [0, 2, 0, 2, 1])).state?.map
      (fun s => s.platform_calls)) = some [Event.log_message [0, 2, 0, 2] 4] := by
  constructor <;> decide

theorem xor_bytes_append_one (l : List Nat) (x : Nat) :
    xor_bytes (l ++ [x]) = xor_bytes l ^^^ x := by
  unfold xor_bytes
  rw [List.foldl_append]
  rfl

theorem buffer_slice_succ (s : IbusCore) (off m : Nat) :
    buffer_slice s off (m + 1) = buffer_slice s off m ++ [s.ibus_data (off + m)] := by
  unfold buffer_slice
  rw [List.range_succ, List.map_append]
  rfl

theorem xor_ne_self (x k : Nat) : x ^^^ 2 ^ k ≠ x := by
  intro h
  have h2 : x ^^^ 2 ^ k = x ^^^ 0 := by rw [h, Nat.xor_zero]
  have h3 := Nat.xor_right_inj.mp h2
  exact absurd h3 (Nat.pos_iff_ne_zero.mp (Nat.pow_pos (by decide)))

theorem xor_bytes_flip_bit (s : IbusCore) (p k : Nat) :
    ∀ m, xor_bytes (buffer_slice (flip_bit s p k) 0 m) =
      if p < m then xor_bytes (buffer_slice s 0 m) ^^^ 2 ^ k
      else xor_bytes (buffer_slice s 0 m) := by
  intro m
  induction m with
  | zero => simp [buffer_slice, xor_bytes]
  | succ m ih =>
    rw [buffer_slice_succ, buffer_slice_succ, xor_bytes_append_one, xor_bytes_append_one, ih]
    have hd : (flip_bit s p k).ibus_data (0 + m) =
        if m = p then s.ibus_data p ^^^ 2 ^ k else s.ibus_data (0 + m) := by
      simp [flip_bit]
    rw [hd]
    by_cases h1 : p < m
    · rw [if_pos h1, if_neg (by omega), if_pos (by omega)]
      rw [Nat.xor_assoc, Nat.xor_comm (2 ^ k), ← Nat.xor_assoc]
    · by_cases h2 : m = p
      · subst h2
        rw [if_neg h1, if_pos rfl, if_pos (by omega), Nat.zero_add, Nat.xor_assoc]
      · rw [if_neg h1, if_neg h2, if_neg (by omega)]

theorem bytes_ok_flip_bit (s : IbusCore) (p k : Nat) (hb : bytes_ok s) (hk : k < 8) :
    bytes_ok (flip_bit s p k) := by
  intro i
  show (if i = p then s.ibus_data p ^^^ 2 ^ k else s.ibus_data i) < 256
  split
  · have h2 : 2 ^ k < 2 ^ 8 := Nat.pow_lt_pow_right (by decide) hk
    exact Nat.xor_lt_two_pow (n := 8) (hb p) h2
  · exact hb i

/-- C7 (amended): for a checksum-valid frame of total length `n` (5..255) at the start of
the buffer, flipping any one bit of any frame byte other than the length byte (offset 1)
makes the drain return with the buffer empty (logical length 0, array all zero) and no
hook call, whatever else was buffered after the frame. -/
theorem C7_bit_flip_outside_length_byte (s : IbusCore) (n p k : Nat)
    (hb : bytes_ok s)
    (hn : n = s.ibus_data IBUS_POS_LENGTH + 2) (hn5 : 5 ≤ n) (hn255 : n ≤ 255)
    (hck : s.ibus_data (n - 1) = xor_bytes (buffer_slice s 0 (n - 1)))
    (hidx : n ≤ s.ibus_data_index)
    (hp : p < n) (hp1 : p ≠ IBUS_POS_LENGTH) (hk : k < 8) :
    ∃ s1, ibus_process_messages (flip_bit s p k) = Drain.returned s1 ∧
      s1.platform_calls = s.platform_calls ∧
      s1.ibus_data_index = 0 ∧
      ∀ i, i < IBUS_DATA_SIZE → s1.ibus_data i = 0 := by
  have hb2 := bytes_ok_flip_bit s p k hb hk
  have hl : (flip_bit s p k).ibus_data IBUS_POS_LENGTH = s.ibus_data IBUS_POS_LENGTH := by
    show (if IBUS_POS_LENGTH = p then _ else _) = _
    rw [if_neg (fun h => hp1 h.symm)]
  have hlen := ibus_get_message_length_eq (flip_bit s p k) n (by rw [hl]; exact hn) hn255
  have hci : (n + 256 - 1) % 256 = n - 1 := by omega
  have hbad : ibus_calc_checksum (flip_bit s p k) (n - 1) ≠ (flip_bit s p k).ibus_data (n - 1) := by
    rw [ibus_calc_checksum_eq _ hb2, xor_bytes_flip_bit]
    show _ ≠ (if n - 1 = p then s.ibus_data p ^^^ 2 ^ k else s.ibus_data (n - 1))
    by_cases h1 : p < n - 1
    · rw [if_pos h1, if_neg (by omega), hck]
      exact xor_ne_self _ _
    · have h2 : n - 1 = p := by omega
      rw [if_neg h1, if_pos h2, ← h2, hck]
      exact (xor_ne_self _ _).symm
  have hpass : ibus_process_pass (flip_bit s p k) = Pass.stop (ibus_reset_buffer (flip_bit s p k)) := by
    apply ibus_process_pass_bad_checksum _ _ _ _
    · show IBUS_MIN_MESSAGE_LEN ≤ s.ibus_data_index
      unfold IBUS_MIN_MESSAGE_LEN; omega
    · rw [hlen]; exact hidx
    · rw [hlen, hci]; exact hbad
  refine ⟨ibus_reset_buffer (flip_bit s p k), ?_, rfl, rfl, ?_⟩
  · unfold ibus_process_messages
    rw [ibus_process_loop_succ_pos _ (flip_bit s p k) (show 0 < s.ibus_data_index by omega), hpass]
  · intro i hi
    unfold ibus_reset_buffer memset_zero
    dsimp only
    rw [if_pos ⟨Nat.zero_le i, by omega⟩]

/-- C7 (amended) at a concrete buffer: bit 6 of the message-id byte of the first of two
valid frames is flipped. -/
theorem C7_witness :
    ∃ s1, ibus_process_messages
        (flip_bit (ibus_holding [0x68, 3, 0x3B, 0x46, 0x16, 0x68, 3, 0x3B, 0x46, 0x16]
          IBUS_STATE_FM IBUS_STATE_AUX []) 3 6) = Drain.returned s1 ∧
      s1.platform_calls = [] ∧ s1.ibus_data_index = 0 ∧ s1.ibus_data 0 = 0 ∧
      s1.ibus_data 7 = 0 := by
  obtain ⟨s1, h1, h2, h3, h4⟩ := C7_bit_flip_outside_length_byte
    (ibus_holding [0x68, 3, 0x3B, 0x46, 0x16, 0x68, 3, 0x3B, 0x46, 0x16]
      IBUS_STATE_FM IBUS_STATE_AUX [])
    5 3 6 (bytes_ok_holding _ _ _ _ (by decide)) (by decide) (by decide) (by decide)
    (by decide) (by decide) (by decide) (by decide) (by decide)
  exact ⟨s1, h1, h2, h3, h4 0 (by decide), h4 7 (by decide)⟩

/-- C7 (counterexample): `00 03 00 00 03` is a checksum-valid 5-byte frame alone in the
buffer; flipping bit 3 of its length byte gives `00 0B 00 00 03`, which declares 13 bytes,
and the drain waits: the 5 bytes stay buffered.  Flipping bit 0 of the length byte of the
valid frame `00 03 00 02 01` gives `00 02 00 02 01`, whose first 4 bytes pass the checksum
test: the drain logs a 4-byte message. -/
theorem C7_counterexample :
    (xor_bytes [0, 3, 0, 0] = 3 ∧
      ((ibus_process_messages
        (flip_bit (ibus_holding [0, 3, 0, 0, 3] IBUS_STATE_UNKNOWN IBUS_STATE_UNKNOWN []) 1 3)
        ).state?.map (fun s => s.ibus_data_index)) = some 5) ∧
    (xor_bytes [0, 3, 0, 2] = 1 ∧
      ((ibus_process_messages
        (flip_bit (ibus_holding [0, 3, 0, 2, 1] IBUS_STATE_UNKNOWN IBUS_STATE_UNKNOWN []) 1 0)
        ).state?.map (fun s => s.platform_calls)) = some [Event.log_message [0, 2, 0, 2] 4]) := by
  decide

theorem buffer_slice_eq_of_holds {s : IbusCore} {f rest : List Nat}
    (h : holds s (f ++ rest)) (m : Nat) (hm : m ≤ f.length) :
    buffer_slice s 0 m = f.take m := by
  apply List.ext_getElem
  · simp [buffer_slice, hm]
  · intro i h1 h2
    have hi : i < m := by simpa [buffer_slice] using h1
    simp only [buffer_slice, List.getElem_map, List.getElem_range, Nat.zero_add,
      List.getElem_take]
    rw [h.2.1 i (by rw [List.length_append]; omega), List.getD_eq_getElem _ _ (by rw [List.length_append]; omega)]
    exact List.getElem_append_left (by omega)

theorem holds_data_front {s : IbusCore} {f rest : List Nat} (h : holds s (f ++ rest))
    (i : Nat) (hi : i < f.length) : s.ibus_data i = f.getD i 0 := by
  rw [h.2.1 i (by rw [List.length_append]; omega),
    List.getD_eq_getElem _ _ (by rw [List.length_append]; omega),
    List.getD_eq_getElem _ _ hi]
  exact List.getElem_append_left hi

theorem bytes_ok_remove_message (s : IbusCore) (n : Nat) (hb : bytes_ok s) :
    bytes_ok (ibus_remove_message s n) := by
  intro i
  unfold ibus_remove_message memset_zero memmove_front
  dsimp only
  split
  · decide
  · split
    · exact hb _
    · exact hb _

theorem holds_remove_message {s : IbusCore} {f rest : List Nat} (h : holds s (f ++ rest)) :
    holds (ibus_remove_message s f.length) rest := by
  obtain ⟨hi, hd, hz⟩ := h
  rw [List.length_append] at hi hd
  refine ⟨?_, ?_, ?_⟩
  · unfold ibus_remove_message
    dsimp only
    omega
  · intro i h1
    unfold ibus_remove_message memset_zero memmove_front
    dsimp only
    rw [hi, if_neg (by omega), if_pos (by omega), hd _ (by omega),
      List.getD_eq_getElem _ _ (by rw [List.length_append]; omega),
      List.getD_eq_getElem _ _ h1, List.getElem_append_right (by omega)]
    congr 1
    omega
  · intro i h1 h2
    unfold ibus_remove_message memset_zero memmove_front at *
    dsimp only at *
    rw [hi] at h1 ⊢
    split
    · rfl
    · rw [if_neg (by omega)]
      exact hz i (by omega) h2

theorem search_in_bounds_dispatch (s : IbusCore) (h : search_in_bounds s) :
    ∃ s1, ibus_dispatch s = some s1 := by
  apply ibus_dispatch_isSome
  rcases h with h | ⟨z, h1, h2, h3⟩
  · exact Or.inl h
  · right
    obtain ⟨m, hm, -⟩ := c_strlen_of_zero s.ibus_data (IBUS_DATA_SIZE - IBUS_POS_DATA_START)
      IBUS_POS_DATA_START z h1 (by unfold IBUS_DATA_SIZE IBUS_POS_DATA_START at *; omega) h3
    exact ⟨m, hm⟩

theorem ibus_process_pass_frame {s : IbusCore} {f rest : List Nat}
    (hb : bytes_ok s) (h : holds s (f ++ rest)) (hf : valid_frame f)
    (hs : search_in_bounds s) :
    ∃ s3, ibus_dispatch (ibus_platform_log_message s f.length) = some s3 ∧
      ibus_process_pass s = Pass.again (ibus_remove_message s3 f.length) ∧
      (ibus_platform_log_message s f.length).platform_calls =
        s.platform_calls ++ [Event.log_message f f.length] := by
  obtain ⟨-, h5, h255, hlenf, hckf⟩ := hf
  have h1 : s.ibus_data IBUS_POS_LENGTH = f.getD 1 0 := holds_data_front h 1 (by omega)
  have hlen : ibus_get_message_length s = f.length :=
    ibus_get_message_length_eq s f.length (by rw [h1]; exact hlenf) h255
  have hci : (f.length + 256 - 1) % 256 = f.length - 1 := by omega
  have hidx : f.length ≤ s.ibus_data_index := by
    rw [h.1, List.length_append]; omega
  have hck : ibus_calc_checksum s (f.length - 1) = s.ibus_data (f.length - 1) := by
    rw [ibus_calc_checksum_eq s hb, buffer_slice_eq_of_holds h _ (by omega),
      holds_data_front h _ (by omega), hckf]
  obtain ⟨s3, hs3⟩ := search_in_bounds_dispatch (ibus_platform_log_message s f.length) hs
  refine ⟨s3, hs3, ?_, ?_⟩
  · have := ibus_process_pass_valid s s3 (by unfold IBUS_MIN_MESSAGE_LEN; omega)
      (by rw [hlen]; exact hidx) (by rw [hlen, hci]; exact hck) (by rw [hlen]; exact hs3)
    rwa [hlen] at this
  · have hsl := buffer_slice_eq_of_holds h f.length (le_refl _)
    rw [List.take_length] at hsl
    have hmap : (List.range f.length).map s.ibus_data = f := by
      unfold buffer_slice at hsl
      simp only [Nat.zero_add] at hsl
      exact hsl
    unfold ibus_platform_log_message
    dsimp only
    rw [hmap]

/-- The drain on a buffer that holds back-to-back checksum-valid frames (each of total
length 5..255) and nothing else, when the text search stays inside the array (fewer than
`IBUS_DATA_SIZE` bytes buffered, or hijack target `IBUS_STATE_UNKNOWN`): it returns with
the buffer empty, and the hook calls it adds are, frame by frame in arrival order, the log
call with the bytes and length of the frame followed by calls that are not log calls. -/
theorem ibus_process_messages_frames (frames : List (List Nat)) :
    ∀ s : IbusCore, bytes_ok s → holds s frames.flatten → (∀ f ∈ frames, valid_frame f) →
      (s.ibus_hijack_state = IBUS_STATE_UNKNOWN ∨ s.ibus_data_index < IBUS_DATA_SIZE) →
      ∃ (s1 : IbusCore) (evs : List (List Event)),
        ibus_process_messages s = Drain.returned s1 ∧ holds s1 [] ∧
        s1.ibus_hijack_state = s.ibus_hijack_state ∧
        evs.length = frames.length ∧ (∀ l ∈ evs, ∀ e ∈ l, e.is_log = false) ∧
        s1.platform_calls = s.platform_calls ++
          (List.zipWith (fun f l => Event.log_message f f.length :: l) frames evs).flatten := by
  induction frames with
  | nil =>
    intro s _ h _ _
    refine ⟨s, [], ?_, h, rfl, rfl, by simp, by simp⟩
    unfold ibus_process_messages
    exact ibus_process_loop_empty _ s (by simpa using h.1)
  | cons f rest ih =>
    intro s hb h hv hsafe
    rw [List.flatten_cons] at h
    have hf := hv f (List.mem_cons_self _ _)
    have hidx : s.ibus_data_index = f.length + rest.flatten.length := by
      rw [h.1, List.length_append]
    have hs : search_in_bounds s := by
      rcases hsafe with hu | hlt
      · exact Or.inl hu
      · exact Or.inr ⟨s.ibus_data_index, by unfold IBUS_POS_DATA_START; have := hf.2.1; omega,
          hlt, h.2.2 _ (le_refl _) hlt⟩
    obtain ⟨s3, hd, hp, hc⟩ := ibus_process_pass_frame hb h hf hs
    obtain ⟨hd3, hi3, hh3, evs3, hc3, hnl3⟩ := dispatched_dispatch hd
    have h3 : holds s3 (f ++ rest.flatten) := by
      unfold holds zero_tail at *
      rw [hd3, hi3]
      exact h
    have hb3 : bytes_ok s3 := by
      unfold bytes_ok
      rw [hd3]
      exact hb
    have hrm := holds_remove_message h3
    have hbr := bytes_ok_remove_message s3 f.length hb3
    have hir : (ibus_remove_message s3 f.length).ibus_data_index < s.ibus_data_index := by
      rw [hrm.1, hidx]
      have := hf.2.1
      omega
    obtain ⟨s1, evs, hr, hh, hhj, hl, hnl, hcalls⟩ := ih (ibus_remove_message s3 f.length) hbr hrm
      (fun g hg => hv g (List.mem_cons_of_mem _ hg))
      (by
        rcases hsafe with hu | hlt
        · exact Or.inl (hh3.trans hu)
        · exact Or.inr (by omega))
    refine ⟨s1, evs3 :: evs, ?_, hh, ?_, by simp [hl], ?_, ?_⟩
    · unfold ibus_process_messages
      rw [ibus_process_loop_succ_pos _ s (by have := hf.2.1; omega), hp]
      dsimp only
      rw [ibus_process_messages_eq_loop _ _ hir]
      exact hr
    · rw [hhj]
      exact hh3
    · intro l hl
      rcases List.mem_cons.mp hl with rfl | hl
      · exact hnl3
      · exact hnl l hl
    · rw [hcalls]
      show s3.platform_calls ++ _ = _
      rw [hc3, hc]
      simp [List.zipWith_cons_cons, List.flatten_cons, List.append_assoc]

theorem ibus_feed_spec (bytes : List Nat) :
    ∀ s : IbusCore, s.ibus_data_index + bytes.length ≤ IBUS_DATA_SIZE →
      (ibus_feed s bytes).ibus_data_index = s.ibus_data_index + bytes.length ∧
      (ibus_feed s bytes).ibus_state = s.ibus_state ∧
      (ibus_feed s bytes).ibus_hijack_state = s.ibus_hijack_state ∧
      (ibus_feed s bytes).platform_calls = s.platform_calls ∧
      ∀ i, (ibus_feed s bytes).ibus_data i =
        if s.ibus_data_index ≤ i ∧ i < s.ibus_data_index + bytes.length
        then bytes.getD (i - s.ibus_data_index) 0 % 256 else s.ibus_data i := by
  induction bytes with
  | nil =>
    intro s _
    refine ⟨rfl, rfl, rfl, rfl, ?_⟩
    intro i
    rw [if_neg]
    · rfl
    · simp only [List.length_nil, Nat.add_zero]; omega
  | cons b bs ih =>
    intro s hs
    rw [List.length_cons] at hs
    have hlt : ¬ s.ibus_data_index ≥ IBUS_DATA_SIZE := by omega
    have happ : ibus_append_byte s b =
        { s with
          ibus_data := fun i => if i = s.ibus_data_index then b % 256 else s.ibus_data i
          ibus_data_index := s.ibus_data_index + 1 } := by
      unfold ibus_append_byte
      rw [if_neg hlt]
    have hfeed : ibus_feed s (b :: bs) = ibus_feed (ibus_append_byte s b) bs := rfl
    obtain ⟨h1, h2, h3, h4, h5⟩ := ih (ibus_append_byte s b) (by rw [happ]; dsimp only; omega)
    rw [hfeed, h1, h2, h3, h4]
    rw [happ] at h5 ⊢
    dsimp only at h5 ⊢
    refine ⟨by rw [List.length_cons]; omega, rfl, rfl, rfl, ?_⟩
    intro i
    rw [h5 i, List.length_cons]
    by_cases hi : i = s.ibus_data_index
    · subst hi
      rw [if_neg (by omega), if_pos rfl, if_pos (by omega), Nat.sub_self]
      rfl
    · by_cases h6 : s.ibus_data_index + 1 ≤ i ∧ i < s.ibus_data_index + 1 + bs.length
      · rw [if_pos h6, if_pos (by omega)]
        obtain ⟨j, hj⟩ : ∃ j, i - s.ibus_data_index = j + 1 := ⟨i - s.ibus_data_index - 1, by omega⟩
        rw [hj, show i - (s.ibus_data_index + 1) = j by omega]
        rfl
      · rw [if_neg h6, if_neg hi, if_neg (by omega)]

theorem ibus_feed_holds (bytes : List Nat) (s : IbusCore) (hi : s.ibus_data_index = 0)
    (hz : zero_tail s) (hb : ∀ b ∈ bytes, b < 256) (hl : bytes.length ≤ IBUS_DATA_SIZE) :
    holds (ibus_feed s bytes) bytes := by
  obtain ⟨h1, -, -, -, h5⟩ := ibus_feed_spec bytes s (by omega)
  refine ⟨by omega, ?_, ?_⟩
  · intro i h
    rw [h5 i, if_pos (by omega), hi, Nat.sub_zero, Nat.mod_eq_of_lt]
    rw [List.getD_eq_getElem _ _ h]
    exact hb _ (List.getElem_mem _)
  · intro i h h2
    rw [h5 i, if_neg (by omega)]
    exact hz i (by omega) h2

theorem ibus_feed_bytes_ok (bytes : List Nat) (s : IbusCore) (hs : bytes_ok s)
    (hl : s.ibus_data_index + bytes.length ≤ IBUS_DATA_SIZE) : bytes_ok (ibus_feed s bytes) := by
  obtain ⟨-, -, -, -, h5⟩ := ibus_feed_spec bytes s hl
  intro i
  rw [h5 i]
  split
  · exact Nat.mod_lt _ (by decide)
  · exact hs i

theorem ibus_init_spec (s : IbusCore) (hj : ibus_state_t) :
    (ibus_init s hj).ibus_data_index = 0 ∧ zero_tail (ibus_init s hj) ∧
      (ibus_init s hj).ibus_state = IBUS_STATE_UNKNOWN ∧
      (ibus_init s hj).ibus_hijack_state = hj ∧
      (ibus_init s hj).platform_calls = s.platform_calls := by
  refine ⟨rfl, ?_, rfl, rfl, rfl⟩
  intro i _ h
  show memset_zero s.ibus_data 0 IBUS_DATA_SIZE i = 0
  unfold memset_zero
  rw [if_pos ⟨Nat.zero_le i, by omega⟩]

theorem bytes_ok_init (s : IbusCore) (hj : ibus_state_t) (hs : bytes_ok s) :
    bytes_ok (ibus_init s hj) := by
  intro i
  show memset_zero s.ibus_data 0 IBUS_DATA_SIZE i < 256
  unfold memset_zero
  split
  · decide
  · exact hs i

theorem bytes_ok_startup : bytes_ok ibus_startup := by
  intro i
  show 0 < 256
  decide

theorem c_strlen_none (a : Nat → Nat) :
    ∀ (room start : Nat), (∀ z, start ≤ z → z < start + room → a z ≠ 0) →
      c_strlen a start room = none := by
  intro room
  induction room with
  | zero => intro start _; rfl
  | succ r ih =>
    intro start h
    unfold c_strlen
    rw [if_neg (h start (le_refl _) (by omega)),
      ih (start + 1) (fun z h1 h2 => h z (by omega) (by omega))]
    rfl

theorem getD_flatten_replicate (F : List Nat) (m : Nat) (hm : F.length = m) :
    ∀ (k i : Nat), i < k * m →
      (List.flatten (List.replicate k F)).getD i 0 = F.getD (i % m) 0 := by
  intro k
  induction k with
  | zero => intro i h; omega
  | succ k ih =>
    intro i h
    rw [List.replicate_succ, List.flatten_cons]
    by_cases hi : i < m
    · rw [List.getD_append _ _ _ _ (by omega), Nat.mod_eq_of_lt hi]
    · have hge : i ≥ m := by omega
      have hlt : i - m < k * m := by
        rw [Nat.succ_mul] at h
        omega
      rw [List.getD_append_right _ _ _ _ (by omega), hm, ih (i - m) hlt,
        ← Nat.mod_eq_sub_mod hge]

theorem length_flatten_replicate (F : List Nat) :
    ∀ k, (List.flatten (List.replicate k F)).length = k * F.length := by
  intro k
  induction k with
  | zero => simp
  | succ k ih =>
    rw [List.replicate_succ, List.flatten_cons, List.length_append, ih, Nat.succ_mul]
    omega

theorem ibus_handle_buttons_other_sender (s : IbusCore)
    (h1 : ibus_get_sender s ≠ IBUS_DEV_BMBT) (h2 : ibus_get_sender s ≠ IBUS_DEV_MFL) :
    ibus_handle_buttons s = s := by
  unfold ibus_handle_buttons
  dsimp only
  rw [if_neg h1, if_neg (fun h => h2 h.1)]

theorem ibus_handle_headunit_state_unterminated (s : IbusCore)
    (h1 : ibus_get_sender s = IBUS_DEV_RAD) (h2 : ibus_get_receiver s = IBUS_DEV_GT)
    (h3 : ibus_get_message s = IBUS_MSG_UMID) (h4 : ibus_get_data_length s > 0)
    (h5 : ibus_get_data_byte s 0 = 0x62)
    (hnz : ∀ z, IBUS_POS_DATA_START ≤ z → z < IBUS_DATA_SIZE → s.ibus_data z ≠ 0) :
    ibus_handle_headunit_state s = none := by
  have hc : c_strlen s.ibus_data IBUS_POS_DATA_START (IBUS_DATA_SIZE - IBUS_POS_DATA_START)
      = none :=
    c_strlen_none _ _ _ (fun z hz1 hz2 => hnz z hz1
      (by unfold IBUS_DATA_SIZE IBUS_POS_DATA_START IBUS_MAX_MESSAGE_LEN at *; omega))
  unfold ibus_handle_headunit_state ibus_data_contains
  dsimp only
  rw [if_pos ⟨h1, h2⟩, if_pos h3, if_pos ⟨h4, h5⟩, hc]
  rfl

theorem ibus_process_pass_fault (s : IbusCore)
    (h5 : IBUS_MIN_MESSAGE_LEN ≤ s.ibus_data_index)
    (hlen : ibus_get_message_length s ≤ s.ibus_data_index)
    (hck : ibus_calc_checksum s ((ibus_get_message_length s + 256 - 1) % 256) =
      s.ibus_data ((ibus_get_message_length s + 256 - 1) % 256))
    (hd : ibus_dispatch (ibus_platform_log_message s (ibus_get_message_length s)) = none) :
    ibus_process_pass s = Pass.fault := by
  unfold ibus_process_pass
  dsimp only
  rw [if_neg (by omega), if_neg (by omega), if_neg (by simpa using hck), hd]

theorem ibus_process_messages_full_of_umid (s : IbusCore)
    (hidx : s.ibus_data_index = 2056) (hhj : s.ibus_hijack_state ≠ IBUS_STATE_UNKNOWN)
    (hd : ∀ i, i < 2056 →
      s.ibus_data i = [0x68, 0x06, 0x3B, 0x23, 0x62, 0x41, 0x41, 0x14].getD (i % 8) 0) :
    ibus_process_messages s = Drain.fault := by
  have hsize : IBUS_DATA_SIZE = 2056 := by decide
  have hnz : ∀ z, IBUS_POS_DATA_START ≤ z → z < IBUS_DATA_SIZE → s.ibus_data z ≠ 0 := by
    intro z _ hz
    rw [hsize] at hz
    rw [hd z hz]
    have h8 : z % 8 < 8 := Nat.mod_lt _ (by decide)
    generalize z % 8 = r at h8
    interval_cases r <;> decide
  have hb0 : s.ibus_data 0 = 0x68 := hd 0 (by decide)
  have hb1 : s.ibus_data 1 = 0x06 := hd 1 (by decide)
  have hb2 : s.ibus_data 2 = 0x3B := hd 2 (by decide)
  have hb3 : s.ibus_data 3 = 0x23 := hd 3 (by decide)
  have hb4 : s.ibus_data 4 = 0x62 := hd 4 (by decide)
  have hb5 : s.ibus_data 5 = 0x41 := hd 5 (by decide)
  have hb6 : s.ibus_data 6 = 0x41 := hd 6 (by decide)
  have hb7 : s.ibus_data 7 = 0x14 := hd 7 (by decide)
  have hml : ibus_get_message_length s = 8 :=
    ibus_get_message_length_eq s 8 (by show 8 = s.ibus_data 1 + 2; rw [hb1]) (by decide)
  have hpass : ibus_process_pass s = Pass.fault := by
    apply ibus_process_pass_fault s
    · rw [hidx]; decide
    · rw [hml, hidx]; decide
    · rw [hml]
      show (ibus_calc_checksum s 7) = s.ibus_data 7
      simp only [ibus_calc_checksum, ibus_calc_checksum_loop, hb0, hb1, hb2, hb3, hb4, hb5,
        hb6, hb7]
      rfl
    · rw [hml]
      unfold ibus_dispatch
      dsimp only
      have hs : ibus_get_sender (ibus_platform_log_message s 8) = 0x68 := hb0
      rw [ibus_handle_buttons_other_sender _ (by rw [hs]; decide) (by rw [hs]; decide)]
      rw [if_pos (by exact hhj)]
      apply ibus_handle_headunit_state_unterminated
      · exact hb0
      · exact hb2
      · exact hb3
      · show ibus_get_data_length s > 0
        unfold ibus_get_data_length IBUS_MIN_MESSAGE_LEN
        rw [hml]
        decide
      · exact hb4
      · exact hnz
  unfold ibus_process_messages
  rw [ibus_process_loop_succ_pos _ s (by rw [hidx]; decide), hpass]

theorem ibus_change_state_with_buffer_of (x b : IbusCore) (st : ibus_state_t) :
    ibus_change_state (with_buffer_of x b) st = with_buffer_of (ibus_change_state x st) b := by
  unfold ibus_change_state
  show (if x.ibus_state = st then _ else _) = with_buffer_of (if x.ibus_state = st then _ else _) b
  split <;> rfl

theorem ibus_platform_button_event_with_buffer_of (x b : IbusCore) (c r l : Nat) :
    ibus_platform_button_event (with_buffer_of x b) c r l =
      with_buffer_of (ibus_platform_button_event x c r l) b := rfl

theorem ibus_platform_knob_event_with_buffer_of (x b : IbusCore) (c n : Nat) :
    ibus_platform_knob_event (with_buffer_of x b) c n =
      with_buffer_of (ibus_platform_knob_event x c n) b := rfl

theorem ibus_get_data_length_with_buffer_of (x b : IbusCore)
    (h1 : b.ibus_data 1 = x.ibus_data 1) :
    ibus_get_data_length (with_buffer_of x b) = ibus_get_data_length x := by
  have hl : ibus_get_message_length (with_buffer_of x b) = ibus_get_message_length x := by
    show (b.ibus_data 1 + _) % 256 = (x.ibus_data 1 + _) % 256
    rw [h1]
  unfold ibus_get_data_length
  rw [hl]

theorem ibus_handle_buttons_with_buffer_of (x b : IbusCore)
    (h0 : b.ibus_data 0 = x.ibus_data 0) (h1 : b.ibus_data 1 = x.ibus_data 1)
    (h2 : b.ibus_data 2 = x.ibus_data 2) (h3 : b.ibus_data 3 = x.ibus_data 3)
    (h4 : b.ibus_data 4 = x.ibus_data 4)
    (h5 : ibus_get_data_length x ≥ 2 → b.ibus_data 5 = x.ibus_data 5) :
    ibus_handle_buttons (with_buffer_of x b) = with_buffer_of (ibus_handle_buttons x) b := by
  have e0 : ibus_get_sender (with_buffer_of x b) = ibus_get_sender x := h0
  have e2 : ibus_get_receiver (with_buffer_of x b) = ibus_get_receiver x := h2
  have e3 : ibus_get_message (with_buffer_of x b) = ibus_get_message x := h3
  have e1 := ibus_get_data_length_with_buffer_of x b h1
  have e4 : ibus_get_data_byte (with_buffer_of x b) 0 = ibus_get_data_byte x 0 := h4
  unfold ibus_handle_buttons
  dsimp only
  rw [e0, e1, e2, e3, e4]
  have fold_ite : ∀ (P : Prop) [Decidable P] (a c : IbusCore),
      (if P then with_buffer_of a b else with_buffer_of c b) =
        with_buffer_of (if P then a else c) b := by
    intro P _ a c
    split <;> rfl
  by_cases hdl : ibus_get_data_length x ≥ 2
  · have e5 : ibus_get_data_byte (with_buffer_of x b) 1 = ibus_get_data_byte x 1 := h5 hdl
    rw [e5]
    simp only [ibus_change_state_with_buffer_of, ibus_platform_button_event_with_buffer_of,
      ibus_platform_knob_event_with_buffer_of, fold_ite]
  · have hn : ¬ (ibus_get_message x = IBUS_MSG_BMBTB0 ∧ ibus_get_data_length x ≥ 2) :=
      fun h => hdl h.2
    simp only [hn, if_false, ibus_change_state_with_buffer_of,
      ibus_platform_button_event_with_buffer_of, ibus_platform_knob_event_with_buffer_of,
      fold_ite]

theorem ibus_handle_headunit_state_with_buffer_of (x b : IbusCore)
    (h0 : b.ibus_data 0 = x.ibus_data 0) (h1 : b.ibus_data 1 = x.ibus_data 1)
    (h2 : b.ibus_data 2 = x.ibus_data 2) (h3 : b.ibus_data 3 = x.ibus_data 3)
    (h4 : b.ibus_data 4 = x.ibus_data 4)
    (hc : ∀ tag, ibus_data_contains (with_buffer_of x b) tag = ibus_data_contains x tag) :
    ibus_handle_headunit_state (with_buffer_of x b) =
      (ibus_handle_headunit_state x).map (fun z => with_buffer_of z b) := by
  have e0 : ibus_get_sender (with_buffer_of x b) = ibus_get_sender x := h0
  have e2 : ibus_get_receiver (with_buffer_of x b) = ibus_get_receiver x := h2
  have e3 : ibus_get_message (with_buffer_of x b) = ibus_get_message x := h3
  have e1 := ibus_get_data_length_with_buffer_of x b h1
  have e4 : ibus_get_data_byte (with_buffer_of x b) 0 = ibus_get_data_byte x 0 := h4
  unfold ibus_handle_headunit_state
  dsimp only
  rw [e0, e1, e2, e3, e4]
  simp only [hc]
  unfold ibus_data_contains
  cases c_strlen x.ibus_data IBUS_POS_DATA_START (IBUS_DATA_SIZE - IBUS_POS_DATA_START) with
  | none =>
    simp only [Option.map_none', Option.none_bind, apply_ite (Option.map (fun z => with_buffer_of z b)),
      Option.map_some', ibus_change_state_with_buffer_of]
  | some n =>
    simp only [Option.map_some', Option.some_bind, apply_ite (Option.map (fun z => with_buffer_of z b)),
      ibus_change_state_with_buffer_of]

theorem ibus_dispatch_with_buffer_of (x b : IbusCore)
    (h0 : b.ibus_data 0 = x.ibus_data 0) (h1 : b.ibus_data 1 = x.ibus_data 1)
    (h2 : b.ibus_data 2 = x.ibus_data 2) (h3 : b.ibus_data 3 = x.ibus_data 3)
    (h4 : b.ibus_data 4 = x.ibus_data 4)
    (h5 : ibus_get_data_length x ≥ 2 → b.ibus_data 5 = x.ibus_data 5)
    (hc : x.ibus_hijack_state = IBUS_STATE_UNKNOWN ∨
      ∀ y tag, y.ibus_data = x.ibus_data →
        ibus_data_contains (with_buffer_of y b) tag = ibus_data_contains y tag) :
    ibus_dispatch (with_buffer_of x b) = (ibus_dispatch x).map (fun z => with_buffer_of z b) := by
  unfold ibus_dispatch
  dsimp only
  rw [ibus_handle_buttons_with_buffer_of x b h0 h1 h2 h3 h4 h5]
  have hb := dispatched_handle_buttons x
  have hhj : (with_buffer_of (ibus_handle_buttons x) b).ibus_hijack_state =
      (ibus_handle_buttons x).ibus_hijack_state := rfl
  rw [hhj]
  split
  · rename_i hne
    rcases hc with hu | hc
    · exact absurd (hb.2.2.1.trans hu) hne
    · apply ibus_handle_headunit_state_with_buffer_of
      · rw [hb.1]; exact h0
      · rw [hb.1]; exact h1
      · rw [hb.1]; exact h2
      · rw [hb.1]; exact h3
      · rw [hb.1]; exact h4
      · intro tag
        exact hc _ tag hb.1
  · rfl

theorem c_strlen_congr (a c : Nat → Nat) (room start z : Nat)
    (hag : ∀ i, start ≤ i → i ≤ z → c i = a i) (hz0 : a z = 0)
    (h1 : start ≤ z) (h2 : z < start + room) :
    ∃ n, c_strlen a start room = some n ∧ c_strlen c start room = some n ∧ start + n ≤ z := by
  obtain ⟨n, hn, hle, hzero, hnz⟩ := c_strlen_of_zero a room start z h1 h2 hz0
  obtain ⟨m, hm, hle2, hzero2, hnz2⟩ := c_strlen_of_zero c room start z h1 h2
    (by rw [hag z h1 (le_refl _)]; exact hz0)
  have hnm : n = m := by
    rcases Nat.lt_trichotomy n m with h | h | h
    · exact absurd (by rw [hag _ (by omega) (by omega)]; exact hzero) (hnz2 n h)
    · exact h
    · exact absurd (by rw [← hag _ (by omega) (by omega)]; exact hzero2) (hnz m h)
  subst hnm
  exact ⟨n, hn, hm, hle⟩

theorem ibus_data_contains_with_buffer_of (y b : IbusCore) (z : Nat)
    (hz1 : IBUS_POS_DATA_START ≤ z) (hz2 : z < IBUS_DATA_SIZE) (hz0 : y.ibus_data z = 0)
    (hag : ∀ i, i ≤ z → b.ibus_data i = y.ibus_data i) (tag : List Nat) :
    ibus_data_contains (with_buffer_of y b) tag = ibus_data_contains y tag := by
  obtain ⟨n, hn, hm, hle⟩ := c_strlen_congr y.ibus_data b.ibus_data
    (IBUS_DATA_SIZE - IBUS_POS_DATA_START) IBUS_POS_DATA_START z
    (fun i _ h => hag i h) hz0 hz1 (by unfold IBUS_DATA_SIZE IBUS_POS_DATA_START at *; omega)
  unfold ibus_data_contains
  show Option.map _ (c_strlen b.ibus_data _ _) = _
  rw [hn, hm]
  show some (strstr_found (List.map (fun k => b.ibus_data (IBUS_POS_DATA_START + k)) (List.range n)) tag)
    = some (strstr_found (List.map (fun k => y.ibus_data (IBUS_POS_DATA_START + k)) (List.range n)) tag)
  have hmap : List.map (fun k => b.ibus_data (IBUS_POS_DATA_START + k)) (List.range n) =
      List.map (fun k => y.ibus_data (IBUS_POS_DATA_START + k)) (List.range n) := by
    apply List.map_congr_left
    intro k hk
    have := List.mem_range.mp hk
    exact hag _ (by omega)
  rw [hmap]

theorem with_buffer_of_self (a b : IbusCore) (h1 : a.ibus_state = b.ibus_state)
    (h2 : a.ibus_hijack_state = b.ibus_hijack_state) (h3 : a.platform_calls = b.platform_calls) :
    with_buffer_of a b = b := by
  cases a
  cases b
  simp only [with_buffer_of] at *
  subst h1 h2 h3
  rfl

theorem ibus_process_messages_incomplete (s : IbusCore)
    (h : s.ibus_data_index < IBUS_MIN_MESSAGE_LEN ∨
      s.ibus_data_index < ibus_get_message_length s) :
    ibus_process_messages s = Drain.returned s := by
  unfold ibus_process_messages
  rcases h with h | h
  · exact ibus_process_loop_short _ s h
  · by_cases h0 : 0 < s.ibus_data_index
    · rw [ibus_process_loop_succ_pos _ s h0, ibus_process_pass_wait s h]
    · exact ibus_process_loop_empty _ s (by omega)

theorem ibus_feed_append (s : IbusCore) (p q : List Nat) :
    ibus_feed s (p ++ q) = ibus_feed (ibus_feed s p) q := by
  unfold ibus_feed
  rw [List.foldl_append]

theorem ibus_feed_draining_cons (s : IbusCore) (b : Nat) (bs : List Nat) :
    ibus_feed_draining s (b :: bs) =
      match ibus_process_messages (ibus_append_byte s b) with
      | Drain.returned s1 => ibus_feed_draining s1 bs
      | Drain.fault => Drain.fault
      | Drain.out_of_fuel => Drain.out_of_fuel := rfl

theorem ibus_feed_draining_append (p q : List Nat) :
    ∀ (s s1 : IbusCore), ibus_feed_draining s p = Drain.returned s1 →
      ibus_feed_draining s (p ++ q) = ibus_feed_draining s1 q := by
  induction p with
  | nil =>
    intro s s1 h
    unfold ibus_feed_draining at h
    cases h
    rfl
  | cons b p ih =>
    intro s s1 h
    rw [List.cons_append, ibus_feed_draining_cons]
    rw [ibus_feed_draining_cons] at h
    cases hd : ibus_process_messages (ibus_append_byte s b) with
    | returned s2 =>
      rw [hd] at h
      exact ih s2 s1 h
    | fault => rw [hd] at h; cases h
    | out_of_fuel => rw [hd] at h; cases h

theorem log_message_calls_of_holds {s : IbusCore} {f rest : List Nat}
    (h : holds s (f ++ rest)) :
    (ibus_platform_log_message s f.length).platform_calls =
      s.platform_calls ++ [Event.log_message f f.length] := by
  have hsl := buffer_slice_eq_of_holds h f.length (le_refl _)
  rw [List.take_length] at hsl
  have hmap : (List.range f.length).map s.ibus_data = f := by
    unfold buffer_slice at hsl
    simp only [Nat.zero_add] at hsl
    exact hsl
  unfold ibus_platform_log_message
  dsimp only
  rw [hmap]

theorem ibus_dispatch_frame_congr {A B : IbusCore} {f ra rb : List Nat}
    (hA : holds A (f ++ ra)) (hB : holds B (f ++ rb)) (hf : valid_frame f)
    (hst : A.ibus_state = B.ibus_state) (hhj : A.ibus_hijack_state = B.ibus_hijack_state)
    (hcalls : A.platform_calls = B.platform_calls)
    (hsafe : A.ibus_hijack_state = IBUS_STATE_UNKNOWN ∨
      ∃ z, IBUS_POS_DATA_START ≤ z ∧ z < f.length ∧ f.getD z 0 = 0)
    (a3 : IbusCore)
    (hd : ibus_dispatch (ibus_platform_log_message A f.length) = some a3) :
    ibus_dispatch (ibus_platform_log_message B f.length) = some (with_buffer_of a3 B) := by
  obtain ⟨-, h5, h255, hlenf, -⟩ := hf
  have hag : ∀ i, i < f.length → B.ibus_data i = A.ibus_data i := by
    intro i hi
    rw [holds_data_front hA i hi, holds_data_front hB i hi]
  have hlog : with_buffer_of (ibus_platform_log_message A f.length) B =
      ibus_platform_log_message B f.length := by
    have h := with_buffer_of_self (ibus_platform_log_message A f.length)
      (ibus_platform_log_message B f.length) hst hhj
      (by rw [log_message_calls_of_holds hA, log_message_calls_of_holds hB, hcalls])
    exact h
  have hlenA : ibus_get_message_length A = f.length :=
    ibus_get_message_length_eq A f.length
      (by rw [show A.ibus_data IBUS_POS_LENGTH = f.getD 1 0 from holds_data_front hA 1 (by omega)]
          exact hlenf) h255
  rw [← hlog, ibus_dispatch_with_buffer_of (ibus_platform_log_message A f.length) B
    (hag 0 (by omega)) (hag 1 (by omega)) (hag 2 (by omega)) (hag 3 (by omega))
    (hag 4 (by omega)) ?_ ?_, hd]
  · rfl
  · intro hdl
    apply hag
    have hdl2 : ibus_get_data_length A ≥ 2 := hdl
    unfold ibus_get_data_length IBUS_MIN_MESSAGE_LEN at hdl2
    rw [hlenA] at hdl2
    dsimp only at hdl2
    split at hdl2 <;> omega
  · rcases hsafe with hu | ⟨z, hz1, hz2, hz0⟩
    · exact Or.inl hu
    · right
      intro y tag hy
      have hyd : y.ibus_data = A.ibus_data := hy
      apply ibus_data_contains_with_buffer_of y B z hz1
        (by unfold IBUS_DATA_SIZE IBUS_MAX_MESSAGE_LEN; omega)
      · rw [hyd, holds_data_front hA z hz2]
        exact hz0
      · intro i hi
        rw [hyd]
        exact hag i (by omega)

theorem incomplete_candidate_head {t g r : List Nat} (h : incomplete_candidate t)
    (ht : t = g ++ r) : incomplete_candidate g := by
  obtain ⟨hb, hl⟩ := h
  have hlen : g.length + r.length = t.length := by rw [ht, List.length_append]
  refine ⟨fun b hbg => hb b (by rw [ht]; exact List.mem_append_left _ hbg), ?_⟩
  by_cases hg : g.length < 5
  · exact Or.inl hg
  · right
    have h1 : g.getD 1 0 = t.getD 1 0 := by
      rw [ht, List.getD_append _ _ _ _ (by omega)]
    rw [h1]
    rcases hl with hl | hl
    · omega
    · exact ⟨hl.1, by omega⟩

theorem incomplete_candidate_of_frame {f g r : List Nat} (hf : valid_frame f)
    (hfg : f = g ++ r) (hr : r ≠ []) : incomplete_candidate g := by
  obtain ⟨hb, h5, h255, hlenf, -⟩ := hf
  have hrl : 0 < r.length := List.length_pos.mpr hr
  have hlen : g.length + r.length = f.length := by rw [hfg, List.length_append]
  refine ⟨fun b hbg => hb b (by rw [hfg]; exact List.mem_append_left _ hbg), ?_⟩
  by_cases hg : g.length < 5
  · exact Or.inl hg
  · right
    have h1 : g.getD 1 0 = f.getD 1 0 := by
      rw [hfg, List.getD_append _ _ _ _ (by omega)]
    rw [h1]
    omega

theorem ibus_process_messages_holds_incomplete {s : IbusCore} {t : List Nat}
    (h : holds s t) (ht : incomplete_candidate t) :
    ibus_process_messages s = Drain.returned s := by
  apply ibus_process_messages_incomplete
  rcases ht.2 with hl | ⟨h253, hl⟩
  · left
    rw [h.1]
    exact hl
  · by_cases h5 : t.length < 5
    · left
      rw [h.1]
      exact h5
    · right
      have h1 : s.ibus_data IBUS_POS_LENGTH = t.getD 1 0 := h.2.1 1 (by omega)
      rw [ibus_get_message_length_eq s (t.getD 1 0 + 2) (by rw [h1]) (by omega), h.1]
      exact hl

theorem ibus_process_messages_partial_frame (e : IbusCore) (g : List Nat)
    (he : e.ibus_data_index = 0) (hz : zero_tail e) (hg : incomplete_candidate g) :
    ibus_process_messages (ibus_feed e g) = Drain.returned (ibus_feed e g) := by
  have hlen : g.length ≤ IBUS_DATA_SIZE := by
    unfold IBUS_DATA_SIZE IBUS_MAX_MESSAGE_LEN
    rcases hg.2 with h | h <;> omega
  exact ibus_process_messages_holds_incomplete (ibus_feed_holds g e he hz hg.1 hlen) hg

theorem ibus_feed_draining_partial_frame (e : IbusCore) (t : List Nat)
    (he : e.ibus_data_index = 0) (hz : zero_tail e) (ht : incomplete_candidate t) :
    ∀ (q p r : List Nat), t = p ++ q ++ r →
      ibus_feed_draining (ibus_feed e p) q = Drain.returned (ibus_feed e (p ++ q)) := by
  intro q
  induction q with
  | nil =>
    intro p r _
    rw [List.append_nil]
    rfl
  | cons b q ih =>
    intro p r hfp
    have happ : ibus_append_byte (ibus_feed e p) b = ibus_feed e (p ++ [b]) := by
      rw [ibus_feed_append]
      rfl
    rw [ibus_feed_draining_cons, happ,
      ibus_process_messages_partial_frame e (p ++ [b]) he hz
        (incomplete_candidate_head (r := q ++ r) ht (by rw [hfp]; simp))]
    dsimp only
    rw [ih (p ++ [b]) r (by rw [hfp]; simp)]
    simp

theorem ibus_feed_draining_incomplete (e : IbusCore) (t : List Nat)
    (he : e.ibus_data_index = 0) (hz : zero_tail e) (ht : incomplete_candidate t) :
    ibus_feed_draining e t = Drain.returned (ibus_feed e t) := by
  have h := ibus_feed_draining_partial_frame e t he hz ht t [] [] (by simp)
  rw [List.nil_append] at h
  exact h

theorem ibus_process_messages_one_frame {s : IbusCore} {f : List Nat}
    (hb : bytes_ok s) (h : holds s f) (hf : valid_frame f) (hs : search_in_bounds s)
    (s3 : IbusCore)
    (hd : ibus_dispatch (ibus_platform_log_message s f.length) = some s3) :
    ibus_process_messages s = Drain.returned (ibus_remove_message s3 f.length) := by
  have h2 : holds s (f ++ []) := by rw [List.append_nil]; exact h
  obtain ⟨s3', hd', hp, -⟩ := ibus_process_pass_frame hb h2 hf hs
  rw [hd] at hd'
  cases hd'
  have hi3 : s3.ibus_data_index = s.ibus_data_index := (dispatched_dispatch hd).2.1
  have h5 := hf.2.1
  unfold ibus_process_messages
  rw [ibus_process_loop_succ_pos _ s (by rw [h.1]; omega), hp]
  dsimp only
  rw [show s.ibus_data_index = (s.ibus_data_index - 1) + 1 by rw [h.1]; omega]
  apply ibus_process_loop_empty
  unfold ibus_remove_message
  dsimp only
  rw [hi3, h.1]
  omega

theorem ibus_feed_draining_one_frame (e : IbusCore) (f : List Nat)
    (hbe : bytes_ok e) (he : e.ibus_data_index = 0) (hz : zero_tail e) (hf : valid_frame f)
    (hsafe : e.ibus_hijack_state = IBUS_STATE_UNKNOWN ∨
      ∃ z, IBUS_POS_DATA_START ≤ z ∧ z < f.length ∧ f.getD z 0 = 0) :
    holds (ibus_feed e f) f ∧
    ∃ a3, ibus_dispatch (ibus_platform_log_message (ibus_feed e f) f.length) = some a3 ∧
      ibus_feed_draining e f = Drain.returned (ibus_remove_message a3 f.length) := by
  have h5 := hf.2.1
  have h255 := hf.2.2.1
  have hne : f ≠ [] := by
    intro h
    rw [h] at h5
    simp at h5
  have hsz : f.length ≤ IBUS_DATA_SIZE := by
    unfold IBUS_DATA_SIZE IBUS_MAX_MESSAGE_LEN; omega
  have hS : holds (ibus_feed e f) f := ibus_feed_holds f e he hz hf.1 hsz
  have hbS : bytes_ok (ibus_feed e f) := ibus_feed_bytes_ok f e hbe (by omega)
  obtain ⟨-, -, hhjS, -, -⟩ := ibus_feed_spec f e (by omega)
  have hsS : search_in_bounds (ibus_feed e f) := by
    rcases hsafe with hu | ⟨z, hz1, hz2, hz0⟩
    · exact Or.inl (hhjS.trans hu)
    · exact Or.inr ⟨z, hz1, by omega, by rw [hS.2.1 z hz2]; exact hz0⟩
  obtain ⟨a3, ha3⟩ := search_in_bounds_dispatch
    (ibus_platform_log_message (ibus_feed e f) f.length) hsS
  refine ⟨hS, a3, ha3, ?_⟩
  have hsplit : f.dropLast ++ [f.getLast hne] = f := List.dropLast_append_getLast hne
  have hpre := ibus_feed_draining_incomplete e f.dropLast he hz
    (incomplete_candidate_of_frame hf hsplit.symm (by simp))
  have key := ibus_feed_draining_append f.dropLast [f.getLast hne] e _ hpre
  rw [hsplit] at key
  rw [key, ibus_feed_draining_cons]
  have happ : ibus_append_byte (ibus_feed e f.dropLast) (f.getLast hne) = ibus_feed e f := by
    conv_rhs => rw [← hsplit, ibus_feed_append]
    rfl
  rw [happ, ibus_process_messages_one_frame hbS hS hf hsS a3 ha3]
  rfl

theorem holds_of_eq {s t : IbusCore} {l : List Nat} (h : holds s l)
    (hd : t.ibus_data = s.ibus_data) (hi : t.ibus_data_index = s.ibus_data_index) :
    holds t l := by
  unfold holds zero_tail at *
  rw [hd, hi]
  exact h

theorem bytes_ok_of_eq {s t : IbusCore} (h : bytes_ok s) (hd : t.ibus_data = s.ibus_data) :
    bytes_ok t := by
  unfold bytes_ok at *
  rw [hd]
  exact h

/-- Byte-at-a-time delivery against one drain of the whole buffer, for back-to-back
checksum-valid frames followed by an incomplete remainder: `e` is the decoder with an
empty buffer that receives the bytes one by one, `b` the decoder that already holds them
all; both have the same head-unit state, hijack target and record of hook calls. -/
theorem ibus_feed_draining_vs_bulk (tail : List Nat) (htail : incomplete_candidate tail)
    (frames : List (List Nat)) :
    ∀ (e b : IbusCore), bytes_ok e → e.ibus_data_index = 0 → zero_tail e →
      bytes_ok b → holds b (frames.flatten ++ tail) →
      e.ibus_state = b.ibus_state → e.ibus_hijack_state = b.ibus_hijack_state →
      e.platform_calls = b.platform_calls →
      (∀ f ∈ frames, valid_frame f) →
      (e.ibus_hijack_state = IBUS_STATE_UNKNOWN ∨
        ∀ f ∈ frames, ∃ z, IBUS_POS_DATA_START ≤ z ∧ z < f.length ∧ f.getD z 0 = 0) →
      ∃ s1 s2, ibus_feed_draining e (frames.flatten ++ tail) = Drain.returned s1 ∧
        ibus_process_messages b = Drain.returned s2 ∧
        s1.platform_calls = s2.platform_calls ∧ s1.ibus_state = s2.ibus_state ∧
        s1.ibus_data_index = tail.length ∧ s2.ibus_data_index = tail.length := by
  induction frames with
  | nil =>
    intro e b _ he hze _ hB hst _ hc _ _
    rw [List.flatten_nil, List.nil_append] at hB ⊢
    have hlen : tail.length ≤ IBUS_DATA_SIZE := by
      unfold IBUS_DATA_SIZE IBUS_MAX_MESSAGE_LEN
      rcases htail.2 with h | h <;> omega
    obtain ⟨hi, hs, -, hcalls, -⟩ := ibus_feed_spec tail e (by omega)
    refine ⟨ibus_feed e tail, b, ibus_feed_draining_incomplete e tail he hze htail,
      ibus_process_messages_holds_incomplete hB htail, hcalls.trans hc, hs.trans hst,
      by omega, hB.1⟩
  | cons f rest ih =>
    intro e b hbe he hze hbb hB hst hhj hc hv hsafe
    rw [List.flatten_cons, List.append_assoc] at hB ⊢
    have hf := hv f (List.mem_cons_self _ _)
    have h5 := hf.2.1
    have h255 := hf.2.2.1
    have hsafe_f : e.ibus_hijack_state = IBUS_STATE_UNKNOWN ∨
        ∃ z, IBUS_POS_DATA_START ≤ z ∧ z < f.length ∧ f.getD z 0 = 0 := by
      rcases hsafe with hu | hz
      · exact Or.inl hu
      · exact Or.inr (hz f (List.mem_cons_self _ _))
    obtain ⟨hA, a3, ha3, hfd⟩ := ibus_feed_draining_one_frame e f hbe he hze hf hsafe_f
    obtain ⟨-, hstA, hhjA, hcA, -⟩ := ibus_feed_spec f e
      (by unfold IBUS_DATA_SIZE IBUS_MAX_MESSAGE_LEN; omega)
    have hbA : bytes_ok (ibus_feed e f) := ibus_feed_bytes_ok f e hbe
      (by unfold IBUS_DATA_SIZE IBUS_MAX_MESSAGE_LEN; omega)
    have hA2 : holds (ibus_feed e f) (f ++ []) := by rw [List.append_nil]; exact hA
    obtain ⟨hd3, hi3, hh3, -⟩ := dispatched_dispatch ha3
    have hdB := ibus_dispatch_frame_congr hA2 hB hf (hstA.trans hst) (hhjA.trans hhj)
      (hcA.trans hc) (by rw [hhjA]; exact hsafe_f) a3 ha3
    have hsB : search_in_bounds b := by
      rcases hsafe_f with hu | ⟨z, hz1, hz2, hz0⟩
      · exact Or.inl (hhj.symm.trans hu)
      · exact Or.inr ⟨z, hz1, by unfold IBUS_DATA_SIZE IBUS_MAX_MESSAGE_LEN; omega,
          by rw [holds_data_front hB z hz2]; exact hz0⟩
    obtain ⟨s3, hd', hp, -⟩ := ibus_process_pass_frame hbb hB hf hsB
    rw [hdB] at hd'
    cases hd'
    have hBw : holds (with_buffer_of a3 b) (f ++ (rest.flatten ++ tail)) :=
      holds_of_eq hB rfl rfl
    have hA3 : holds a3 (f ++ []) := holds_of_eq hA2 hd3 hi3
    have hrmB := holds_remove_message hBw
    have hrmA := holds_remove_message hA3
    have hir : (ibus_remove_message (with_buffer_of a3 b) f.length).ibus_data_index
        < b.ibus_data_index := by
      rw [hrmB.1, hB.1, List.length_append f]
      omega
    obtain ⟨s1, s2, h1, h2, h3, h4, h5', h6⟩ := ih (ibus_remove_message a3 f.length)
      (ibus_remove_message (with_buffer_of a3 b) f.length)
      (bytes_ok_remove_message _ _ (bytes_ok_of_eq hbA hd3))
      (by simpa using hrmA.1) hrmA.2.2
      (bytes_ok_remove_message _ _ (bytes_ok_of_eq hbb rfl))
      hrmB rfl rfl rfl
      (fun g hg => hv g (List.mem_cons_of_mem _ hg))
      (by
        rcases hsafe with hu | hz
        · left
          show a3.ibus_hijack_state = IBUS_STATE_UNKNOWN
          rw [hh3]
          exact hhjA.trans hu
        · exact Or.inr (fun g hg => hz g (List.mem_cons_of_mem _ hg)))
    refine ⟨s1, s2, ?_, ?_, h3, h4, h5', h6⟩
    · rw [ibus_feed_draining_append f (rest.flatten ++ tail) e _ hfd]
      exact h1
    · unfold ibus_process_messages
      rw [ibus_process_loop_succ_pos _ b (by rw [hB.1, List.length_append]; omega), hp]
      dsimp only
      rw [ibus_process_messages_eq_loop _ _ hir]
      exact h2

/-- C6 (counterexample): the ten bytes `00 03 00 00 01 00 03 00 00 03` (a candidate with a
wrong checksum followed by a valid frame), hijack target Unknown.  Drained byte by byte,
the bad candidate is dropped after the fifth byte and the valid frame is logged; drained
once at the end, the whole buffer is dropped and no hook is called.  Second input, hijack
target Aux: two checksum-valid frames, `68 04 3B 23 62 16` (Radio to graphics driver, UMID)
followed by `01 05 41 55 58 02 4A`, none with a zero byte.  Drained once at the end, the
text search of the first frame runs on into the second and finds "AUX" there, so a
state-change call is made that byte-by-byte draining does not make. -/
theorem C6_counterexample :
    ((ibus_feed_draining (ibus_init ibus_startup IBUS_STATE_UNKNOWN)
        [0, 3, 0, 0, 1, 0, 3, 0, 0, 3]).state?.map (fun s => s.platform_calls))
      = some [Event.log_message [0, 3, 0, 0, 3] 5] ∧
    ((ibus_process_messages (ibus_feed (ibus_init ibus_startup IBUS_STATE_UNKNOWN)
        [0, 3, 0, 0, 1, 0, 3, 0, 0, 3])).state?.map (fun s => s.platform_calls))
      = some [] ∧
    (valid_frame [0x68, 4, 0x3B, 0x23, 0x62, 0x16] ∧
      valid_frame [0x01, 5, 0x41, 0x55, 0x58, 0x02, 0x4A]) ∧
    ((ibus_feed_draining (ibus_init ibus_startup IBUS_STATE_AUX)
        [0x68, 4, 0x3B, 0x23, 0x62, 0x16, 0x01, 5, 0x41, 0x55, 0x58, 0x02, 0x4A]).state?.map
      (fun s => s.platform_calls))
      = some [Event.log_message [0x68, 4, 0x3B, 0x23, 0x62, 0x16] 6,
          Event.log_message [0x01, 5, 0x41, 0x55, 0x58, 0x02, 0x4A] 7] ∧
    ((ibus_process_messages (ibus_feed (ibus_init ibus_startup IBUS_STATE_AUX)
        [0x68, 4, 0x3B, 0x23, 0x62, 0x16, 0x01, 5, 0x41, 0x55, 0x58, 0x02, 0x4A])).state?.map
      (fun s => s.platform_calls))
      = some [Event.log_message [0x68, 4, 0x3B, 0x23, 0x62, 0x16] 6,
          Event.state_changed IBUS_STATE_AUX IBUS_STATE_AUX,
          Event.log_message [0x01, 5, 0x41, 0x55, 0x58, 0x02, 0x4A] 7] := by
  decide

theorem search_in_bounds_of_holds {s : IbusCore} {l : List Nat} (h : holds s l)
    (h4 : IBUS_POS_DATA_START ≤ l.length) (hlt : l.length < IBUS_DATA_SIZE) :
    search_in_bounds s :=
  Or.inr ⟨l.length, h4, hlt, h.2.2 l.length (by rw [h.1]) hlt⟩

theorem incomplete_candidate_length {t : List Nat} (h : incomplete_candidate t) :
    t.length ≤ 254 := by
  rcases h.2 with h | h <;> omega

theorem ibus_process_messages_frame_tail {s : IbusCore} {f tail : List Nat}
    (hb : bytes_ok s) (h : holds s (f ++ tail)) (hf : valid_frame f)
    (ht : incomplete_candidate tail) :
    ∃ s3, ibus_dispatch (ibus_platform_log_message s f.length) = some s3 ∧
      ibus_process_messages s = Drain.returned (ibus_remove_message s3 f.length) := by
  have h5 := hf.2.1
  have h255 := hf.2.2.1
  have htl := incomplete_candidate_length ht
  have hs : search_in_bounds s :=
    search_in_bounds_of_holds h (by rw [List.length_append]; unfold IBUS_POS_DATA_START; omega)
      (by rw [List.length_append]; unfold IBUS_DATA_SIZE IBUS_MAX_MESSAGE_LEN; omega)
  obtain ⟨s3, hd, hp, -⟩ := ibus_process_pass_frame hb h hf hs
  obtain ⟨hd3, hi3, -, -⟩ := dispatched_dispatch hd
  have h3 : holds s3 (f ++ tail) := holds_of_eq h hd3 hi3
  have hrm := holds_remove_message h3
  have hir : (ibus_remove_message s3 f.length).ibus_data_index < s.ibus_data_index := by
    rw [hrm.1, h.1, List.length_append]
    omega
  refine ⟨s3, hd, ?_⟩
  unfold ibus_process_messages
  rw [ibus_process_loop_succ_pos _ s (by rw [h.1, List.length_append]; omega), hp]
  dsimp only
  rw [ibus_process_messages_eq_loop _ _ hir]
  exact ibus_process_messages_holds_incomplete hrm ht

theorem ibus_handle_headunit_state_other (s : IbusCore)
    (h : ibus_get_sender s ≠ IBUS_DEV_RAD ∨ ibus_get_receiver s ≠ IBUS_DEV_GT) :
    ibus_handle_headunit_state s = some s := by
  unfold ibus_handle_headunit_state
  rw [if_neg]
  intro hc
  rcases h with h | h
  · exact h hc.1
  · exact h hc.2

theorem ibus_dispatch_not_radio (x : IbusCore) (h : ibus_get_sender x ≠ IBUS_DEV_RAD) :
    ibus_dispatch x = some (ibus_handle_buttons x) := by
  unfold ibus_dispatch
  dsimp only
  have hb := dispatched_handle_buttons x
  have hs : ibus_get_sender (ibus_handle_buttons x) = ibus_get_sender x := by
    unfold ibus_get_sender
    rw [hb.1]
  split
  · exact ibus_handle_headunit_state_other _ (Or.inl (by rw [hs]; exact h))
  · rfl

/-- The header fields and data bytes the decoder reads, for a state `x` whose RX array is
that of a state holding the frame `f` at its start. -/
theorem frame_view {s x : IbusCore} {f rest : List Nat} (h : holds s (f ++ rest))
    (hf : valid_frame f) (hx : x.ibus_data = s.ibus_data) :
    ibus_get_sender x = f.getD 0 0 ∧ ibus_get_receiver x = f.getD 2 0 ∧
      ibus_get_message x = f.getD 3 0 ∧ ibus_get_data_length x = f.length - 5 ∧
      ∀ k, 4 + k < f.length → ibus_get_data_byte x k = f.getD (4 + k) 0 := by
  obtain ⟨-, h5, h255, hlenf, -⟩ := hf
  have hlen : ibus_get_message_length x = f.length := by
    apply ibus_get_message_length_eq x f.length _ h255
    rw [hx, show s.ibus_data IBUS_POS_LENGTH = f.getD 1 0 from holds_data_front h 1 (by omega)]
    exact hlenf
  refine ⟨?_, ?_, ?_, ?_, ?_⟩
  · unfold ibus_get_sender; rw [hx]; exact holds_data_front h 0 (by omega)
  · unfold ibus_get_receiver; rw [hx]; exact holds_data_front h 2 (by omega)
  · unfold ibus_get_message; rw [hx]; exact holds_data_front h 3 (by omega)
  · unfold ibus_get_data_length IBUS_MIN_MESSAGE_LEN
    rw [hlen]
    dsimp only
    split <;> omega
  · intro k hk
    unfold ibus_get_data_byte; rw [hx]; exact holds_data_front h _ hk

set_option maxRecDepth 100000 in
theorem ibus_bmbt_flags_spec : ∀ d, d < 256 →
    ((ibus_bmbt_flags d).longPress = 1 ↔ d &&& 0x40 ≠ 0) ∧
    ((ibus_bmbt_flags d).longPress = 0 ∨ (ibus_bmbt_flags d).longPress = 1) ∧
    ((ibus_bmbt_flags d).released = 1 ↔ (d &&& 0x40 = 0 ∧ d &&& 0x80 ≠ 0)) ∧
    ((ibus_bmbt_flags d).released = 0 ∨ (ibus_bmbt_flags d).released = 1) ∧
    ((ibus_bmbt_flags d).databyte =
      if d &&& 0x40 ≠ 0 then d &&& 0xBF else if d &&& 0x80 ≠ 0 then d &&& 0x7F else d) ∧
    (¬ (d &&& 0x40 ≠ 0 ∧ d &&& 0x80 ≠ 0) →
      (ibus_bmbt_flags d).databyte = d &&& 0x3F ∧ (ibus_bmbt_flags d).databyte < 0x40) ∧
    ((ibus_bmbt_flags d).databyte = 0x0F ↔ (d = 0x0F ∨ d = 0x4F ∨ d = 0x8F)) ∧
    ((ibus_bmbt_flags d).databyte = 0x06 ↔ (d = 0x06 ∨ d = 0x46 ∨ d = 0x86)) := by
  decide


theorem ibus_process_messages_button_frame {s : IbusCore} {f tail : List Nat}
    (hb : bytes_ok s) (h : holds s (f ++ tail)) (hf : valid_frame f)
    (ht : incomplete_candidate tail) (hsender : f.getD 0 0 ≠ IBUS_DEV_RAD) :
    ibus_process_messages s = Drain.returned
      (ibus_remove_message (ibus_handle_buttons (ibus_platform_log_message s f.length))
        f.length) := by
  obtain ⟨s3, hd, hp⟩ := ibus_process_messages_frame_tail hb h hf ht
  have hv := frame_view h hf (x := ibus_platform_log_message s f.length) rfl
  rw [ibus_dispatch_not_radio _ (by rw [hv.1]; exact hsender)] at hd
  cases hd
  exact hp

theorem frame_byte_lt {f : List Nat} (hf : valid_frame f) (k : Nat) : f.getD k 0 < 256 := by
  by_cases hk : k < f.length
  · rw [List.getD_eq_getElem _ _ hk]
    exact hf.1 _ (List.getElem_mem _)
  · rw [List.getD_eq_default _ _ (by omega)]
    decide

/-- What step 1 does with a BMBT 0x48 frame that has at least one data byte. -/
theorem ibus_handle_buttons_bmbtb1 (x : IbusCore)
    (h0 : ibus_get_sender x = IBUS_DEV_BMBT) (h3 : ibus_get_message x = IBUS_MSG_BMBTB1)
    (hl : ibus_get_data_length x ≥ 1) :
    ibus_handle_buttons x =
      ibus_platform_button_event
        (if (ibus_bmbt_flags (ibus_get_data_byte x 0)).databyte = IBUS_BTN_RADIO_POWER then
          ibus_change_state x IBUS_STATE_POWER_OFF else x)
        (ibus_bmbt_flags (ibus_get_data_byte x 0)).databyte
        (ibus_bmbt_flags (ibus_get_data_byte x 0)).released
        (ibus_bmbt_flags (ibus_get_data_byte x 0)).longPress := by
  unfold ibus_handle_buttons
  dsimp only
  rw [if_pos h0, if_pos ⟨h3, hl⟩]

theorem holds_holding (bytes : List Nat) (st hj : ibus_state_t) (c : List Event) :
    holds (ibus_holding bytes st hj c) bytes :=
  ⟨rfl, fun _ _ => rfl, zero_tail_holding _ _ _ _⟩

theorem radio_power_button_event (x : IbusCore) (c r l : Nat) :
    (ibus_platform_button_event
        (if c = IBUS_BTN_RADIO_POWER then ibus_change_state x IBUS_STATE_POWER_OFF else x)
        c r l).platform_calls =
      x.platform_calls ++
        ((if c = 0x06 ∧ x.ibus_state ≠ IBUS_STATE_POWER_OFF
          then [Event.state_changed IBUS_STATE_POWER_OFF x.ibus_hijack_state] else []) ++
          [Event.button_event c r l]) ∧
    (ibus_platform_button_event
        (if c = IBUS_BTN_RADIO_POWER then ibus_change_state x IBUS_STATE_POWER_OFF else x)
        c r l).ibus_state = (if c = 0x06 then IBUS_STATE_POWER_OFF else x.ibus_state) ∧
    (ibus_platform_button_event
        (if c = IBUS_BTN_RADIO_POWER then ibus_change_state x IBUS_STATE_POWER_OFF else x)
        c r l).ibus_hijack_state = x.ibus_hijack_state := by
  unfold ibus_platform_button_event ibus_change_state ibus_platform_state_changed
    IBUS_BTN_RADIO_POWER
  dsimp only
  by_cases hc : c = 6
  · by_cases hst : x.ibus_state = IBUS_STATE_POWER_OFF
    · simp [hc, hst]
    · simp [hc, hst]
  · simp [hc]

/-- The drain on a BMBT 0x48 frame with at least one data byte: the hook calls it adds and
the head-unit state it leaves, in terms of the flag extraction on the first data byte. -/
theorem ibus_process_messages_bmbtb1 {s : IbusCore} {f tail : List Nat}
    (hb : bytes_ok s) (h : holds s (f ++ tail)) (hf : valid_frame f)
    (ht : incomplete_candidate tail)
    (hsender : f.getD 0 0 = 0xF0) (hmsg : f.getD 3 0 = 0x48) (hdata : 6 ≤ f.length) :
    ∃ s1, ibus_process_messages s = Drain.returned s1 ∧
      s1.platform_calls = s.platform_calls ++
        (Event.log_message f f.length ::
          ((if (ibus_bmbt_flags (f.getD 4 0)).databyte = 0x06 ∧
              s.ibus_state ≠ IBUS_STATE_POWER_OFF
            then [Event.state_changed IBUS_STATE_POWER_OFF s.ibus_hijack_state] else []) ++
          [Event.button_event (ibus_bmbt_flags (f.getD 4 0)).databyte
            (ibus_bmbt_flags (f.getD 4 0)).released
            (ibus_bmbt_flags (f.getD 4 0)).longPress])) ∧
      s1.ibus_state =
        (if (ibus_bmbt_flags (f.getD 4 0)).databyte = 0x06 then IBUS_STATE_POWER_OFF
          else s.ibus_state) ∧
      s1.ibus_hijack_state = s.ibus_hijack_state := by
  have hv := frame_view h hf (x := ibus_platform_log_message s f.length) rfl
  obtain ⟨hv0, -, hv3, hvl, hvd⟩ := hv
  have hd0 : ibus_get_data_byte (ibus_platform_log_message s f.length) 0 = f.getD 4 0 :=
    hvd 0 (by omega)
  have hdrain := ibus_process_messages_button_frame hb h hf ht (by rw [hsender]; decide)
  rw [ibus_handle_buttons_bmbtb1 _ (by rw [hv0, hsender]; rfl) (by rw [hv3, hmsg]; rfl)
    (by rw [hvl]; omega), hd0] at hdrain
  have hlog := log_message_calls_of_holds h
  obtain ⟨hc, hst, hhj⟩ := radio_power_button_event (ibus_platform_log_message s f.length)
    (ibus_bmbt_flags (f.getD 4 0)).databyte (ibus_bmbt_flags (f.getD 4 0)).released
    (ibus_bmbt_flags (f.getD 4 0)).longPress
  refine ⟨_, hdrain, ?_, hst, hhj⟩
  show (ibus_platform_button_event _ _ _ _).platform_calls = _
  rw [hc, hlog, List.append_assoc]
  rfl

/-- C12 on frames of total length up to 255 bytes:
for every checksum-valid frame (total length 5..255) with sender BMBT (0xF0),
message id 0x48 and at least one data byte `d`, at the start of the buffer and followed by
at most an incomplete remainder, the drain returns having added, after the log call,
exactly one button event (preceded by nothing but state-change calls): its `long_press`
is 1 exactly when bit 0x40 of `d` is set, its `released` is 1 exactly when bit 0x40 is
clear and bit 0x80 is set, both are 0 or 1, and they are never both 1. -/
theorem bmbt_button_flags_of_frame (s : IbusCore) (f tail : List Nat)
    (hb : bytes_ok s) (h : holds s (f ++ tail)) (hf : valid_frame f)
    (ht : incomplete_candidate tail)
    (hsender : f.getD 0 0 = 0xF0) (hmsg : f.getD 3 0 = 0x48) (hdata : 6 ≤ f.length) :
    ∃ (s1 : IbusCore) (pre : List Event) (code released long_press : Nat),
      ibus_process_messages s = Drain.returned s1 ∧
      s1.platform_calls = s.platform_calls ++
        (Event.log_message f f.length ::
          (pre ++ [Event.button_event code released long_press])) ∧
      (∀ e ∈ pre, ∃ st hj, e = Event.state_changed st hj) ∧
      (long_press = 1 ↔ f.getD 4 0 &&& 0x40 ≠ 0) ∧
      (released = 1 ↔ (f.getD 4 0 &&& 0x40 = 0 ∧ f.getD 4 0 &&& 0x80 ≠ 0)) ∧
      (long_press = 0 ∨ long_press = 1) ∧ (released = 0 ∨ released = 1) ∧
      ¬ (released = 1 ∧ long_press = 1) := by
  obtain ⟨s1, hdrain, hcalls, -, -⟩ := ibus_process_messages_bmbtb1 hb h hf ht hsender hmsg hdata
  obtain ⟨hlp, hlp01, hrel, hrel01, -⟩ := ibus_bmbt_flags_spec (f.getD 4 0) (frame_byte_lt hf 4)
  refine ⟨s1, _, _, _, _, hdrain, hcalls, ?_, hlp, hrel, hlp01, hrel01, ?_⟩
  · intro e he
    split at he
    · exact ⟨_, _, List.mem_singleton.mp he⟩
    · exact absurd he (List.not_mem_nil _)
  · intro hboth
    exact (hlp.mp hboth.2) (hrel.mp hboth.1).1

/-- The theorem above at a concrete buffer: the frame `F0 04 68 48 46 92` (long press of radio power). -/
theorem bmbt_button_flags_of_frame_example :
    ∃ (s1 : IbusCore) (pre : List Event) (code released long_press : Nat),
      ibus_process_messages
        (ibus_holding [0xF0, 4, 0x68, 0x48, 0x46, 0x92] IBUS_STATE_FM IBUS_STATE_AUX [])
        = Drain.returned s1 ∧
      s1.platform_calls = [] ++
        (Event.log_message [0xF0, 4, 0x68, 0x48, 0x46, 0x92] 6 ::
          (pre ++ [Event.button_event code released long_press])) ∧
      long_press = 1 ∧ released ≠ 1 := by
  obtain ⟨s1, pre, code, released, long_press, h1, h2, -, h4, h5, -⟩ :=
    bmbt_button_flags_of_frame
      (ibus_holding [0xF0, 4, 0x68, 0x48, 0x46, 0x92] IBUS_STATE_FM IBUS_STATE_AUX [])
      [0xF0, 4, 0x68, 0x48, 0x46, 0x92] []
      (bytes_ok_holding _ _ _ _ (by decide)) (holds_holding _ _ _ _) (by decide) (by decide)
      (by decide) (by decide) (by decide)
  exact ⟨s1, pre, code, released, long_press, h1, h2, h4.mpr (by decide),
    fun hr => absurd (h5.mp hr).1 (by decide)⟩

/-- C13 (amended): for every checksum-valid BMBT 0x48 frame (total length 6..255) with
first data byte `d`, the drain makes exactly one button call; when the flag bits 0x40 and
0x80 of `d` are not both set its code is `d & 0x3F`, below 0x40; when both are set only
bit 0x40 is removed and the code is `d & 0xBF`. -/
theorem C13_bmbt_button_code (s : IbusCore) (f tail : List Nat)
    (hb : bytes_ok s) (h : holds s (f ++ tail)) (hf : valid_frame f)
    (ht : incomplete_candidate tail)
    (hsender : f.getD 0 0 = 0xF0) (hmsg : f.getD 3 0 = 0x48) (hdata : 6 ≤ f.length) :
    ∃ (s1 : IbusCore) (pre : List Event) (code released long_press : Nat),
      ibus_process_messages s = Drain.returned s1 ∧
      s1.platform_calls = s.platform_calls ++
        (Event.log_message f f.length ::
          (pre ++ [Event.button_event code released long_press])) ∧
      (∀ e ∈ pre, ∃ st hj, e = Event.state_changed st hj) ∧
      (¬ (f.getD 4 0 &&& 0x40 ≠ 0 ∧ f.getD 4 0 &&& 0x80 ≠ 0) →
        code = f.getD 4 0 &&& 0x3F ∧ code < 0x40) ∧
      ((f.getD 4 0 &&& 0x40 ≠ 0 ∧ f.getD 4 0 &&& 0x80 ≠ 0) →
        code = f.getD 4 0 &&& 0xBF) := by
  obtain ⟨s1, hdrain, hcalls, -, -⟩ := ibus_process_messages_bmbtb1 hb h hf ht hsender hmsg hdata
  obtain ⟨-, -, -, -, hcode, hlow, -⟩ := ibus_bmbt_flags_spec (f.getD 4 0) (frame_byte_lt hf 4)
  refine ⟨s1, _, _, _, _, hdrain, hcalls, ?_, hlow, ?_⟩
  · intro e he
    split at he
    · exact ⟨_, _, List.mem_singleton.mp he⟩
    · exact absurd he (List.not_mem_nil _)
  · intro hboth
    rw [hcode, if_pos hboth.1]

/-- C13 (amended) at a concrete buffer: the frame `F0 04 68 48 91 45` (release of button
0x11). -/
theorem C13_witness :
    ∃ (s1 : IbusCore) (pre : List Event) (code released long_press : Nat),
      ibus_process_messages
        (ibus_holding [0xF0, 4, 0x68, 0x48, 0x91, 0x45] IBUS_STATE_FM IBUS_STATE_AUX [])
        = Drain.returned s1 ∧
      s1.platform_calls = [] ++
        (Event.log_message [0xF0, 4, 0x68, 0x48, 0x91, 0x45] 6 ::
          (pre ++ [Event.button_event code released long_press])) ∧
      code = 0x11 := by
  obtain ⟨s1, pre, code, released, long_press, h1, h2, -, h4, -⟩ :=
    C13_bmbt_button_code
      (ibus_holding [0xF0, 4, 0x68, 0x48, 0x91, 0x45] IBUS_STATE_FM IBUS_STATE_AUX [])
      [0xF0, 4, 0x68, 0x48, 0x91, 0x45] []
      (bytes_ok_holding _ _ _ _ (by decide)) (holds_holding _ _ _ _) (by decide) (by decide)
      (by decide) (by decide) (by decide)
  exact ⟨s1, pre, code, released, long_press, h1, h2, (h4 (by decide)).1⟩

/-- C13 (counterexample): the checksum-valid frame `F0 04 68 48 C6 12` has sender BMBT,
message id 0x48 and data byte `d = 0xC6`, with both flag bits set.  The drain passes the
code 0x86 to the button hook (long press), not `d & 0x3F = 0x06`, and 0x86 is not below
0x40. -/
theorem C13_counterexample :
    valid_frame [0xF0, 4, 0x68, 0x48, 0xC6, 0x12] ∧
    ((ibus_process_messages
        (ibus_holding [0xF0, 4, 0x68, 0x48, 0xC6, 0x12] IBUS_STATE_UNKNOWN IBUS_STATE_UNKNOWN [])
      ).state?.map (fun s => s.platform_calls))
      = some [Event.log_message [0xF0, 4, 0x68, 0x48, 0xC6, 0x12] 6,
          Event.button_event 0x86 0 1] ∧
    (0xC6 &&& 0x3F = 0x06 ∧ ¬ (0x86 < 0x40)) := by
  decide

/-- C14 on frames of total length up to 255 bytes:
for every hijack target and every prior head-unit state, draining a
checksum-valid frame (total length 6..255) with sender BMBT, message id 0x48 and first data
byte 0x06, 0x46 or 0x86 leaves the head-unit state PowerOff; the calls added are the log
call, then the state-change call to PowerOff exactly when the prior state was not PowerOff,
then the button event with code 0x06, `released = 1` only for 0x86 and `long_press = 1`
only for 0x46. -/
theorem radio_power_of_frame (s : IbusCore) (f tail : List Nat)
    (hb : bytes_ok s) (h : holds s (f ++ tail)) (hf : valid_frame f)
    (ht : incomplete_candidate tail)
    (hsender : f.getD 0 0 = 0xF0) (hmsg : f.getD 3 0 = 0x48) (hdata : 6 ≤ f.length)
    (hd : f.getD 4 0 = 0x06 ∨ f.getD 4 0 = 0x46 ∨ f.getD 4 0 = 0x86) :
    ∃ s1, ibus_process_messages s = Drain.returned s1 ∧
      ibus_get_state s1 = IBUS_STATE_POWER_OFF ∧
      s1.platform_calls = s.platform_calls ++
        (Event.log_message f f.length ::
          ((if s.ibus_state ≠ IBUS_STATE_POWER_OFF
            then [Event.state_changed IBUS_STATE_POWER_OFF s.ibus_hijack_state] else []) ++
          [Event.button_event 0x06 (if f.getD 4 0 = 0x86 then 1 else 0)
            (if f.getD 4 0 = 0x46 then 1 else 0)])) := by
  obtain ⟨s1, hdrain, hcalls, hst, -⟩ := ibus_process_messages_bmbtb1 hb h hf ht hsender hmsg hdata
  refine ⟨s1, hdrain, ?_, ?_⟩
  · show s1.ibus_state = _
    rw [hst]
    rcases hd with hd | hd | hd <;> rw [hd] <;> rfl
  · have e1 : ibus_bmbt_flags 0x06 = { databyte := 6, released := 0, longPress := 0 } := by
      decide
    have e2 : ibus_bmbt_flags 0x46 = { databyte := 6, released := 0, longPress := 1 } := by
      decide
    have e3 : ibus_bmbt_flags 0x86 = { databyte := 6, released := 1, longPress := 0 } := by
      decide
    rw [hcalls]
    rcases hd with hd | hd | hd
    · rw [hd, e1]
      by_cases hs : s.ibus_state = IBUS_STATE_POWER_OFF <;> simp [hs]
    · rw [hd, e2]
      by_cases hs : s.ibus_state = IBUS_STATE_POWER_OFF <;> simp [hs]
    · rw [hd, e3]
      by_cases hs : s.ibus_state = IBUS_STATE_POWER_OFF <;> simp [hs]

/-- The theorem above at a concrete buffer: the frame `F0 04 68 48 86 52` (release of radio power), prior
state Fm, hijack target Unknown. -/
theorem radio_power_of_frame_example :
    ∃ s1, ibus_process_messages
        (ibus_holding [0xF0, 4, 0x68, 0x48, 0x86, 0x52] IBUS_STATE_FM IBUS_STATE_UNKNOWN [])
        = Drain.returned s1 ∧
      ibus_get_state s1 = IBUS_STATE_POWER_OFF ∧
      s1.platform_calls =
        [Event.log_message [0xF0, 4, 0x68, 0x48, 0x86, 0x52] 6,
          Event.state_changed IBUS_STATE_POWER_OFF IBUS_STATE_UNKNOWN,
          Event.button_event 0x06 1 0] := by
  obtain ⟨s1, h1, h2, h3⟩ := radio_power_of_frame
    (ibus_holding [0xF0, 4, 0x68, 0x48, 0x86, 0x52] IBUS_STATE_FM IBUS_STATE_UNKNOWN [])
    [0xF0, 4, 0x68, 0x48, 0x86, 0x52] []
    (bytes_ok_holding _ _ _ _ (by decide)) (holds_holding _ _ _ _) (by decide) (by decide)
    (by decide) (by decide) (by decide) (by decide)
  exact ⟨s1, h1, h2, h3⟩

set_option maxRecDepth 100000 in
theorem knob_mfl_bits : ∀ d, d < 256 →
    ((if d &&& 0x80 ≠ 0 then d &&& (255 - 0x80) else d) = d &&& 0x7F) ∧
    ((if d &&& 0x20 ≠ 0 then d &&& (255 - 0x20) else d) &&& 0x01 = d &&& 0x01) ∧
    ((if d &&& 0x20 ≠ 0 then d &&& (255 - 0x20) else d) &&& 0x08 = d &&& 0x08) := by
  decide

theorem ibus_handle_buttons_knob (x : IbusCore)
    (h0 : ibus_get_sender x = IBUS_DEV_BMBT) (h3 : ibus_get_message x = IBUS_MSG_KNOB)
    (hl : ibus_get_data_length x ≥ 1) :
    ibus_handle_buttons x =
      if (if ibus_get_data_byte x 0 &&& IBUS_BTN_MENU_KNOB_CW_MASK ≠ 0
          then ibus_get_data_byte x 0 &&& (255 - IBUS_BTN_MENU_KNOB_CW_MASK)
          else ibus_get_data_byte x 0) > 0
      then ibus_platform_knob_event x
        (if ibus_get_data_byte x 0 &&& IBUS_BTN_MENU_KNOB_CW_MASK ≠ 0 then 1 else 0)
        (if ibus_get_data_byte x 0 &&& IBUS_BTN_MENU_KNOB_CW_MASK ≠ 0
          then ibus_get_data_byte x 0 &&& (255 - IBUS_BTN_MENU_KNOB_CW_MASK)
          else ibus_get_data_byte x 0)
      else x := by
  unfold ibus_handle_buttons
  dsimp only
  rw [if_pos h0, if_neg (fun h => absurd (h3.symm.trans h.1) (by decide)),
    if_neg (fun h => absurd (h3.symm.trans h.1) (by decide)), if_pos ⟨h3, hl⟩]

theorem ibus_handle_buttons_mflb2 (x : IbusCore)
    (h0 : ibus_get_sender x = IBUS_DEV_MFL) (h2 : ibus_get_receiver x = IBUS_DEV_RAD)
    (h3 : ibus_get_message x = IBUS_MSG_MFLB2) (hl : ibus_get_data_length x ≥ 1) :
    ibus_handle_buttons x =
      if (if ibus_get_data_byte x 0 &&& IBUS_MFL2_BTN_RELEASE ≠ 0
          then ibus_get_data_byte x 0 &&& (255 - IBUS_MFL2_BTN_RELEASE)
          else ibus_get_data_byte x 0) &&& IBUS_MFL2_BTN_CH_UP ≠ 0
      then ibus_platform_button_event x IBUS_BTN_IDX_MFL2_CH_UP
        (if ibus_get_data_byte x 0 &&& IBUS_MFL2_BTN_RELEASE ≠ 0 then 1 else 0) 0
      else if (if ibus_get_data_byte x 0 &&& IBUS_MFL2_BTN_RELEASE ≠ 0
          then ibus_get_data_byte x 0 &&& (255 - IBUS_MFL2_BTN_RELEASE)
          else ibus_get_data_byte x 0) &&& IBUS_MFL2_BTN_CH_DOWN ≠ 0
      then ibus_platform_button_event x IBUS_BTN_IDX_MFL2_CH_DOWN
        (if ibus_get_data_byte x 0 &&& IBUS_MFL2_BTN_RELEASE ≠ 0 then 1 else 0) 0
      else x := by
  unfold ibus_handle_buttons
  dsimp only
  rw [if_neg (by rw [h0]; decide), if_pos ⟨h0, h2⟩,
    if_neg (fun h => absurd (h3.symm.trans h.1) (by decide)), if_pos ⟨h3, hl⟩]

theorem ibus_handle_buttons_bmbtb0 (x : IbusCore)
    (h0 : ibus_get_sender x = IBUS_DEV_BMBT) (h3 : ibus_get_message x = IBUS_MSG_BMBTB0)
    (hl : ibus_get_data_length x ≥ 2) :
    ibus_handle_buttons x =
      if (ibus_bmbt_flags (ibus_get_data_byte x 1)).databyte = IBUS_BTN_SELECT_TAPE_MODE
      then ibus_platform_button_event x IBUS_BTN_IDX_SELECT_TAPE
        (ibus_bmbt_flags (ibus_get_data_byte x 1)).released
        (ibus_bmbt_flags (ibus_get_data_byte x 1)).longPress
      else x := by
  unfold ibus_handle_buttons
  dsimp only
  rw [if_pos h0, if_neg (fun h => absurd (h3.symm.trans h.1) (by decide)), if_pos ⟨h3, hl⟩]

/-- Step 1 does nothing for a frame that matches none of the four event-producing rows. -/
theorem ibus_handle_buttons_no_row (x : IbusCore)
    (h1 : ¬ (ibus_get_sender x = IBUS_DEV_BMBT ∧ ibus_get_message x = IBUS_MSG_BMBTB1 ∧
      ibus_get_data_length x ≥ 1))
    (h2 : ¬ (ibus_get_sender x = IBUS_DEV_BMBT ∧ ibus_get_message x = IBUS_MSG_BMBTB0 ∧
      ibus_get_data_length x ≥ 2))
    (h3 : ¬ (ibus_get_sender x = IBUS_DEV_BMBT ∧ ibus_get_message x = IBUS_MSG_KNOB ∧
      ibus_get_data_length x ≥ 1))
    (h4 : ¬ (ibus_get_sender x = IBUS_DEV_MFL ∧ ibus_get_receiver x = IBUS_DEV_RAD ∧
      ibus_get_message x = IBUS_MSG_MFLB2 ∧ ibus_get_data_length x ≥ 1)) :
    ibus_handle_buttons x = x := by
  unfold ibus_handle_buttons
  dsimp only
  by_cases hs : ibus_get_sender x = IBUS_DEV_BMBT
  · rw [if_pos hs, if_neg (fun h => h1 ⟨hs, h⟩), if_neg (fun h => h2 ⟨hs, h⟩),
      if_neg (fun h => h3 ⟨hs, h⟩)]
    split <;> rfl
  · rw [if_neg hs]
    by_cases hm : ibus_get_sender x = IBUS_DEV_MFL ∧ ibus_get_receiver x = IBUS_DEV_RAD
    · rw [if_pos hm]
      by_cases hb : ibus_get_message x = IBUS_MSG_MFLB ∧ ibus_get_data_length x ≥ 1
      · rw [if_pos hb]
      · rw [if_neg hb, if_neg (fun h => h4 ⟨hm.1, hm.2, h⟩)]
    · rw [if_neg hm]

/-- C15 on frames of total length up to 255 bytes:
for every checksum-valid frame (total length 6..255) with sender BMBT, message id
0x49 and first data byte `d`: after the log call the drain adds no call when `d & 0x7F` is
0, and otherwise exactly one knob event, with `clockwise = 1` exactly when bit 0x80 of `d`
is set and `steps = d & 0x7F`; it adds no button event and leaves the head-unit state as
it was. -/
theorem knob_event_of_frame (s : IbusCore) (f tail : List Nat)
    (hb : bytes_ok s) (h : holds s (f ++ tail)) (hf : valid_frame f)
    (ht : incomplete_candidate tail)
    (hsender : f.getD 0 0 = 0xF0) (hmsg : f.getD 3 0 = 0x49) (hdata : 6 ≤ f.length) :
    ∃ s1, ibus_process_messages s = Drain.returned s1 ∧
      s1.platform_calls = s.platform_calls ++
        (Event.log_message f f.length ::
          (if f.getD 4 0 &&& 0x7F = 0 then []
            else [Event.knob_event (if f.getD 4 0 &&& 0x80 ≠ 0 then 1 else 0)
              (f.getD 4 0 &&& 0x7F)])) ∧
      s1.ibus_state = s.ibus_state := by
  obtain ⟨hv0, -, hv3, hvl, hvd⟩ :=
    frame_view h hf (x := ibus_platform_log_message s f.length) rfl
  have hd0 : ibus_get_data_byte (ibus_platform_log_message s f.length) 0 = f.getD 4 0 :=
    hvd 0 (by omega)
  have hdrain := ibus_process_messages_button_frame hb h hf ht (by rw [hsender]; decide)
  rw [ibus_handle_buttons_knob _ (by rw [hv0, hsender]; rfl) (by rw [hv3, hmsg]; rfl)
    (by rw [hvl]; omega), hd0] at hdrain
  unfold IBUS_BTN_MENU_KNOB_CW_MASK at hdrain
  rw [(knob_mfl_bits (f.getD 4 0) (frame_byte_lt hf 4)).1] at hdrain
  have hlog := log_message_calls_of_holds h
  refine ⟨_, hdrain, ?_, ?_⟩
  · by_cases hz : f.getD 4 0 &&& 0x7F = 0
    · rw [if_pos hz, if_neg (by omega)]
      exact hlog
    · rw [if_neg hz, if_pos (by omega)]
      show (ibus_platform_log_message s f.length).platform_calls ++ _ = _
      rw [hlog, List.append_assoc]
      rfl
  · split <;> rfl

/-- The theorem above at a concrete buffer: the knob frame `F0 04 3B 49 83 05` (data byte 0x83:
clockwise, 3 steps). -/
theorem knob_event_of_frame_example :
    ∃ s1, ibus_process_messages
        (ibus_holding [0xF0, 4, 0x3B, 0x49, 0x83, 0x05] IBUS_STATE_FM IBUS_STATE_AUX [])
        = Drain.returned s1 ∧
      s1.platform_calls =
        [Event.log_message [0xF0, 4, 0x3B, 0x49, 0x83, 0x05] 6, Event.knob_event 1 3] := by
  obtain ⟨s1, h1, h2, -⟩ := knob_event_of_frame
    (ibus_holding [0xF0, 4, 0x3B, 0x49, 0x83, 0x05] IBUS_STATE_FM IBUS_STATE_AUX [])
    [0xF0, 4, 0x3B, 0x49, 0x83, 0x05] []
    (bytes_ok_holding _ _ _ _ (by decide)) (holds_holding _ _ _ _) (by decide) (by decide)
    (by decide) (by decide) (by decide)
  exact ⟨s1, h1, h2⟩

/-- C16 on frames of total length up to 255 bytes:
for every checksum-valid frame (total length 6..255) with sender MFL (0x50),
receiver Radio (0x68), message id 0x3B and first data byte `d`: after the log call the
drain adds one button event with code 0x38 when bit 0x01 of `d` is set (also when bit 0x08
is set), otherwise one with code 0x39 when bit 0x08 is set, otherwise no call; the event
has `released = 1` exactly when bit 0x20 of `d` is set and `long_press = 0`; the head-unit
state stays as it was. -/
theorem mfl2_button_of_frame (s : IbusCore) (f tail : List Nat)
    (hb : bytes_ok s) (h : holds s (f ++ tail)) (hf : valid_frame f)
    (ht : incomplete_candidate tail)
    (hsender : f.getD 0 0 = 0x50) (hrecv : f.getD 2 0 = 0x68) (hmsg : f.getD 3 0 = 0x3B)
    (hdata : 6 ≤ f.length) :
    ∃ s1, ibus_process_messages s = Drain.returned s1 ∧
      s1.platform_calls = s.platform_calls ++
        (Event.log_message f f.length ::
          (if f.getD 4 0 &&& 0x01 ≠ 0
            then [Event.button_event 0x38 (if f.getD 4 0 &&& 0x20 ≠ 0 then 1 else 0) 0]
            else if f.getD 4 0 &&& 0x08 ≠ 0
            then [Event.button_event 0x39 (if f.getD 4 0 &&& 0x20 ≠ 0 then 1 else 0) 0]
            else [])) ∧
      s1.ibus_state = s.ibus_state := by
  obtain ⟨hv0, hv2, hv3, hvl, hvd⟩ :=
    frame_view h hf (x := ibus_platform_log_message s f.length) rfl
  have hd0 : ibus_get_data_byte (ibus_platform_log_message s f.length) 0 = f.getD 4 0 :=
    hvd 0 (by omega)
  have hdrain := ibus_process_messages_button_frame hb h hf ht (by rw [hsender]; decide)
  rw [ibus_handle_buttons_mflb2 _ (by rw [hv0, hsender]; rfl) (by rw [hv2, hrecv]; rfl)
    (by rw [hv3, hmsg]; rfl) (by rw [hvl]; omega), hd0] at hdrain
  unfold IBUS_MFL2_BTN_RELEASE IBUS_MFL2_BTN_CH_UP IBUS_MFL2_BTN_CH_DOWN
    IBUS_BTN_IDX_MFL2_CH_UP IBUS_BTN_IDX_MFL2_CH_DOWN at hdrain
  obtain ⟨-, hup, hdown⟩ := knob_mfl_bits (f.getD 4 0) (frame_byte_lt hf 4)
  rw [hup, hdown] at hdrain
  have hlog := log_message_calls_of_holds h
  refine ⟨_, hdrain, ?_, ?_⟩
  · by_cases h1 : f.getD 4 0 &&& 0x01 ≠ 0
    · rw [if_pos h1, if_pos h1]
      show (ibus_platform_log_message s f.length).platform_calls ++ _ = _
      rw [hlog, List.append_assoc]
      rfl
    · rw [if_neg h1, if_neg h1]
      by_cases h8 : f.getD 4 0 &&& 0x08 ≠ 0
      · rw [if_pos h8, if_pos h8]
        show (ibus_platform_log_message s f.length).platform_calls ++ _ = _
        rw [hlog, List.append_assoc]
        rfl
      · rw [if_neg h8, if_neg h8]
        exact hlog
  · split
    · rfl
    · split <;> rfl

/-- The theorem above at a concrete buffer: the frame `50 04 68 3B 21 26` (data byte 0x21: release bit
and channel-up bit). -/
theorem mfl2_button_of_frame_example :
    ∃ s1, ibus_process_messages
        (ibus_holding [0x50, 4, 0x68, 0x3B, 0x21, 0x26] IBUS_STATE_FM IBUS_STATE_AUX [])
        = Drain.returned s1 ∧
      s1.platform_calls =
        [Event.log_message [0x50, 4, 0x68, 0x3B, 0x21, 0x26] 6, Event.button_event 0x38 1 0] := by
  obtain ⟨s1, h1, h2, -⟩ := mfl2_button_of_frame
    (ibus_holding [0x50, 4, 0x68, 0x3B, 0x21, 0x26] IBUS_STATE_FM IBUS_STATE_AUX [])
    [0x50, 4, 0x68, 0x3B, 0x21, 0x26] []
    (bytes_ok_holding _ _ _ _ (by decide)) (holds_holding _ _ _ _) (by decide) (by decide)
    (by decide) (by decide) (by decide) (by decide)
  exact ⟨s1, h1, h2⟩

/-- C17 on frames of total length up to 255 bytes:
for every checksum-valid frame (total length 5..255) with sender BMBT and message
id 0x47: with at least two data bytes the drain adds, after the log call, one button event
with the synthetic code 0x37 exactly when the second data byte is 0x0F (plain press), 0x4F
(`long_press = 1`) or 0x8F (`released = 1`), and no call for any other value; with fewer
than two data bytes it adds no call after the log call.  The head-unit state stays as it
was in every case. -/
theorem select_tape_of_frame (s : IbusCore) (f tail : List Nat)
    (hb : bytes_ok s) (h : holds s (f ++ tail)) (hf : valid_frame f)
    (ht : incomplete_candidate tail)
    (hsender : f.getD 0 0 = 0xF0) (hmsg : f.getD 3 0 = 0x47) :
    ∃ s1, ibus_process_messages s = Drain.returned s1 ∧
      s1.platform_calls = s.platform_calls ++
        (Event.log_message f f.length ::
          (if 7 ≤ f.length then
            (if f.getD 5 0 = 0x0F then [Event.button_event 0x37 0 0]
              else if f.getD 5 0 = 0x4F then [Event.button_event 0x37 0 1]
              else if f.getD 5 0 = 0x8F then [Event.button_event 0x37 1 0]
              else [])
            else [])) ∧
      s1.ibus_state = s.ibus_state := by
  obtain ⟨hv0, -, hv3, hvl, hvd⟩ :=
    frame_view h hf (x := ibus_platform_log_message s f.length) rfl
  have hdrain := ibus_process_messages_button_frame hb h hf ht (by rw [hsender]; decide)
  have hlog := log_message_calls_of_holds h
  have hs0 : ibus_get_sender (ibus_platform_log_message s f.length) = IBUS_DEV_BMBT := by
    rw [hv0, hsender]; rfl
  have hm0 : ibus_get_message (ibus_platform_log_message s f.length) = IBUS_MSG_BMBTB0 := by
    rw [hv3, hmsg]; rfl
  by_cases h7 : 7 ≤ f.length
  · have hd1 : ibus_get_data_byte (ibus_platform_log_message s f.length) 1 = f.getD 5 0 :=
      hvd 1 (by omega)
    rw [ibus_handle_buttons_bmbtb0 _ hs0 hm0 (by rw [hvl]; omega), hd1] at hdrain
    unfold IBUS_BTN_SELECT_TAPE_MODE IBUS_BTN_IDX_SELECT_TAPE at hdrain
    have hiff := (ibus_bmbt_flags_spec (f.getD 5 0) (frame_byte_lt hf 5)).2.2.2.2.2.2.1
    have e1 : ibus_bmbt_flags 0x0F = { databyte := 0x0F, released := 0, longPress := 0 } := by
      decide
    have e2 : ibus_bmbt_flags 0x4F = { databyte := 0x0F, released := 0, longPress := 1 } := by
      decide
    have e3 : ibus_bmbt_flags 0x8F = { databyte := 0x0F, released := 1, longPress := 0 } := by
      decide
    refine ⟨_, hdrain, ?_, ?_⟩
    · rw [if_pos h7]
      by_cases c1 : f.getD 5 0 = 0x0F
      · rw [if_pos (hiff.mpr (Or.inl c1)), if_pos c1, c1, e1]
        show (ibus_platform_log_message s f.length).platform_calls ++ _ = _
        rw [hlog, List.append_assoc]
        rfl
      · by_cases c2 : f.getD 5 0 = 0x4F
        · rw [if_pos (hiff.mpr (Or.inr (Or.inl c2))), if_neg c1, if_pos c2, c2, e2]
          show (ibus_platform_log_message s f.length).platform_calls ++ _ = _
          rw [hlog, List.append_assoc]
          rfl
        · by_cases c3 : f.getD 5 0 = 0x8F
          · rw [if_pos (hiff.mpr (Or.inr (Or.inr c3))), if_neg c1, if_neg c2, if_pos c3, c3, e3]
            show (ibus_platform_log_message s f.length).platform_calls ++ _ = _
            rw [hlog, List.append_assoc]
            rfl
          · have hno : ¬ (ibus_bmbt_flags (f.getD 5 0)).databyte = 15 := by
              intro hc
              rcases hiff.mp hc with hc | hc | hc
              · exact c1 hc
              · exact c2 hc
              · exact c3 hc
            rw [if_neg hno, if_neg c1, if_neg c2, if_neg c3]
            exact hlog
    · split <;> rfl
  · rw [ibus_handle_buttons_no_row _
      (fun hc => absurd (hm0.symm.trans hc.2.1) (by decide))
      (fun hc => by have := hc.2.2; rw [hvl] at this; omega)
      (fun hc => absurd (hm0.symm.trans hc.2.1) (by decide))
      (fun hc => absurd (hs0.symm.trans hc.1) (by decide))] at hdrain
    refine ⟨_, hdrain, ?_, rfl⟩
    rw [if_neg h7]
    exact hlog

/-- The theorem above at a concrete buffer: the frame `F0 05 68 47 00 8F 55` (second data byte 0x8F). -/
theorem select_tape_of_frame_example :
    ∃ s1, ibus_process_messages
        (ibus_holding [0xF0, 5, 0x68, 0x47, 0x00, 0x8F, 0x55] IBUS_STATE_FM IBUS_STATE_AUX [])
        = Drain.returned s1 ∧
      s1.platform_calls =
        [Event.log_message [0xF0, 5, 0x68, 0x47, 0x00, 0x8F, 0x55] 7,
          Event.button_event 0x37 1 0] ∧
      s1.ibus_state = IBUS_STATE_FM := by
  obtain ⟨s1, h1, h2, h3⟩ := select_tape_of_frame
    (ibus_holding [0xF0, 5, 0x68, 0x47, 0x00, 0x8F, 0x55] IBUS_STATE_FM IBUS_STATE_AUX [])
    [0xF0, 5, 0x68, 0x47, 0x00, 0x8F, 0x55] []
    (bytes_ok_holding _ _ _ _ (by decide)) (holds_holding _ _ _ _) (by decide) (by decide)
    (by decide) (by decide)
  exact ⟨s1, h1, h2, h3⟩

theorem only_state_changes_refl (s : IbusCore) : only_state_changes s s :=
  ⟨[], by simp, by simp⟩

theorem only_state_changes_change_state (s : IbusCore) (n : ibus_state_t) :
    only_state_changes s (ibus_change_state s n) := by
  unfold ibus_change_state
  split
  · exact only_state_changes_refl s
  · exact ⟨[Event.state_changed n s.ibus_hijack_state], rfl,
      fun e he => ⟨_, _, List.mem_singleton.mp he⟩⟩

theorem only_state_changes_handle_headunit_state {s s1 : IbusCore}
    (h : ibus_handle_headunit_state s = some s1) : only_state_changes s s1 := by
  unfold ibus_handle_headunit_state ibus_data_contains at h
  dsimp only at h
  cases hc : c_strlen s.ibus_data IBUS_POS_DATA_START (IBUS_DATA_SIZE - IBUS_POS_DATA_START) with
  | none =>
    rw [hc] at h
    simp only [Option.map_none', Option.none_bind] at h
    repeat' split at h
    all_goals first
      | (cases h <;> first | exact only_state_changes_refl _
                           | exact only_state_changes_change_state _ _)
  | some n =>
    rw [hc] at h
    simp only [Option.map_some', Option.some_bind] at h
    repeat' split at h
    all_goals first
      | (cases h; first | exact only_state_changes_refl _
                        | exact only_state_changes_change_state _ _)

/-- C18 on frames of total length up to 255 bytes:
for every checksum-valid frame (total length 5..255) that matches none of the
four event-producing rows (BMBT 0x48 with a data byte, BMBT 0x47 with two data bytes, BMBT
0x49 with a data byte, MFL to Radio 0x3B with a data byte), every call the drain adds after
the log call is a state-change call: no button and no knob event is emitted. -/
theorem no_row_no_event_of_frame (s : IbusCore) (f tail : List Nat)
    (hb : bytes_ok s) (h : holds s (f ++ tail)) (hf : valid_frame f)
    (ht : incomplete_candidate tail)
    (h1 : ¬ (f.getD 0 0 = 0xF0 ∧ f.getD 3 0 = 0x48 ∧ 6 ≤ f.length))
    (h2 : ¬ (f.getD 0 0 = 0xF0 ∧ f.getD 3 0 = 0x47 ∧ 7 ≤ f.length))
    (h3 : ¬ (f.getD 0 0 = 0xF0 ∧ f.getD 3 0 = 0x49 ∧ 6 ≤ f.length))
    (h4 : ¬ (f.getD 0 0 = 0x50 ∧ f.getD 2 0 = 0x68 ∧ f.getD 3 0 = 0x3B ∧ 6 ≤ f.length)) :
    ∃ (s1 : IbusCore) (evs : List Event),
      ibus_process_messages s = Drain.returned s1 ∧
      s1.platform_calls = s.platform_calls ++ (Event.log_message f f.length :: evs) ∧
      (∀ e ∈ evs, ∃ st hj, e = Event.state_changed st hj) ∧
      (∀ e ∈ evs, ∀ c r l, e ≠ Event.button_event c r l) ∧
      (∀ e ∈ evs, ∀ c n, e ≠ Event.knob_event c n) := by
  obtain ⟨hv0, hv2, hv3, hvl, -⟩ :=
    frame_view h hf (x := ibus_platform_log_message s f.length) rfl
  obtain ⟨s3, hd, hdrain⟩ := ibus_process_messages_frame_tail hb h hf ht
  have hlog := log_message_calls_of_holds h
  have hnb : ibus_handle_buttons (ibus_platform_log_message s f.length) =
      ibus_platform_log_message s f.length := by
    apply ibus_handle_buttons_no_row
    · rw [hv0, hv3, hvl]
      exact fun hc => h1 ⟨hc.1, hc.2.1, by have := hc.2.2; omega⟩
    · rw [hv0, hv3, hvl]
      exact fun hc => h2 ⟨hc.1, hc.2.1, by have := hc.2.2; omega⟩
    · rw [hv0, hv3, hvl]
      exact fun hc => h3 ⟨hc.1, hc.2.1, by have := hc.2.2; omega⟩
    · rw [hv0, hv2, hv3, hvl]
      exact fun hc => h4 ⟨hc.1, hc.2.1, hc.2.2.1, by have := hc.2.2.2; omega⟩
  have hos : only_state_changes (ibus_platform_log_message s f.length) s3 := by
    unfold ibus_dispatch at hd
    dsimp only at hd
    rw [hnb] at hd
    split at hd
    · exact only_state_changes_handle_headunit_state hd
    · cases hd
      exact only_state_changes_refl _
  obtain ⟨evs, hevs, hall⟩ := hos
  refine ⟨_, evs, hdrain, ?_, hall, ?_, ?_⟩
  · show s3.platform_calls = _
    rw [hevs, hlog, List.append_assoc]
    rfl
  · intro e he c r l hc
    obtain ⟨st, hj, hst⟩ := hall e he
    rw [hst] at hc
    cases hc
  · intro e he c n hc
    obtain ⟨st, hj, hst⟩ := hall e he
    rw [hst] at hc
    cases hc

/-- The theorem above at a concrete buffer: the MFL volume frame `50 04 68 32 11 1F` (message id 0x32). -/
theorem no_row_no_event_of_frame_example :
    ∃ (s1 : IbusCore) (evs : List Event),
      ibus_process_messages
        (ibus_holding [0x50, 4, 0x68, 0x32, 0x11, 0x1F] IBUS_STATE_FM IBUS_STATE_AUX [])
        = Drain.returned s1 ∧
      s1.platform_calls = [] ++ (Event.log_message [0x50, 4, 0x68, 0x32, 0x11, 0x1F] 6 :: evs) ∧
      (∀ e ∈ evs, ∀ c r l, e ≠ Event.button_event c r l) ∧
      (∀ e ∈ evs, ∀ c n, e ≠ Event.knob_event c n) := by
  obtain ⟨s1, evs, h1, h2, -, h4, h5⟩ := no_row_no_event_of_frame
    (ibus_holding [0x50, 4, 0x68, 0x32, 0x11, 0x1F] IBUS_STATE_FM IBUS_STATE_AUX [])
    [0x50, 4, 0x68, 0x32, 0x11, 0x1F] []
    (bytes_ok_holding _ _ _ _ (by decide)) (holds_holding _ _ _ _) (by decide) (by decide)
    (by decide) (by decide) (by decide) (by decide)
  exact ⟨s1, evs, h1, h2, h4, h5⟩

theorem holds_append_byte (s : IbusCore) (l : List Nat) (b : Nat) (h : holds s l)
    (hl : l.length < IBUS_DATA_SIZE) : holds (ibus_append_byte s b) (l ++ [b % 256]) := by
  obtain ⟨h1, h2, h3⟩ := h
  have hlt : ¬ s.ibus_data_index ≥ IBUS_DATA_SIZE := by omega
  unfold ibus_append_byte
  rw [if_neg hlt]
  refine ⟨?_, ?_, ?_⟩
  · show s.ibus_data_index + 1 = (l ++ [b % 256]).length
    rw [List.length_append, List.length_singleton, h1]
  · intro i hi
    rw [List.length_append, List.length_singleton] at hi
    show (if i = s.ibus_data_index then b % 256 else s.ibus_data i) = _
    by_cases hi2 : i = s.ibus_data_index
    · rw [if_pos hi2, hi2, h1]
      simp
    · rw [if_neg hi2, h2 i (by omega)]
      have hil : i < l.length := by omega
      simp [List.getD_eq_getElem?_getD, List.getElem?_append_left hil]
  · intro i hi hi2
    show (if i = s.ibus_data_index then b % 256 else s.ibus_data i) = 0
    have hi3 : s.ibus_data_index + 1 ≤ i := hi
    rw [if_neg (by omega)]
    exact h3 i (by omega) hi2

theorem holds_append_byte_full (s : IbusCore) (l : List Nat) (b : Nat) (h : holds s l)
    (hl : l.length = IBUS_DATA_SIZE) : holds (ibus_append_byte s b) [] := by
  obtain ⟨h1, -, -⟩ := h
  have hge : s.ibus_data_index ≥ IBUS_DATA_SIZE := by omega
  unfold ibus_append_byte
  rw [if_pos hge]
  refine ⟨rfl, ?_, ?_⟩
  · intro i hi
    exact absurd hi (Nat.not_lt_zero _)
  · intro i _ hi2
    show memset_zero s.ibus_data 0 IBUS_DATA_SIZE i = 0
    unfold memset_zero
    rw [if_pos ⟨Nat.zero_le i, by omega⟩]

theorem kept_after_overflow_length (bytes : List Nat) :
    (kept_after_overflow bytes).length = bytes.length % (IBUS_DATA_SIZE + 1) := by
  unfold kept_after_overflow
  rw [List.length_map, List.length_drop]
  have := Nat.mod_le bytes.length (IBUS_DATA_SIZE + 1)
  omega

theorem kept_after_overflow_snoc (l : List Nat) (b : Nat) :
    kept_after_overflow (l ++ [b]) =
      if l.length % (IBUS_DATA_SIZE + 1) = IBUS_DATA_SIZE then []
      else kept_after_overflow l ++ [b % 256] := by
  have hsize : IBUS_DATA_SIZE = 2056 := by decide
  have hle := Nat.mod_le l.length (IBUS_DATA_SIZE + 1)
  unfold kept_after_overflow
  rw [List.length_append, List.length_singleton]
  by_cases h : l.length % (IBUS_DATA_SIZE + 1) = IBUS_DATA_SIZE
  · rw [if_pos h]
    have h0 : (l.length + 1) % (IBUS_DATA_SIZE + 1) = 0 := by
      rw [hsize] at h ⊢
      omega
    rw [h0, Nat.sub_zero, List.drop_eq_nil_of_le (by simp), List.map_nil]
  · rw [if_neg h]
    have h1 : (l.length + 1) % (IBUS_DATA_SIZE + 1) = l.length % (IBUS_DATA_SIZE + 1) + 1 := by
      rw [hsize] at h ⊢
      omega
    have h2 : l.length + 1 - (l.length % (IBUS_DATA_SIZE + 1) + 1) =
        l.length - l.length % (IBUS_DATA_SIZE + 1) := by omega
    rw [h1, h2, List.drop_append_of_le_length (by omega), List.map_append, List.map_singleton]

theorem ibus_feed_snoc (s : IbusCore) (l : List Nat) (b : Nat) :
    ibus_feed s (l ++ [b]) = ibus_append_byte (ibus_feed s l) b := by
  unfold ibus_feed
  rw [List.foldl_append]
  rfl

theorem ibus_feed_keeps (bytes : List Nat) :
    ∀ s : IbusCore, (ibus_feed s bytes).ibus_state = s.ibus_state ∧
      (ibus_feed s bytes).ibus_hijack_state = s.ibus_hijack_state ∧
      (ibus_feed s bytes).platform_calls = s.platform_calls := by
  induction bytes with
  | nil => intro s; exact ⟨rfl, rfl, rfl⟩
  | cons b bs ih =>
    intro s
    have hfeed : ibus_feed s (b :: bs) = ibus_feed (ibus_append_byte s b) bs := rfl
    have happ : (ibus_append_byte s b).ibus_state = s.ibus_state ∧
        (ibus_append_byte s b).ibus_hijack_state = s.ibus_hijack_state ∧
        (ibus_append_byte s b).platform_calls = s.platform_calls := by
      unfold ibus_append_byte
      by_cases h : s.ibus_data_index ≥ IBUS_DATA_SIZE
      · rw [if_pos h]; exact ⟨rfl, rfl, rfl⟩
      · rw [if_neg h]; exact ⟨rfl, rfl, rfl⟩
    obtain ⟨h1, h2, h3⟩ := ih (ibus_append_byte s b)
    rw [hfeed]
    exact ⟨h1.trans happ.1, h2.trans happ.2.1, h3.trans happ.2.2⟩

theorem ibus_feed_init_holds (s0 : IbusCore) (hj : ibus_state_t) (bytes : List Nat) :
    holds (ibus_feed (ibus_init s0 hj) bytes) (kept_after_overflow bytes) := by
  induction bytes using List.reverseRecOn with
  | nil =>
    obtain ⟨h1, h2, -⟩ := ibus_init_spec s0 hj
    exact ⟨h1, fun i hi => absurd hi (Nat.not_lt_zero _), h2⟩
  | append_singleton l b ih =>
    rw [ibus_feed_snoc, kept_after_overflow_snoc]
    have hlen := kept_after_overflow_length l
    have hlt : l.length % (IBUS_DATA_SIZE + 1) < IBUS_DATA_SIZE + 1 := Nat.mod_lt _ (Nat.succ_pos _)
    by_cases h : l.length % (IBUS_DATA_SIZE + 1) = IBUS_DATA_SIZE
    · rw [if_pos h]
      exact holds_append_byte_full _ _ b ih (by omega)
    · rw [if_neg h]
      exact holds_append_byte _ _ b ih (by omega)

/-- C11 (amended): after `ibus_init`, feeding any `n` bytes with `ibus_append_byte` and no
drain fires no callback and leaves the states as `ibus_init` set them; the buffer then
holds the last `n mod 2057` bytes fed (2057 = capacity + 1, a byte that arrives at a full
buffer clears it and is dropped) with zeros behind them.  So the buffer ends empty
(`ibus_has_pending_data` is 0) exactly when `n` is a multiple of 2057, and then every
byte of the array is zero. -/
theorem C11_overflow_clears_and_buffering_resumes (s0 : IbusCore) (hj : ibus_state_t)
    (bytes : List Nat) :
    holds (ibus_feed (ibus_init s0 hj) bytes) (kept_after_overflow bytes) ∧
    (kept_after_overflow bytes).length = bytes.length % 2057 ∧
    (ibus_feed (ibus_init s0 hj) bytes).platform_calls = s0.platform_calls ∧
    (ibus_feed (ibus_init s0 hj) bytes).ibus_state = IBUS_STATE_UNKNOWN ∧
    (ibus_feed (ibus_init s0 hj) bytes).ibus_hijack_state = hj ∧
    (ibus_has_pending_data (ibus_feed (ibus_init s0 hj) bytes) = false ↔
      bytes.length % 2057 = 0) ∧
    (bytes.length % 2057 = 0 →
      ∀ i, i < IBUS_DATA_SIZE → (ibus_feed (ibus_init s0 hj) bytes).ibus_data i = 0) := by
  have hsize : IBUS_DATA_SIZE + 1 = 2057 := by decide
  have hh := ibus_feed_init_holds s0 hj bytes
  have hlen := kept_after_overflow_length bytes
  rw [hsize] at hlen
  obtain ⟨k1, k2, k3⟩ := ibus_feed_keeps bytes (ibus_init s0 hj)
  refine ⟨hh, hlen, k3, k1, k2, ?_, ?_⟩
  · unfold ibus_has_pending_data
    rw [hh.1, hlen, decide_eq_false_iff_not]
    omega
  · intro h0 i hi
    exact hh.2.2 i (by rw [hh.1, hlen, h0]; exact Nat.zero_le i) hi

theorem C11_witness :
    ibus_has_pending_data
        (ibus_feed (ibus_init ibus_startup IBUS_STATE_AUX) (List.replicate 2057 0x55)) = false ∧
      (ibus_feed (ibus_init ibus_startup IBUS_STATE_AUX)
        (List.replicate 2057 0x55)).platform_calls = [] := by
  obtain ⟨-, -, h3, -, -, h6, -⟩ := C11_overflow_clears_and_buffering_resumes ibus_startup
    IBUS_STATE_AUX (List.replicate 2057 0x55)
  refine ⟨h6.2 ?_, h3⟩
  rw [List.length_replicate]

/-- C11 is refuted by 2058 bytes: the 2057th byte clears the full buffer and the 2058th is
buffered again, so data is pending at the end. -/
theorem C11_counterexample :
    2056 < (List.replicate 2058 0x55).length ∧
      ibus_has_pending_data
        (ibus_feed (ibus_init ibus_startup IBUS_STATE_AUX) (List.replicate 2058 0x55)) = true := by
  have hh := ibus_feed_init_holds ibus_startup IBUS_STATE_AUX (List.replicate 2058 0x55)
  have hlen := kept_after_overflow_length (List.replicate 2058 0x55)
  have hsize : IBUS_DATA_SIZE + 1 = 2057 := by decide
  rw [hsize, List.length_replicate] at hlen
  refine ⟨by rw [List.length_replicate]; decide, ?_⟩
  unfold ibus_has_pending_data
  rw [hh.1, hlen]
  decide

theorem starts_with_iff (tag : List Nat) :
    ∀ hay : List Nat, starts_with hay tag = true ↔ ∃ post, hay = tag ++ post := by
  induction tag with
  | nil =>
    intro hay
    cases hay <;> simp [starts_with]
  | cons t tag ih =>
    intro hay
    cases hay with
    | nil => simp [starts_with]
    | cons h hay =>
      unfold starts_with
      rw [Bool.and_eq_true, ih hay]
      constructor
      · rintro ⟨h1, post, h2⟩
        exact ⟨post, by rw [h2, beq_iff_eq.1 h1]; rfl⟩
      · rintro ⟨post, h2⟩
        rw [List.cons_append, List.cons.injEq] at h2
        exact ⟨beq_iff_eq.2 h2.1, post, h2.2⟩

theorem strstr_found_iff (tag : List Nat) :
    ∀ hay : List Nat, strstr_found hay tag = true ↔ ∃ pre post, hay = pre ++ tag ++ post := by
  intro hay
  induction hay with
  | nil =>
    unfold strstr_found
    rw [starts_with_iff]
    constructor
    · rintro ⟨post, h⟩
      exact ⟨[], post, h⟩
    · rintro ⟨pre, post, h⟩
      have h1 := congrArg List.length h
      simp only [List.length_nil, List.length_append] at h1
      have hp : pre = [] := List.length_eq_zero.1 (by omega)
      subst hp
      exact ⟨post, h⟩
  | cons h hay ih =>
    unfold strstr_found
    rw [Bool.or_eq_true, starts_with_iff, ih]
    constructor
    · rintro (⟨post, h1⟩ | ⟨pre, post, h1⟩)
      · exact ⟨[], post, h1⟩
      · exact ⟨h :: pre, post, by rw [h1]; rfl⟩
    · rintro ⟨pre, post, h1⟩
      cases pre with
      | nil => exact Or.inl ⟨post, h1⟩
      | cons p pre =>
        rw [List.cons_append, List.cons_append, List.cons.injEq] at h1
        exact Or.inr ⟨pre, post, h1.2⟩

theorem strstr_found_of_contains_text {l : List Nat} {tag : String} (more : List Nat)
    (h : contains_text l tag) : strstr_found (l ++ more) (tag_bytes tag) = true := by
  obtain ⟨pre, post, h⟩ := h
  rw [strstr_found_iff]
  exact ⟨pre, post ++ more, by rw [h, List.append_assoc]⟩

theorem frame_data_length (f : List Nat) : (frame_data f).length = f.length - 5 := by
  unfold frame_data
  rw [List.length_take, List.length_drop]
  omega

theorem frame_data_getElem (f : List Nat) (k : Nat) (hk : k < (frame_data f).length) :
    (frame_data f)[k] = f.getD (4 + k) 0 := by
  have hl := frame_data_length f
  have h4 : 4 + k < f.length := by omega
  rw [List.getD_eq_getElem _ _ h4]
  unfold frame_data
  rw [List.getElem_take, List.getElem_drop]

/-- The string the text search reads starts with the data bytes of the frame when none of
them is zero; what follows them (`more`) starts with the checksum byte. -/
theorem searched_text_of_frame {s x : IbusCore} {f rest : List Nat} (h : holds s (f ++ rest))
    (h5 : 5 ≤ f.length) (hlt : (f ++ rest).length < IBUS_DATA_SIZE)
    (hnz : ∀ b ∈ frame_data f, b ≠ 0) (hx : x.ibus_data = s.ibus_data) :
    ∃ n0 more, c_strlen x.ibus_data IBUS_POS_DATA_START (IBUS_DATA_SIZE - IBUS_POS_DATA_START)
        = some n0 ∧
      (List.range n0).map (fun k => x.ibus_data (IBUS_POS_DATA_START + k)) =
        frame_data f ++ more := by
  have hlen := List.length_append f rest
  have hfl := frame_data_length f
  have hz0 : s.ibus_data (f ++ rest).length = 0 := h.2.2 _ (by rw [h.1]) hlt
  have hp : IBUS_POS_DATA_START = 4 := rfl
  obtain ⟨n0, hn, hle, hzero, -⟩ := c_strlen_of_zero s.ibus_data
    (IBUS_DATA_SIZE - IBUS_POS_DATA_START) IBUS_POS_DATA_START (f ++ rest).length
    (by omega) (by omega) hz0
  have hdata : ∀ k, k < f.length - 5 → s.ibus_data (IBUS_POS_DATA_START + k) =
      (frame_data f).getD k 0 := by
    intro k hk
    rw [holds_data_front h _ (by omega),
      List.getD_eq_getElem (frame_data f) 0 (show k < (frame_data f).length by omega),
      frame_data_getElem, hp]
  have hm : f.length - 5 ≤ n0 := by
    by_contra hc
    have hk : n0 < f.length - 5 := by omega
    have h1 := hdata n0 hk
    rw [hzero, List.getD_eq_getElem _ _ (by omega)] at h1
    exact hnz _ (List.getElem_mem _) h1.symm
  refine ⟨n0, (List.range (n0 - (f.length - 5))).map
    (fun k => s.ibus_data (IBUS_POS_DATA_START + (f.length - 5 + k))), by rw [hx]; exact hn, ?_⟩
  have hsplit : n0 = (f.length - 5) + (n0 - (f.length - 5)) := by omega
  rw [hx]
  conv_lhs => rw [hsplit, List.range_add, List.map_append, List.map_map]
  congr 1
  apply List.ext_getElem
  · rw [List.length_map, List.length_range, hfl]
  · intro k hk1 hk2
    rw [List.getElem_map, List.getElem_range]
    rw [List.length_map, List.length_range] at hk1
    rw [hdata k hk1, List.getD_eq_getElem _ _ hk2]

theorem ibus_change_state_state (s : IbusCore) (st : ibus_state_t) :
    (ibus_change_state s st).ibus_state = st := by
  unfold ibus_change_state
  by_cases h : s.ibus_state = st
  · rw [if_pos h]; exact h
  · rw [if_neg h]; rfl

/-- The ST branch of `ibus_handle_headunit_state` when one of the four tags is found. -/
theorem ibus_handle_headunit_state_st (x : IbusCore) (n0 : Nat)
    (h1 : ibus_get_sender x = IBUS_DEV_RAD) (h2 : ibus_get_receiver x = IBUS_DEV_GT)
    (h3 : ibus_get_message x = IBUS_MSG_ST) (h4 : ibus_get_data_length x > 0)
    (h5 : ibus_get_data_byte x 0 = 0x62)
    (hc : c_strlen x.ibus_data IBUS_POS_DATA_START (IBUS_DATA_SIZE - IBUS_POS_DATA_START)
      = some n0)
    (hany : ∃ tag ∈ ["RDS", "FM", "REG", "MWA"],
      strstr_found ((List.range n0).map (fun k => x.ibus_data (IBUS_POS_DATA_START + k)))
        (tag_bytes tag) = true) :
    ibus_handle_headunit_state x = some (ibus_change_state x IBUS_STATE_FM) := by
  unfold ibus_handle_headunit_state
  rw [if_pos ⟨h1, h2⟩]
  dsimp only
  rw [if_neg (by rw [h3]; decide), if_pos h3, if_pos ⟨h4, h5⟩]
  unfold ibus_data_contains
  rw [hc]
  simp only [Option.map_some', Option.some_bind]
  obtain ⟨tag, hmem, hfound⟩ := hany
  generalize (List.range n0).map (fun k => x.ibus_data (IBUS_POS_DATA_START + k)) = hay
    at hfound ⊢
  cases hA : strstr_found hay (tag_bytes "RDS")
  · cases hB : strstr_found hay (tag_bytes "FM")
    · cases hC : strstr_found hay (tag_bytes "REG")
      · cases hD : strstr_found hay (tag_bytes "MWA")
        · exfalso
          simp only [List.mem_cons, List.mem_singleton, List.not_mem_nil, or_false] at hmem
          rcases hmem with rfl | rfl | rfl | rfl
          · rw [hA] at hfound; exact Bool.noConfusion hfound
          · rw [hB] at hfound; exact Bool.noConfusion hfound
          · rw [hC] at hfound; exact Bool.noConfusion hfound
          · rw [hD] at hfound; exact Bool.noConfusion hfound
        · simp
      · simp
    · simp
  · simp

/-- The UMID branch of `ibus_handle_headunit_state` when "AUX" is found. -/
theorem ibus_handle_headunit_state_umid_aux (x : IbusCore) (n0 : Nat)
    (h1 : ibus_get_sender x = IBUS_DEV_RAD) (h2 : ibus_get_receiver x = IBUS_DEV_GT)
    (h3 : ibus_get_message x = IBUS_MSG_UMID) (h4 : ibus_get_data_length x > 0)
    (h5 : ibus_get_data_byte x 0 = 0x62)
    (hc : c_strlen x.ibus_data IBUS_POS_DATA_START (IBUS_DATA_SIZE - IBUS_POS_DATA_START)
      = some n0)
    (hfound : strstr_found
      ((List.range n0).map (fun k => x.ibus_data (IBUS_POS_DATA_START + k)))
      (tag_bytes "AUX") = true) :
    ibus_handle_headunit_state x = some (ibus_change_state x IBUS_STATE_AUX) := by
  unfold ibus_handle_headunit_state
  rw [if_pos ⟨h1, h2⟩]
  dsimp only
  rw [if_pos h3, if_pos ⟨h4, h5⟩]
  unfold ibus_data_contains
  rw [hc]
  simp only [Option.map_some', Option.some_bind]
  rw [hfound, if_pos rfl]

/-- The part of C19 that holds: with a hijack target other than Unknown, a checksum-valid
UMID frame from Radio to GraphicsDriver with data[0] = 0x62, no zero data byte and "AUX"
among its data bytes leaves the state `Aux`. -/
theorem ibus_process_messages_umid_aux (s : IbusCore) (f tail : List Nat)
    (hb : bytes_ok s) (h : holds s (f ++ tail)) (hf : valid_frame f)
    (ht : incomplete_candidate tail)
    (hhj : s.ibus_hijack_state ≠ IBUS_STATE_UNKNOWN)
    (hsender : f.getD 0 0 = 0x68) (hrecv : f.getD 2 0 = 0x3B) (hmsg : f.getD 3 0 = 0x23)
    (h6 : 6 ≤ f.length) (h62 : f.getD 4 0 = 0x62) (hnz : ∀ b ∈ frame_data f, b ≠ 0)
    (hct : contains_text (frame_data f) "AUX") :
    ∃ s1, ibus_process_messages s = Drain.returned s1 ∧ s1.ibus_state = IBUS_STATE_AUX := by
  obtain ⟨hv0, hv2, hv3, hvl, hvd⟩ :=
    frame_view h hf (x := ibus_platform_log_message s f.length) rfl
  obtain ⟨s3, hd, hdrain⟩ := ibus_process_messages_frame_tail hb h hf ht
  have h5 := hf.2.1
  have h255 := hf.2.2.1
  have htl := incomplete_candidate_length ht
  have hnb : ibus_handle_buttons (ibus_platform_log_message s f.length) =
      ibus_platform_log_message s f.length :=
    ibus_handle_buttons_other_sender _ (by rw [hv0, hsender]; decide)
      (by rw [hv0, hsender]; decide)
  have hdisp : ibus_dispatch (ibus_platform_log_message s f.length) =
      ibus_handle_headunit_state (ibus_platform_log_message s f.length) := by
    unfold ibus_dispatch
    dsimp only
    rw [hnb]
    exact if_pos hhj
  rw [hdisp] at hd
  obtain ⟨n0, more, hc, hhay⟩ := searched_text_of_frame h h5
    (by rw [List.length_append]; unfold IBUS_DATA_SIZE IBUS_MAX_MESSAGE_LEN; omega) hnz
    (x := ibus_platform_log_message s f.length) rfl
  have hst := ibus_handle_headunit_state_umid_aux (ibus_platform_log_message s f.length) n0
    (by rw [hv0, hsender]; rfl) (by rw [hv2, hrecv]; rfl) (by rw [hv3, hmsg]; rfl)
    (by rw [hvl]; omega) (by rw [hvd 0 (by omega)]; exact h62) hc
    (by rw [hhay]; exact strstr_found_of_contains_text more hct)
  rw [hst] at hd
  cases hd
  exact ⟨_, hdrain, ibus_change_state_state _ _⟩

/-- C19 fails at the frame `68 0A 3B 23 62 43 44 43 10 41 55 58` (Radio to graphics driver,
UMID, data `62 43 44 43 10 41 55`): its data bytes hold no zero, contain "CDC" and do not
contain "AUX", yet the drain leaves the state `Aux`, because the text search reads on
through the checksum byte `58` ('X'), which completes "AUX". -/
theorem C19_checksum_byte_completes_tag :
    valid_frame [0x68, 0x0A, 0x3B, 0x23, 0x62, 0x43, 0x44, 0x43, 0x10, 0x41, 0x55, 0x58] ∧
    (∀ b ∈ frame_data [0x68, 0x0A, 0x3B, 0x23, 0x62, 0x43, 0x44, 0x43, 0x10, 0x41, 0x55, 0x58],
      b ≠ 0) ∧
    ¬ contains_text
      (frame_data [0x68, 0x0A, 0x3B, 0x23, 0x62, 0x43, 0x44, 0x43, 0x10, 0x41, 0x55, 0x58])
      "AUX" ∧
    contains_text
      (frame_data [0x68, 0x0A, 0x3B, 0x23, 0x62, 0x43, 0x44, 0x43, 0x10, 0x41, 0x55, 0x58])
      "CDC" ∧
    (ibus_process_messages
      (ibus_holding [0x68, 0x0A, 0x3B, 0x23, 0x62, 0x43, 0x44, 0x43, 0x10, 0x41, 0x55, 0x58]
        IBUS_STATE_FM IBUS_STATE_AUX [])).state?.map (fun s => s.ibus_state) =
      some IBUS_STATE_AUX := by
  refine ⟨by decide, by decide, ?_, ⟨[0x62], [0x10, 0x41, 0x55], by decide⟩, by decide⟩
  intro hc
  exact absurd ((strstr_found_iff (tag_bytes "AUX") _).2 hc) (by decide)

/-- C20 on frames of total length up to 255 bytes:
with a hijack target other than Unknown, a checksum-valid frame (total length
5..255) from Radio (0x68) to GraphicsDriver (0x3B) with message id 0xA5, at the start of
the buffer: if it has data, data[0] = 0x62, no data byte is zero and the data bytes contain
"RDS", "FM", "REG" or "MWA", the drain returns with state `Fm`; if it has no data, or
data[0] is not 0x62, the drain returns with the state unchanged. -/
theorem screen_text_fm_of_frame (s : IbusCore) (f tail : List Nat)
    (hb : bytes_ok s) (h : holds s (f ++ tail)) (hf : valid_frame f)
    (ht : incomplete_candidate tail)
    (hhj : s.ibus_hijack_state ≠ IBUS_STATE_UNKNOWN)
    (hsender : f.getD 0 0 = 0x68) (hrecv : f.getD 2 0 = 0x3B) (hmsg : f.getD 3 0 = 0xA5) :
    (6 ≤ f.length → f.getD 4 0 = 0x62 → (∀ b ∈ frame_data f, b ≠ 0) →
      (∃ tag ∈ ["RDS", "FM", "REG", "MWA"], contains_text (frame_data f) tag) →
      ∃ s1, ibus_process_messages s = Drain.returned s1 ∧ s1.ibus_state = IBUS_STATE_FM) ∧
    (f.length = 5 ∨ f.getD 4 0 ≠ 0x62 →
      ∃ s1, ibus_process_messages s = Drain.returned s1 ∧ s1.ibus_state = s.ibus_state) := by
  obtain ⟨hv0, hv2, hv3, hvl, hvd⟩ :=
    frame_view h hf (x := ibus_platform_log_message s f.length) rfl
  obtain ⟨s3, hd, hdrain⟩ := ibus_process_messages_frame_tail hb h hf ht
  have h5 := hf.2.1
  have h255 := hf.2.2.1
  have htl := incomplete_candidate_length ht
  have hnb : ibus_handle_buttons (ibus_platform_log_message s f.length) =
      ibus_platform_log_message s f.length :=
    ibus_handle_buttons_other_sender _ (by rw [hv0, hsender]; decide)
      (by rw [hv0, hsender]; decide)
  have hdisp : ibus_dispatch (ibus_platform_log_message s f.length) =
      ibus_handle_headunit_state (ibus_platform_log_message s f.length) := by
    unfold ibus_dispatch
    dsimp only
    rw [hnb]
    exact if_pos hhj
  rw [hdisp] at hd
  have e1 : ibus_get_sender (ibus_platform_log_message s f.length) = IBUS_DEV_RAD := by
    rw [hv0, hsender]; rfl
  have e2 : ibus_get_receiver (ibus_platform_log_message s f.length) = IBUS_DEV_GT := by
    rw [hv2, hrecv]; rfl
  have e3 : ibus_get_message (ibus_platform_log_message s f.length) = IBUS_MSG_ST := by
    rw [hv3, hmsg]; rfl
  refine ⟨?_, ?_⟩
  · intro h6 h62 hnz ⟨tag, hmem, hct⟩
    obtain ⟨n0, more, hc, hhay⟩ := searched_text_of_frame h h5
      (by rw [List.length_append]; unfold IBUS_DATA_SIZE IBUS_MAX_MESSAGE_LEN; omega) hnz
      (x := ibus_platform_log_message s f.length) rfl
    have hst := ibus_handle_headunit_state_st (ibus_platform_log_message s f.length) n0
      e1 e2 e3 (by rw [hvl]; omega) (by rw [hvd 0 (by omega)]; exact h62) hc
      ⟨tag, hmem, by rw [hhay]; exact strstr_found_of_contains_text more hct⟩
    rw [hst] at hd
    cases hd
    exact ⟨_, hdrain, ibus_change_state_state _ _⟩
  · intro hor
    have hgate : ¬ (ibus_get_data_length (ibus_platform_log_message s f.length) > 0 ∧
        ibus_get_data_byte (ibus_platform_log_message s f.length) 0 = 0x62) := by
      rw [hvl]
      rintro ⟨g1, g2⟩
      rcases hor with h0 | hne
      · omega
      · rw [hvd 0 (by omega)] at g2
        exact hne g2
    have hst : ibus_handle_headunit_state (ibus_platform_log_message s f.length) =
        some (ibus_platform_log_message s f.length) := by
      unfold ibus_handle_headunit_state
      rw [if_pos ⟨e1, e2⟩]
      dsimp only
      rw [if_neg (by rw [e3]; decide), if_pos e3, if_neg hgate]
    rw [hst] at hd
    cases hd
    exact ⟨_, hdrain, rfl⟩

theorem screen_text_fm_of_frame_example :
    (∃ s1, ibus_process_messages
        (ibus_holding [0x68, 0x06, 0x3B, 0xA5, 0x62, 0x46, 0x4D, 0x99]
          IBUS_STATE_TAPE IBUS_STATE_AUX []) = Drain.returned s1 ∧
      s1.ibus_state = IBUS_STATE_FM) ∧
    (∃ s1, ibus_process_messages
        (ibus_holding [0x68, 0x04, 0x3B, 0xA5, 0x61, 0x93]
          IBUS_STATE_TAPE IBUS_STATE_AUX []) = Drain.returned s1 ∧
      s1.ibus_state = IBUS_STATE_TAPE) :=
  ⟨(screen_text_fm_of_frame
      (ibus_holding [0x68, 0x06, 0x3B, 0xA5, 0x62, 0x46, 0x4D, 0x99]
        IBUS_STATE_TAPE IBUS_STATE_AUX [])
      [0x68, 0x06, 0x3B, 0xA5, 0x62, 0x46, 0x4D, 0x99] []
      (bytes_ok_holding _ _ _ _ (by decide)) (holds_holding _ _ _ _) (by decide) (by decide)
      (by decide) (by decide) (by decide) (by decide)).1 (by decide) (by decide) (by decide)
      ⟨"FM", by simp, [0x62], [], by decide⟩,
    (screen_text_fm_of_frame
      (ibus_holding [0x68, 0x04, 0x3B, 0xA5, 0x61, 0x93]
        IBUS_STATE_TAPE IBUS_STATE_AUX [])
      [0x68, 0x04, 0x3B, 0xA5, 0x61, 0x93] []
      (bytes_ok_holding _ _ _ _ (by decide)) (holds_holding _ _ _ _) (by decide) (by decide)
      (by decide) (by decide) (by decide) (by decide)).2 (Or.inr (by decide))⟩

/-- A pass that ends the loop leaves the decoder as it was or resets the buffer. -/
theorem ibus_process_pass_stop_cases {s s1 : IbusCore} (h : ibus_process_pass s = Pass.stop s1) :
    s1 = s ∨ s1 = ibus_reset_buffer s := by
  unfold ibus_process_pass at h
  dsimp only at h
  split at h
  · cases h; exact Or.inl rfl
  · split at h
    · cases h; exact Or.inl rfl
    · split at h
      · cases h; exact Or.inr rfl
      · rename_i h1 h2 h3
        split at h
        · cases h
        · rename_i s3 hs3
          have hi : s3.ibus_data_index = s.ibus_data_index := (dispatched_dispatch hs3).2.1
          split at h
          · cases h
          · rename_i h4
            exact absurd (by rw [hi]; omega) h4

/-- A property kept by every pass of the loop holds when the drain returns, whatever the
number of passes. -/
theorem ibus_process_loop_preserves (P : IbusCore → Prop)
    (hagain : ∀ s s1, P s → ibus_process_pass s = Pass.again s1 → P s1)
    (hstop : ∀ s s1, P s → ibus_process_pass s = Pass.stop s1 → P s1) :
    ∀ (fuel : Nat) (s s1 : IbusCore), P s → ibus_process_loop fuel s = Drain.returned s1 →
      P s1 := by
  intro fuel
  induction fuel with
  | zero =>
    intro s s1 _ h
    cases h
  | succ n ih =>
    intro s s1 hP h
    by_cases h0 : 0 < s.ibus_data_index
    · rw [ibus_process_loop_succ_pos n s h0] at h
      cases hp : ibus_process_pass s with
      | stop s2 =>
        rw [hp] at h
        cases h
        exact hstop s s1 hP hp
      | again s2 =>
        rw [hp] at h
        exact ih s2 s1 (hagain s s2 hP hp) h
      | fault =>
        rw [hp] at h
        cases h
    · rw [ibus_process_loop_empty n s (by omega)] at h
      cases h
      exact hP

/-- A property kept by `ibus_append_byte`, by `ibus_reset_buffer` and by every pass of the
drain loop holds after every sequence of API calls that returns. -/
theorem ibus_run_preserves (P : IbusCore → Prop)
    (happ : ∀ s b, P s → P (ibus_append_byte s b))
    (hreset : ∀ s, P s → P (ibus_reset_buffer s))
    (hagain : ∀ s s1, P s → ibus_process_pass s = Pass.again s1 → P s1) :
    ∀ (calls : List ibus_call) (s s1 : IbusCore), P s →
      ibus_run s calls = Drain.returned s1 → P s1 := by
  have hstop : ∀ s s1, P s → ibus_process_pass s = Pass.stop s1 → P s1 := by
    intro s s1 hP h
    rcases ibus_process_pass_stop_cases h with rfl | rfl
    · exact hP
    · exact hreset _ hP
  intro calls
  induction calls with
  | nil =>
    intro s s1 hP h
    cases h
    exact hP
  | cons c cs ih =>
    intro s s1 hP h
    cases c with
    | append_byte b => exact ih _ s1 (happ s b hP) h
    | reset_buffer => exact ih _ s1 (hreset s hP) h
    | process_messages =>
      unfold ibus_run at h
      cases hd : ibus_process_messages s with
      | returned s2 =>
        rw [hd] at h
        exact ih s2 s1 (ibus_process_loop_preserves P hagain hstop _ s s2 hP hd) h
      | fault => rw [hd] at h; cases h
      | out_of_fuel => rw [hd] at h; cases h

theorem buffer_inv_reset_buffer (s : IbusCore) : buffer_inv (ibus_reset_buffer s) := by
  refine ⟨Nat.zero_le _, ?_⟩
  intro i _ hi
  show memset_zero s.ibus_data 0 IBUS_DATA_SIZE i = 0
  unfold memset_zero
  rw [if_pos ⟨Nat.zero_le i, by omega⟩]

theorem buffer_inv_append_byte (s : IbusCore) (b : Nat) (h : buffer_inv s) :
    buffer_inv (ibus_append_byte s b) := by
  unfold ibus_append_byte
  by_cases hge : s.ibus_data_index ≥ IBUS_DATA_SIZE
  · rw [if_pos hge]
    exact buffer_inv_reset_buffer s
  · rw [if_neg hge]
    refine ⟨?_, ?_⟩
    · show s.ibus_data_index + 1 ≤ IBUS_DATA_SIZE
      omega
    · intro i hi hi2
      have hi3 : s.ibus_data_index + 1 ≤ i := hi
      show (if i = s.ibus_data_index then b % 256 else s.ibus_data i) = 0
      rw [if_neg (by omega)]
      exact h.2 i (by omega) hi2

theorem buffer_inv_process_pass (s s1 : IbusCore) (h : buffer_inv s)
    (hp : ibus_process_pass s = Pass.again s1) : buffer_inv s1 := by
  obtain ⟨-, hle, -, s3, hd, rfl⟩ := ibus_process_pass_again_inv hp
  obtain ⟨hd3, hi3, -, -⟩ := dispatched_dispatch hd
  have hd3 : s3.ibus_data = s.ibus_data := hd3
  have hi3 : s3.ibus_data_index = s.ibus_data_index := hi3
  refine ⟨?_, ?_⟩
  · show s3.ibus_data_index - ibus_get_message_length s ≤ IBUS_DATA_SIZE
    have := h.1
    omega
  · intro i hi hi2
    have hi4 : s3.ibus_data_index - ibus_get_message_length s ≤ i := hi
    show memset_zero (memmove_front s3.ibus_data (ibus_get_message_length s)
      (s3.ibus_data_index - ibus_get_message_length s))
      (s3.ibus_data_index - ibus_get_message_length s) (ibus_get_message_length s) i = 0
    unfold memset_zero memmove_front
    by_cases hin : s3.ibus_data_index - ibus_get_message_length s ≤ i ∧
        i < s3.ibus_data_index - ibus_get_message_length s + ibus_get_message_length s
    · rw [if_pos hin]
    · rw [if_neg hin, if_neg (by omega), hd3]
      exact h.2 i (by omega) hi2

theorem buffer_inv_run (calls : List ibus_call) (s s1 : IbusCore) (h : buffer_inv s)
    (hrun : ibus_run s calls = Drain.returned s1) : buffer_inv s1 :=
  ibus_run_preserves buffer_inv buffer_inv_append_byte (fun s _ => buffer_inv_reset_buffer s)
    buffer_inv_process_pass calls s s1 h hrun

theorem buffer_inv_init (s : IbusCore) (hj : ibus_state_t) : buffer_inv (ibus_init s hj) :=
  ⟨Nat.zero_le _, (ibus_init_spec s hj).2.1⟩

theorem returned_of_state_isSome {d : Drain} (h : d.state?.isSome = true) :
    ∃ s, d = Drain.returned s := by
  cases d with
  | returned s => exact ⟨s, rfl⟩
  | fault => exact absurd h (by decide)
  | out_of_fuel => exact absurd h (by decide)

/-- C27: in every state the decoder is in after `ibus_init` and a sequence of
`ibus_append_byte`, `ibus_process_messages` and `ibus_reset_buffer` calls, the logical
length is at most 2056 (the size of the array) and every byte of the array at an offset
from the logical length on is zero. -/
theorem C27_buffer_invariant (s0 : IbusCore) (hj : ibus_state_t) (calls : List ibus_call)
    (s : IbusCore) (hrun : ibus_run (ibus_init s0 hj) calls = Drain.returned s) :
    s.ibus_data_index ≤ 2056 ∧
      ∀ i, s.ibus_data_index ≤ i → i < 2056 → s.ibus_data i = 0 := by
  have hsize : IBUS_DATA_SIZE = 2056 := by decide
  obtain ⟨h1, h2⟩ := buffer_inv_run calls _ s (buffer_inv_init s0 hj) hrun
  rw [hsize] at h1
  refine ⟨h1, ?_⟩
  intro i hi hi2
  exact h2 i hi (by rw [hsize]; exact hi2)

theorem C27_witness :
    ∃ s, ibus_run (ibus_init ibus_startup IBUS_STATE_AUX)
        [ibus_call.append_byte 0x68, ibus_call.append_byte 3, ibus_call.append_byte 0x3B,
          ibus_call.append_byte 0x46, ibus_call.append_byte 0x16, ibus_call.append_byte 0xF0,
          ibus_call.process_messages, ibus_call.append_byte 4, ibus_call.reset_buffer,
          ibus_call.append_byte 7] = Drain.returned s ∧
      s.ibus_data_index ≤ 2056 ∧ ∀ i, s.ibus_data_index ≤ i → i < 2056 → s.ibus_data i = 0 := by
  obtain ⟨s, hs⟩ := returned_of_state_isSome
    (d := ibus_run (ibus_init ibus_startup IBUS_STATE_AUX)
        [ibus_call.append_byte 0x68, ibus_call.append_byte 3, ibus_call.append_byte 0x3B,
          ibus_call.append_byte 0x46, ibus_call.append_byte 0x16, ibus_call.append_byte 0xF0,
          ibus_call.process_messages, ibus_call.append_byte 4, ibus_call.reset_buffer,
          ibus_call.append_byte 7]) (by decide)
  exact ⟨s, hs, C27_buffer_invariant _ _ _ s hs⟩

theorem only_power_off_refl (s : IbusCore) : only_power_off s s :=
  ⟨Or.inl rfl, rfl, [], by simp, by simp⟩

theorem only_power_off_button_event (s : IbusCore) (c r l : Nat) :
    only_power_off s (ibus_platform_button_event s c r l) :=
  ⟨Or.inl rfl, rfl, [Event.button_event c r l], rfl, by simp⟩

theorem only_power_off_knob_event (s : IbusCore) (c n : Nat) :
    only_power_off s (ibus_platform_knob_event s c n) :=
  ⟨Or.inl rfl, rfl, [Event.knob_event c n], rfl, by simp⟩

theorem only_power_off_power_button (s : IbusCore) (c r l : Nat) :
    only_power_off s
      (ibus_platform_button_event (ibus_change_state s IBUS_STATE_POWER_OFF) c r l) := by
  unfold ibus_change_state
  by_cases h : s.ibus_state = IBUS_STATE_POWER_OFF
  · rw [if_pos h]
    exact only_power_off_button_event s c r l
  · rw [if_neg h]
    refine ⟨Or.inr rfl, rfl,
      [Event.state_changed IBUS_STATE_POWER_OFF s.ibus_hijack_state, Event.button_event c r l],
      ?_, ?_⟩
    · show (s.platform_calls ++ [_]) ++ [_] = _
      rw [List.append_assoc]
      rfl
    · intro st hj hmem
      simp only [List.mem_cons, List.mem_singleton, List.not_mem_nil, or_false] at hmem
      rcases hmem with hmem | hmem
      · cases hmem; rfl
      · cases hmem

theorem only_power_off_handle_buttons (s : IbusCore) :
    only_power_off s (ibus_handle_buttons s) := by
  unfold ibus_handle_buttons
  dsimp only
  repeat' split
  all_goals first
    | exact only_power_off_refl s
    | exact only_power_off_button_event s _ _ _
    | exact only_power_off_knob_event s _ _
    | exact only_power_off_power_button s _ _ _

/-- With hijack target Unknown the dispatch is the button step alone: the head-unit step
is not run. -/
theorem ibus_dispatch_hijack_unknown (x : IbusCore)
    (h : x.ibus_hijack_state = IBUS_STATE_UNKNOWN) :
    ibus_dispatch x = some (ibus_handle_buttons x) := by
  unfold ibus_dispatch
  dsimp only
  have hb : (ibus_handle_buttons x).ibus_hijack_state = x.ibus_hijack_state :=
    (dispatched_handle_buttons x).2.2.1
  rw [if_neg (by rw [hb, h]; exact fun hc => hc rfl)]

theorem hijack_unknown_inv_append_byte (c0 : List Event) (s : IbusCore) (b : Nat)
    (h : hijack_unknown_inv c0 s) : hijack_unknown_inv c0 (ibus_append_byte s b) := by
  unfold ibus_append_byte
  by_cases hge : s.ibus_data_index ≥ IBUS_DATA_SIZE
  · rw [if_pos hge]; exact h
  · rw [if_neg hge]; exact h

theorem hijack_unknown_inv_process_pass (c0 : List Event) (s s1 : IbusCore)
    (h : hijack_unknown_inv c0 s) (hp : ibus_process_pass s = Pass.again s1) :
    hijack_unknown_inv c0 s1 := by
  obtain ⟨-, -, -, s3, hd, rfl⟩ := ibus_process_pass_again_inv hp
  obtain ⟨hhj, hst, evs, hcalls, hev⟩ := h
  rw [ibus_dispatch_hijack_unknown _ (by exact hhj)] at hd
  cases hd
  obtain ⟨b1, b2, evs2, b3, b4⟩ := only_power_off_handle_buttons
    (ibus_platform_log_message s (ibus_get_message_length s))
  refine ⟨b2.trans hhj, ?_, evs ++ (Event.log_message
    ((List.range (ibus_get_message_length s)).map s.ibus_data) (ibus_get_message_length s)
      :: evs2), ?_, ?_⟩
  · rcases b1 with b1 | b1
    · exact hst.imp (fun e => b1.trans e) (fun e => b1.trans e)
    · exact Or.inr b1
  · show (ibus_handle_buttons _).platform_calls = _
    rw [b3]
    show (s.platform_calls ++ [_]) ++ evs2 = _
    rw [hcalls, List.append_assoc, List.append_assoc]
    rfl
  · intro st hj hmem
    rcases List.mem_append.mp hmem with hmem | hmem
    · exact hev st hj hmem
    · rcases List.mem_cons.mp hmem with hmem | hmem
      · cases hmem
      · exact b4 st hj hmem

/-- C23: after `ibus_init` with hijack target Unknown and any sequence of
`ibus_append_byte`, `ibus_process_messages` and `ibus_reset_buffer` calls, the head-unit
state is Unknown or PowerOff and every state-change call made since `ibus_init` carries
`new_state` = PowerOff; with hijack target Unknown the dispatch of a frame sent by Radio
(0x68) changes nothing at all, whatever its message id. -/
theorem C23_hijack_unknown_tracks_power_off_only (s0 : IbusCore) (calls : List ibus_call)
    (s : IbusCore) (hrun : ibus_run (ibus_init s0 IBUS_STATE_UNKNOWN) calls = Drain.returned s) :
    (ibus_get_state s = IBUS_STATE_UNKNOWN ∨ ibus_get_state s = IBUS_STATE_POWER_OFF) ∧
    (∃ evs : List Event, s.platform_calls = s0.platform_calls ++ evs ∧
      ∀ st hj, Event.state_changed st hj ∈ evs → st = IBUS_STATE_POWER_OFF) ∧
    (∀ x : IbusCore, x.ibus_hijack_state = IBUS_STATE_UNKNOWN →
      ibus_get_sender x = IBUS_DEV_RAD → ibus_dispatch x = some x) := by
  have h0 : hijack_unknown_inv s0.platform_calls (ibus_init s0 IBUS_STATE_UNKNOWN) :=
    ⟨rfl, Or.inl rfl, [], by rw [List.append_nil]; rfl, by simp⟩
  obtain ⟨-, h2, h3⟩ := ibus_run_preserves (hijack_unknown_inv s0.platform_calls)
    (hijack_unknown_inv_append_byte _) (fun _ h => h) (hijack_unknown_inv_process_pass _)
    calls _ s h0 hrun
  refine ⟨h2, h3, ?_⟩
  intro x hx hsender
  rw [ibus_dispatch_hijack_unknown x hx,
    ibus_handle_buttons_other_sender x (by rw [hsender]; decide) (by rw [hsender]; decide)]

/-- C23 at a concrete run: a UMID "AUX" frame from Radio, then a radio-power press from the
board monitor, drained with hijack target Unknown. -/
theorem C23_witness :
    ∃ s, ibus_run (ibus_init ibus_startup IBUS_STATE_UNKNOWN)
        ([0x68, 0x07, 0x3B, 0x23, 0x62, 0x41, 0x55, 0x58, 0x59,
          0xF0, 0x04, 0x68, 0x48, 0x06, 0xD2].map ibus_call.append_byte ++
          [ibus_call.process_messages]) = Drain.returned s ∧
      (ibus_get_state s = IBUS_STATE_UNKNOWN ∨ ibus_get_state s = IBUS_STATE_POWER_OFF) := by
  obtain ⟨s, hs⟩ := returned_of_state_isSome
    (d := ibus_run (ibus_init ibus_startup IBUS_STATE_UNKNOWN)
        ([0x68, 0x07, 0x3B, 0x23, 0x62, 0x41, 0x55, 0x58, 0x59,
          0xF0, 0x04, 0x68, 0x48, 0x06, 0xD2].map ibus_call.append_byte ++
          [ibus_call.process_messages])) (by decide)
  exact ⟨s, hs, (C23_hijack_unknown_tracks_power_off_only _ _ s hs).1⟩

/-- The hijack target is written by `ibus_init` alone: a pass of the drain loop keeps it. -/
theorem ibus_process_pass_hijack (hj : ibus_state_t) (s s1 : IbusCore)
    (h : s.ibus_hijack_state = hj) (hp : ibus_process_pass s = Pass.again s1) :
    s1.ibus_hijack_state = hj := by
  obtain ⟨-, -, -, s3, hd, rfl⟩ := ibus_process_pass_again_inv hp
  exact ((dispatched_dispatch hd).2.2.1).trans h

theorem ibus_append_byte_hijack (hj : ibus_state_t) (s : IbusCore) (b : Nat)
    (h : s.ibus_hijack_state = hj) : (ibus_append_byte s b).ibus_hijack_state = hj := by
  unfold ibus_append_byte
  by_cases hge : s.ibus_data_index ≥ IBUS_DATA_SIZE
  · rw [if_pos hge]; exact h
  · rw [if_neg hge]; exact h

theorem ibus_run_hijack (calls : List ibus_call) (s s1 : IbusCore)
    (hrun : ibus_run s calls = Drain.returned s1) :
    s1.ibus_hijack_state = s.ibus_hijack_state :=
  ibus_run_preserves (fun x => x.ibus_hijack_state = s.ibus_hijack_state)
    (ibus_append_byte_hijack _) (fun _ h => h) (ibus_process_pass_hijack _) calls s s1 rfl hrun

/-- C25: from any prior decoder state `s0`, `ibus_init(h)` leaves the head-unit state
Unknown, the logical length 0 with every byte of the array zero (`ibus_has_pending_data`
returns 0) and the hijack target `h`; after any further sequence of `ibus_append_byte`,
`ibus_process_messages` and `ibus_reset_buffer` calls, `ibus_has_pending_data` is non-zero
exactly when the logical length is greater than 0, and the hijack target is still `h`. -/
theorem C25_init_and_pending (s0 : IbusCore) (h : ibus_state_t) (calls : List ibus_call)
    (s : IbusCore) (hrun : ibus_run (ibus_init s0 h) calls = Drain.returned s) :
    (ibus_get_state (ibus_init s0 h) = IBUS_STATE_UNKNOWN ∧
      ibus_has_pending_data (ibus_init s0 h) = false ∧
      (ibus_init s0 h).ibus_data_index = 0 ∧
      (∀ i, i < IBUS_DATA_SIZE → (ibus_init s0 h).ibus_data i = 0) ∧
      (ibus_init s0 h).ibus_hijack_state = h) ∧
    (ibus_has_pending_data s = true ↔ s.ibus_data_index > 0) ∧
    s.ibus_hijack_state = h := by
  obtain ⟨i1, i2, i3, i4, -⟩ := ibus_init_spec s0 h
  refine ⟨⟨i3, ?_, i1, ?_, i4⟩, ?_, ?_⟩
  · unfold ibus_has_pending_data
    rw [i1]
    rfl
  · intro i hi
    exact i2 i (by rw [i1]; exact Nat.zero_le i) hi
  · unfold ibus_has_pending_data
    exact decide_eq_true_iff
  · exact (ibus_run_hijack calls _ s hrun).trans i4

theorem C25_witness :
    ∃ s, ibus_run (ibus_init (ibus_holding [1, 2, 3] IBUS_STATE_FM IBUS_STATE_TAPE [])
          IBUS_STATE_AUX)
        [ibus_call.append_byte 0x68, ibus_call.process_messages] = Drain.returned s ∧
      (ibus_has_pending_data s = true ↔ s.ibus_data_index > 0) ∧
      s.ibus_hijack_state = IBUS_STATE_AUX := by
  obtain ⟨s, hs⟩ := returned_of_state_isSome
    (d := ibus_run (ibus_init (ibus_holding [1, 2, 3] IBUS_STATE_FM IBUS_STATE_TAPE [])
          IBUS_STATE_AUX)
        [ibus_call.append_byte 0x68, ibus_call.process_messages]) (by decide)
  exact ⟨s, hs, (C25_init_and_pending _ _ _ s hs).2⟩

theorem ibus_change_state_calls (s : IbusCore) (st : ibus_state_t) :
    (ibus_change_state s st).platform_calls = s.platform_calls ++
        (if s.ibus_state = st then [] else [Event.state_changed st s.ibus_hijack_state]) ∧
      (ibus_change_state s st).ibus_state = st ∧
      (ibus_change_state s st).ibus_hijack_state = s.ibus_hijack_state ∧
      (ibus_change_state s st).ibus_data = s.ibus_data ∧
      (ibus_change_state s st).ibus_data_index = s.ibus_data_index := by
  unfold ibus_change_state
  by_cases h : s.ibus_state = st
  · rw [if_pos h, if_pos h, List.append_nil]
    exact ⟨rfl, h, rfl, rfl, rfl⟩
  · rw [if_neg h, if_neg h]
    exact ⟨rfl, rfl, rfl, rfl, rfl⟩

/-- A checksum-valid frame sent by Radio, with a hijack target other than Unknown: the
dispatch is the head-unit step alone. -/
theorem ibus_process_messages_radio_frame {s : IbusCore} {f tail : List Nat}
    (hb : bytes_ok s) (h : holds s (f ++ tail)) (hf : valid_frame f)
    (ht : incomplete_candidate tail)
    (hhj : s.ibus_hijack_state ≠ IBUS_STATE_UNKNOWN) (hsender : f.getD 0 0 = 0x68) :
    ∃ s3, ibus_handle_headunit_state (ibus_platform_log_message s f.length) = some s3 ∧
      ibus_process_messages s = Drain.returned (ibus_remove_message s3 f.length) := by
  obtain ⟨hv0, -⟩ := frame_view h hf (x := ibus_platform_log_message s f.length) rfl
  obtain ⟨s3, hd, hdrain⟩ := ibus_process_messages_frame_tail hb h hf ht
  have hnb : ibus_handle_buttons (ibus_platform_log_message s f.length) =
      ibus_platform_log_message s f.length :=
    ibus_handle_buttons_other_sender _ (by rw [hv0, hsender]; decide)
      (by rw [hv0, hsender]; decide)
  have hdisp : ibus_dispatch (ibus_platform_log_message s f.length) =
      ibus_handle_headunit_state (ibus_platform_log_message s f.length) := by
    unfold ibus_dispatch
    dsimp only
    rw [hnb]
    exact if_pos hhj
  rw [hdisp] at hd
  exact ⟨s3, hd, hdrain⟩

/-- The LCDC branch of `ibus_handle_headunit_state`. -/
theorem ibus_handle_headunit_state_lcdc (x : IbusCore)
    (h1 : ibus_get_sender x = IBUS_DEV_RAD) (h2 : ibus_get_receiver x = IBUS_DEV_GT)
    (h3 : ibus_get_message x = IBUS_MSG_LCDC) :
    ibus_handle_headunit_state x =
      some (if ibus_get_data_length x = 1 ∧
          (ibus_get_data_byte x 0 = 0x01 ∨ ibus_get_data_byte x 0 = 0x02)
        then ibus_change_state x IBUS_STATE_MENU else x) := by
  unfold ibus_handle_headunit_state
  rw [if_pos ⟨h1, h2⟩]
  dsimp only
  rw [if_neg (by rw [h3]; decide), if_neg (by rw [h3]; decide), if_pos h3]
  by_cases hl : ibus_get_data_length x = 1
  · rw [if_pos hl]
    by_cases hd : ibus_get_data_byte x 0 = 0x01 ∨ ibus_get_data_byte x 0 = 0x02
    · rw [if_pos hd, if_pos ⟨hl, hd⟩]
    · rw [if_neg hd, if_neg (fun hc => hd hc.2)]
  · rw [if_neg hl, if_neg (fun hc => hl hc.1)]

/-- C21 (amended): with a hijack target other than Unknown, a checksum-valid frame (total
length 5..255) from Radio (0x68) to GraphicsDriver (0x3B) with message id 0x46: when the
frame has exactly one data byte and that byte is 0x01 or 0x02, the state after the drain is
Menu and the state-change callback fires exactly when the prior state was not Menu; in
every other case the state is unchanged and no state-change callback fires.  So, from a
prior state other than Menu, the state after the drain is Menu if and only if the frame has
exactly one data byte, equal to 0x01 or 0x02. -/
theorem C21_lcd_clear_menu (s : IbusCore) (f tail : List Nat)
    (hb : bytes_ok s) (h : holds s (f ++ tail)) (hf : valid_frame f)
    (ht : incomplete_candidate tail)
    (hhj : s.ibus_hijack_state ≠ IBUS_STATE_UNKNOWN)
    (hsender : f.getD 0 0 = 0x68) (hrecv : f.getD 2 0 = 0x3B) (hmsg : f.getD 3 0 = 0x46) :
    ∃ s1, ibus_process_messages s = Drain.returned s1 ∧
      (f.length = 6 ∧ (f.getD 4 0 = 0x01 ∨ f.getD 4 0 = 0x02) →
        s1.ibus_state = IBUS_STATE_MENU ∧
        s1.platform_calls = s.platform_calls ++
          (Event.log_message f f.length ::
            (if s.ibus_state = IBUS_STATE_MENU then []
              else [Event.state_changed IBUS_STATE_MENU s.ibus_hijack_state]))) ∧
      (¬ (f.length = 6 ∧ (f.getD 4 0 = 0x01 ∨ f.getD 4 0 = 0x02)) →
        s1.ibus_state = s.ibus_state ∧
        s1.platform_calls = s.platform_calls ++ [Event.log_message f f.length]) ∧
      (s.ibus_state ≠ IBUS_STATE_MENU →
        (s1.ibus_state = IBUS_STATE_MENU ↔
          (f.length = 6 ∧ (f.getD 4 0 = 0x01 ∨ f.getD 4 0 = 0x02)))) := by
  obtain ⟨hv0, hv2, hv3, hvl, hvd⟩ :=
    frame_view h hf (x := ibus_platform_log_message s f.length) rfl
  obtain ⟨s3, hd, hdrain⟩ := ibus_process_messages_radio_frame hb h hf ht hhj hsender
  have h5 := hf.2.1
  have hlog := log_message_calls_of_holds h
  rw [ibus_handle_headunit_state_lcdc _ (by rw [hv0, hsender]; rfl) (by rw [hv2, hrecv]; rfl)
    (by rw [hv3, hmsg]; rfl), hvl] at hd
  have hyes : f.length = 6 ∧ (f.getD 4 0 = 0x01 ∨ f.getD 4 0 = 0x02) →
      (ibus_remove_message s3 f.length).ibus_state = IBUS_STATE_MENU ∧
      (ibus_remove_message s3 f.length).platform_calls = s.platform_calls ++
        (Event.log_message f f.length ::
          (if s.ibus_state = IBUS_STATE_MENU then []
            else [Event.state_changed IBUS_STATE_MENU s.ibus_hijack_state])) := by
    intro hc
    have hd0 : ibus_get_data_byte (ibus_platform_log_message s f.length) 0 = f.getD 4 0 :=
      hvd 0 (by omega)
    rw [if_pos ⟨by omega, by rw [hd0]; exact hc.2⟩] at hd
    cases hd
    obtain ⟨c1, c2, -⟩ := ibus_change_state_calls (ibus_platform_log_message s f.length)
      IBUS_STATE_MENU
    refine ⟨c2, ?_⟩
    show (ibus_change_state (ibus_platform_log_message s f.length) IBUS_STATE_MENU).platform_calls
      = _
    rw [c1, hlog, List.append_assoc]
    rfl
  have hno : ¬ (f.length = 6 ∧ (f.getD 4 0 = 0x01 ∨ f.getD 4 0 = 0x02)) →
      (ibus_remove_message s3 f.length).ibus_state = s.ibus_state ∧
      (ibus_remove_message s3 f.length).platform_calls =
        s.platform_calls ++ [Event.log_message f f.length] := by
    intro hc
    rw [if_neg] at hd
    · cases hd
      exact ⟨rfl, hlog⟩
    · rintro ⟨g1, g2⟩
      have h6 : f.length = 6 := by omega
      have hd0 : ibus_get_data_byte (ibus_platform_log_message s f.length) 0 = f.getD 4 0 :=
        hvd 0 (by omega)
      rw [hd0] at g2
      exact hc ⟨h6, g2⟩
  refine ⟨_, hdrain, hyes, hno, ?_⟩
  intro hst
  constructor
  · intro hm
    by_contra hc
    exact hst ((hno hc).1.symm.trans hm)
  · intro hc
    exact (hyes hc).1

/-- C21 (amended) at a concrete buffer: the frame `68 04 3B 46 01 10` with prior state Fm and hijack
target Aux. -/
theorem C21_witness :
    ∃ s1, ibus_process_messages
        (ibus_holding [0x68, 0x04, 0x3B, 0x46, 0x01, 0x10] IBUS_STATE_FM IBUS_STATE_AUX [])
        = Drain.returned s1 ∧
      s1.ibus_state = IBUS_STATE_MENU ∧
      s1.platform_calls = [Event.log_message [0x68, 0x04, 0x3B, 0x46, 0x01, 0x10] 6,
        Event.state_changed IBUS_STATE_MENU IBUS_STATE_AUX] := by
  obtain ⟨s1, h1, h2, -, -⟩ := C21_lcd_clear_menu
    (ibus_holding [0x68, 0x04, 0x3B, 0x46, 0x01, 0x10] IBUS_STATE_FM IBUS_STATE_AUX [])
    [0x68, 0x04, 0x3B, 0x46, 0x01, 0x10] []
    (bytes_ok_holding _ _ _ _ (by decide)) (holds_holding _ _ _ _) (by decide) (by decide)
    (by decide) (by decide) (by decide) (by decide)
  obtain ⟨h3, h4⟩ := h2 (by decide)
  exact ⟨s1, h1, h3, h4⟩

/-- C21 (counterexample): after `ibus_init(Aux)` the frame `68 04 3B 46 01 10` sets the
state Menu; the frame `68 03 3B 46 16` that follows has message id 0x46 and no data byte,
and the state after its drain is Menu all the same (unchanged, no further callback). -/
theorem C21_counterexample :
    valid_frame [0x68, 0x03, 0x3B, 0x46, 0x16] ∧
    [0x68, 0x03, 0x3B, 0x46, 0x16].length = 5 ∧
    ((ibus_run (ibus_init ibus_startup IBUS_STATE_AUX)
        ([0x68, 0x04, 0x3B, 0x46, 0x01, 0x10].map ibus_call.append_byte ++
          [ibus_call.process_messages])).state?.map (fun s => s.ibus_state))
      = some IBUS_STATE_MENU ∧
    ((ibus_run (ibus_init ibus_startup IBUS_STATE_AUX)
        ([0x68, 0x04, 0x3B, 0x46, 0x01, 0x10].map ibus_call.append_byte ++
          [ibus_call.process_messages] ++
          [0x68, 0x03, 0x3B, 0x46, 0x16].map ibus_call.append_byte ++
          [ibus_call.process_messages])).state?.map
        (fun s => (s.ibus_state, s.platform_calls)))
      = some (IBUS_STATE_MENU,
          [Event.log_message [0x68, 0x04, 0x3B, 0x46, 0x01, 0x10] 6,
            Event.state_changed IBUS_STATE_MENU IBUS_STATE_AUX,
            Event.log_message [0x68, 0x03, 0x3B, 0x46, 0x16] 5]) := by
  decide

/-- C22 fails at three buffers.  The frame `68 07 3B 23 62 59 41 55 58` (data `62 59 41 55`,
no tag inside) alone: the checksum byte 0x58 'X' completes "AUX" and the state becomes Aux.
The frame `68 05 3B 23 62 56 41` (data `62 56`) followed by the two trailing bytes `55 58`:
checksum 'A' and trailing "UX" give "AUX" and the state becomes Aux.  The frame
`68 06 3B A5 62 99 46 4D` (data `62 99 46`) alone: 'F' and checksum 'M' give "FM" and the
state becomes Fm.  Each time the state-change callback fires. -/
theorem C22_search_reads_past_the_data :
    (valid_frame [0x68, 0x07, 0x3B, 0x23, 0x62, 0x59, 0x41, 0x55, 0x58] ∧
      (∀ tag ∈ ["AUX", "CDC", "TAPE"],
        ¬ contains_text (frame_data [0x68, 0x07, 0x3B, 0x23, 0x62, 0x59, 0x41, 0x55, 0x58]) tag) ∧
      ((ibus_process_messages
          (ibus_holding [0x68, 0x07, 0x3B, 0x23, 0x62, 0x59, 0x41, 0x55, 0x58]
            IBUS_STATE_FM IBUS_STATE_TAPE [])).state?.map
          (fun s => (s.ibus_state, s.platform_calls)))
        = some (IBUS_STATE_AUX,
            [Event.log_message [0x68, 0x07, 0x3B, 0x23, 0x62, 0x59, 0x41, 0x55, 0x58] 9,
              Event.state_changed IBUS_STATE_AUX IBUS_STATE_TAPE])) ∧
    (valid_frame [0x68, 0x05, 0x3B, 0x23, 0x62, 0x56, 0x41] ∧
      (∀ tag ∈ ["AUX", "CDC", "TAPE"],
        ¬ contains_text (frame_data [0x68, 0x05, 0x3B, 0x23, 0x62, 0x56, 0x41]) tag) ∧
      ((ibus_process_messages
          (ibus_holding ([0x68, 0x05, 0x3B, 0x23, 0x62, 0x56, 0x41] ++ [0x55, 0x58])
            IBUS_STATE_FM IBUS_STATE_TAPE [])).state?.map
          (fun s => (s.ibus_state, s.platform_calls)))
        = some (IBUS_STATE_AUX,
            [Event.log_message [0x68, 0x05, 0x3B, 0x23, 0x62, 0x56, 0x41] 7,
              Event.state_changed IBUS_STATE_AUX IBUS_STATE_TAPE])) ∧
    (valid_frame [0x68, 0x06, 0x3B, 0xA5, 0x62, 0x99, 0x46, 0x4D] ∧
      (∀ tag ∈ ["RDS", "FM", "REG", "MWA"],
        ¬ contains_text (frame_data [0x68, 0x06, 0x3B, 0xA5, 0x62, 0x99, 0x46, 0x4D]) tag) ∧
      ((ibus_process_messages
          (ibus_holding [0x68, 0x06, 0x3B, 0xA5, 0x62, 0x99, 0x46, 0x4D]
            IBUS_STATE_TAPE IBUS_STATE_TAPE [])).state?.map
          (fun s => (s.ibus_state, s.platform_calls)))
        = some (IBUS_STATE_FM,
            [Event.log_message [0x68, 0x06, 0x3B, 0xA5, 0x62, 0x99, 0x46, 0x4D] 8,
              Event.state_changed IBUS_STATE_FM IBUS_STATE_TAPE])) := by
  have hno : ∀ (l : List Nat) (tags : List String),
      (∀ tag ∈ tags, strstr_found l (tag_bytes tag) = false) →
      ∀ tag ∈ tags, ¬ contains_text l tag := by
    intro l tags h tag hmem hc
    have h1 := (strstr_found_iff (tag_bytes tag) l).2 hc
    rw [h tag hmem] at h1
    exact Bool.noConfusion h1
  refine ⟨⟨by decide, hno _ _ (by decide), by decide⟩, ⟨by decide, hno _ _ (by decide), by decide⟩,
    ⟨by decide, hno _ _ (by decide), by decide⟩⟩

theorem ibus_run_append_bytes (bytes : List Nat) (cs : List ibus_call) :
    ∀ s : IbusCore, ibus_run s (bytes.map ibus_call.append_byte ++ cs) =
      ibus_run (ibus_feed s bytes) cs := by
  induction bytes with
  | nil => intro s; rfl
  | cons b bs ih =>
    intro s
    show ibus_run (ibus_append_byte s b) (bs.map ibus_call.append_byte ++ cs) = _
    rw [ih]
    rfl

theorem ibus_run_process_fault (s : IbusCore) (cs : List ibus_call)
    (h : ibus_process_messages s = Drain.fault) :
    ibus_run s (ibus_call.process_messages :: cs) = Drain.fault := by
  unfold ibus_run
  rw [h]

/-- A completely full buffer made of copies of the frame `68 06 3B 23 62 41 41 14`: no
byte of the array is zero, and the text search of the first pass finds no NUL inside the
array. -/
theorem full_of_umid_no_nul (s : IbusCore) (tag : List Nat)
    (hd : ∀ i, i < 2056 →
      s.ibus_data i = [0x68, 0x06, 0x3B, 0x23, 0x62, 0x41, 0x41, 0x14].getD (i % 8) 0) :
    (∀ z, z < 2056 → s.ibus_data z ≠ 0) ∧
      ibus_data_contains (ibus_platform_log_message s 8) tag = none := by
  have hsize : IBUS_DATA_SIZE = 2056 := by decide
  have hnz : ∀ z, z < 2056 → s.ibus_data z ≠ 0 := by
    intro z hz
    rw [hd z hz]
    have h8 : z % 8 < 8 := Nat.mod_lt _ (by decide)
    generalize z % 8 = r at h8
    interval_cases r <;> decide
  refine ⟨hnz, ?_⟩
  unfold ibus_data_contains
  rw [c_strlen_none]
  · rfl
  · intro z h1 h2
    have hp : IBUS_POS_DATA_START = 4 := rfl
    exact hnz z (by omega)

theorem ibus_feed_full_of_umid :
    (ibus_feed (ibus_init ibus_startup IBUS_STATE_AUX) (List.flatten
      (List.replicate 257 [0x68, 0x06, 0x3B, 0x23, 0x62, 0x41, 0x41, 0x14]))).ibus_data_index
        = 2056 ∧
    (ibus_feed (ibus_init ibus_startup IBUS_STATE_AUX) (List.flatten
      (List.replicate 257 [0x68, 0x06, 0x3B, 0x23, 0x62, 0x41, 0x41, 0x14]))).ibus_hijack_state
        ≠ IBUS_STATE_UNKNOWN ∧
    ∀ i, i < 2056 →
      (ibus_feed (ibus_init ibus_startup IBUS_STATE_AUX) (List.flatten
        (List.replicate 257 [0x68, 0x06, 0x3B, 0x23, 0x62, 0x41, 0x41, 0x14]))).ibus_data i =
        [0x68, 0x06, 0x3B, 0x23, 0x62, 0x41, 0x41, 0x14].getD (i % 8) 0 := by
  have hlen : (List.flatten
      (List.replicate 257 [0x68, 0x06, 0x3B, 0x23, 0x62, 0x41, 0x41, 0x14])).length = 2056 := by
    rw [length_flatten_replicate]
    rfl
  have hsize : IBUS_DATA_SIZE = 2056 := by decide
  obtain ⟨hi0, -, -, hh0, -⟩ := ibus_init_spec ibus_startup IBUS_STATE_AUX
  obtain ⟨hidx, -, hhj, -, hdata⟩ := ibus_feed_spec
    (List.flatten (List.replicate 257 [0x68, 0x06, 0x3B, 0x23, 0x62, 0x41, 0x41, 0x14]))
    (ibus_init ibus_startup IBUS_STATE_AUX) (by rw [hi0, hlen, hsize])
  refine ⟨by rw [hidx, hi0, hlen], ?_, ?_⟩
  · rw [hhj, hh0]
    decide
  · intro i hi
    rw [hdata i, hi0, hlen, if_pos (by omega), Nat.sub_zero,
      getD_flatten_replicate [0x68, 0x06, 0x3B, 0x23, 0x62, 0x41, 0x41, 0x14] 8 rfl
        257 i (by omega)]
    have h8 : i % 8 < 8 := Nat.mod_lt _ (by decide)
    generalize i % 8 = r at h8
    interval_cases r <;> rfl

/-- C28 fails in the state reached by `ibus_init(IBUS_STATE_AUX)` and 2056 calls of
`ibus_append_byte` that deliver 257 copies of the frame `68 06 3B 23 62 41 41 14`: the
array is full and none of its 2056 bytes is zero, the first pass of
`ibus_process_messages` runs the text search on the first frame, the search has no NUL
inside the array, and the call does not return normally. -/
theorem C28_full_buffer_has_no_nul :
    (∀ z, z < 2056 →
      (ibus_feed (ibus_init ibus_startup IBUS_STATE_AUX) (List.flatten
        (List.replicate 257 [0x68, 0x06, 0x3B, 0x23, 0x62, 0x41, 0x41, 0x14]))).ibus_data z
        ≠ 0) ∧
    ibus_data_contains
        (ibus_platform_log_message
          (ibus_feed (ibus_init ibus_startup IBUS_STATE_AUX) (List.flatten
            (List.replicate 257 [0x68, 0x06, 0x3B, 0x23, 0x62, 0x41, 0x41, 0x14]))) 8)
        (tag_bytes "AUX") = none ∧
    ibus_run (ibus_init ibus_startup IBUS_STATE_AUX)
        ((List.flatten (List.replicate 257 [0x68, 0x06, 0x3B, 0x23, 0x62, 0x41, 0x41, 0x14])).map
            ibus_call.append_byte ++ [ibus_call.process_messages]) = Drain.fault := by
  obtain ⟨h1, h2, h3⟩ := ibus_feed_full_of_umid
  obtain ⟨k1, k2⟩ := full_of_umid_no_nul _ (tag_bytes "AUX") h3
  refine ⟨k1, k2, ?_⟩
  rw [ibus_run_append_bytes]
  exact ibus_run_process_fault _ _ (ibus_process_messages_full_of_umid _ h1 h2 h3)

/-- What does hold of C28: in every state reached from `ibus_init` by API calls in which the
buffer is not completely full, a zero byte stands at the logical length, so that a text
search started by a pass (which needs at least 5 buffered bytes) stays inside the array. -/
theorem search_in_bounds_of_run (s0 : IbusCore) (hj : ibus_state_t) (calls : List ibus_call)
    (s : IbusCore) (hrun : ibus_run (ibus_init s0 hj) calls = Drain.returned s)
    (h5 : IBUS_MIN_MESSAGE_LEN ≤ s.ibus_data_index) (hfull : s.ibus_data_index < IBUS_DATA_SIZE) :
    search_in_bounds s := by
  obtain ⟨-, hz⟩ := buffer_inv_run calls _ s (buffer_inv_init s0 hj) hrun
  have h4 : IBUS_POS_DATA_START ≤ s.ibus_data_index := by
    unfold IBUS_MIN_MESSAGE_LEN at h5
    unfold IBUS_POS_DATA_START
    omega
  exact Or.inr ⟨s.ibus_data_index, h4, hfull, hz _ (le_refl _) hfull⟩

set_option maxRecDepth 100000 in
/-- C29 holds of `IBUSDevices` and fails for `IBUSMessages`: its initialiser list has 255
entries, not 256, because no entry stands for 0x7A.  Indices 0x00..0x79 are aligned; from
index 0x7A on every entry is that of the next byte value (index 0x7A holds "0x7B"), so
message id 0xA5 is named "0xA6" while "Screen text" stands at index 0xA4, and element 0xFF
has no initialiser (a null pointer). -/
theorem C29_message_names_shifted :
    (IBUSDevices.length = 256 ∧ table_aligned IBUSDevices = true) ∧
    IBUSMessages.length = 255 ∧ table_aligned IBUSMessages = false ∧
    (∀ i, i < 0x7A → entry_aligned IBUSMessages i = true) ∧
    name_table_entry IBUSMessages 0x7A = some "0x7B" ∧
    hex_fallback 0x7A = "0x7A" ∧
    name_table_entry IBUSMessages 0xA5 = some "0xA6" ∧
    name_table_entry IBUSMessages 0xA4 = some "Screen text" ∧
    name_table_entry IBUSMessages 0xFF = none := by
  decide

theorem takeWhile_ne_zero_eq_take :
    ∀ (l : List Nat) (n : Nat), n ≤ l.length → (∀ k, k < n → l.getD k 0 ≠ 0) →
      (n < l.length → l.getD n 0 = 0) → l.takeWhile (fun b => b != 0) = l.take n := by
  intro l
  induction l with
  | nil =>
    intro n _ _ _
    simp
  | cons a l ih =>
    intro n hn hk hz
    cases n with
    | zero =>
      have ha : a = 0 := hz (by simp)
      subst ha
      simp [List.takeWhile]
    | succ m =>
      have ha : a ≠ 0 := hk 0 (by omega)
      have hrec := ih m (by simpa using hn)
        (fun k hk1 => by simpa using hk (k + 1) (by omega))
        (fun hm => by simpa using hz (by simpa using hm))
      rw [List.take_succ_cons, ← hrec, List.takeWhile_cons]
      simp [ha]

theorem getD_drop_zero (l : List Nat) (m k : Nat) :
    (l.drop m).getD k 0 = l.getD (m + k) 0 := by
  simp [List.getD_eq_getElem?_getD, List.getElem?_drop]

/-- The text search on a zero-tailed buffer that holds `l` reads `searched_text l`. -/
theorem ibus_data_contains_of_holds {s x : IbusCore} {l : List Nat} (tag : List Nat)
    (h : holds s l) (h4 : IBUS_POS_DATA_START ≤ l.length) (hlt : l.length < IBUS_DATA_SIZE)
    (hx : x.ibus_data = s.ibus_data) :
    ibus_data_contains x tag = some (strstr_found (searched_text l) tag) := by
  have hp : IBUS_POS_DATA_START = 4 := rfl
  have hz0 : s.ibus_data l.length = 0 := h.2.2 _ (by rw [h.1]) hlt
  obtain ⟨n0, hn, hle, hzero, hnz⟩ := c_strlen_of_zero s.ibus_data
    (IBUS_DATA_SIZE - IBUS_POS_DATA_START) IBUS_POS_DATA_START l.length h4 (by omega) hz0
  have hdata : ∀ k, IBUS_POS_DATA_START + k < l.length →
      (l.drop IBUS_POS_DATA_START).getD k 0 = s.ibus_data (IBUS_POS_DATA_START + k) := by
    intro k hk
    rw [getD_drop_zero, h.2.1 _ hk]
  have hdl : (l.drop IBUS_POS_DATA_START).length = l.length - IBUS_POS_DATA_START :=
    List.length_drop _ _
  have htext : searched_text l = (l.drop IBUS_POS_DATA_START).take n0 := by
    unfold searched_text
    apply takeWhile_ne_zero_eq_take
    · omega
    · intro k hk
      rw [hdata k (by omega)]
      exact hnz k hk
    · intro hk
      rw [hdata n0 (by omega)]
      exact hzero
  unfold ibus_data_contains
  rw [hx, hn, Option.map_some', htext]
  congr 2
  apply List.ext_getElem
  · rw [List.length_map, List.length_range, List.length_take, hdl]
    omega
  · intro k hk1 hk2
    rw [List.length_map, List.length_range] at hk1
    rw [List.getElem_map, List.getElem_range, List.getElem_take,
      ← List.getD_eq_getElem _ 0, hdata k (by omega)]

theorem ibus_change_state_self (x : IbusCore) : ibus_change_state x x.ibus_state = x := by
  unfold ibus_change_state
  rw [if_pos rfl]

/-- The UMID branch of `ibus_handle_headunit_state` in closed form. -/
theorem ibus_handle_headunit_state_umid {s x : IbusCore} {l : List Nat}
    (h : holds s l) (h4 : IBUS_POS_DATA_START ≤ l.length) (hlt : l.length < IBUS_DATA_SIZE)
    (hx : x.ibus_data = s.ibus_data)
    (h1 : ibus_get_sender x = IBUS_DEV_RAD) (h2 : ibus_get_receiver x = IBUS_DEV_GT)
    (h3 : ibus_get_message x = IBUS_MSG_UMID) (hg : ibus_get_data_length x > 0)
    (h5 : ibus_get_data_byte x 0 = 0x62) :
    ibus_handle_headunit_state x =
      some (ibus_change_state x (umid_text_state (searched_text l) x.ibus_state)) := by
  unfold ibus_handle_headunit_state
  rw [if_pos ⟨h1, h2⟩]
  dsimp only
  rw [if_pos h3, if_pos ⟨hg, h5⟩, ibus_data_contains_of_holds _ h h4 hlt hx,
    ibus_data_contains_of_holds _ h h4 hlt hx, ibus_data_contains_of_holds _ h h4 hlt hx]
  simp only [Option.some_bind]
  unfold umid_text_state
  cases strstr_found (searched_text l) (tag_bytes "AUX")
  · cases strstr_found (searched_text l) (tag_bytes "CDC")
    · cases strstr_found (searched_text l) (tag_bytes "TAPE")
      · simp [ibus_change_state_self]
      · simp
    · simp
  · simp

/-- The ST branch of `ibus_handle_headunit_state` in closed form. -/
theorem ibus_handle_headunit_state_st_text {s x : IbusCore} {l : List Nat}
    (h : holds s l) (h4 : IBUS_POS_DATA_START ≤ l.length) (hlt : l.length < IBUS_DATA_SIZE)
    (hx : x.ibus_data = s.ibus_data)
    (h1 : ibus_get_sender x = IBUS_DEV_RAD) (h2 : ibus_get_receiver x = IBUS_DEV_GT)
    (h3 : ibus_get_message x = IBUS_MSG_ST) (hg : ibus_get_data_length x > 0)
    (h5 : ibus_get_data_byte x 0 = 0x62) :
    ibus_handle_headunit_state x =
      some (ibus_change_state x (st_text_state (searched_text l) x.ibus_state)) := by
  unfold ibus_handle_headunit_state
  rw [if_pos ⟨h1, h2⟩]
  dsimp only
  rw [if_neg (by rw [h3]; decide), if_pos h3, if_pos ⟨hg, h5⟩,
    ibus_data_contains_of_holds _ h h4 hlt hx, ibus_data_contains_of_holds _ h h4 hlt hx,
    ibus_data_contains_of_holds _ h h4 hlt hx, ibus_data_contains_of_holds _ h h4 hlt hx]
  simp only [Option.some_bind]
  unfold st_text_state
  cases strstr_found (searched_text l) (tag_bytes "RDS")
  · cases strstr_found (searched_text l) (tag_bytes "FM")
    · cases strstr_found (searched_text l) (tag_bytes "REG")
      · cases strstr_found (searched_text l) (tag_bytes "MWA")
        · simp [ibus_change_state_self]
        · simp
      · simp
    · simp
  · simp

/-- What the drain does with a text frame (Radio to GraphicsDriver, id 0x23 or 0xA5, with
data and data[0] = 0x62) when the hijack target is not Unknown: the new state is decided by
the tags found in `searched_text (f ++ tail)`, the string that runs from the data offset
through the checksum byte and the bytes buffered after the frame up to the first zero; the
state-change callback fires exactly when the state changes. -/
theorem ibus_process_messages_text_frame (s : IbusCore) (f tail : List Nat)
    (hb : bytes_ok s) (h : holds s (f ++ tail)) (hf : valid_frame f)
    (ht : incomplete_candidate tail)
    (hhj : s.ibus_hijack_state ≠ IBUS_STATE_UNKNOWN)
    (hsender : f.getD 0 0 = 0x68) (hrecv : f.getD 2 0 = 0x3B)
    (hmsg : f.getD 3 0 = 0x23 ∨ f.getD 3 0 = 0xA5)
    (h6 : 6 ≤ f.length) (h62 : f.getD 4 0 = 0x62) :
    ∃ s1, ibus_process_messages s = Drain.returned s1 ∧
      s1.ibus_state =
        (if f.getD 3 0 = 0x23 then umid_text_state (searched_text (f ++ tail)) s.ibus_state
          else st_text_state (searched_text (f ++ tail)) s.ibus_state) ∧
      s1.platform_calls = s.platform_calls ++
        (Event.log_message f f.length ::
          (if s.ibus_state = s1.ibus_state then []
            else [Event.state_changed s1.ibus_state s.ibus_hijack_state])) := by
  obtain ⟨hv0, hv2, hv3, hvl, hvd⟩ :=
    frame_view h hf (x := ibus_platform_log_message s f.length) rfl
  obtain ⟨s3, hd, hdrain⟩ := ibus_process_messages_radio_frame hb h hf ht hhj hsender
  have h255 := hf.2.2.1
  have htl := incomplete_candidate_length ht
  have hlog := log_message_calls_of_holds h
  have hl4 : IBUS_POS_DATA_START ≤ (f ++ tail).length := by
    rw [List.length_append]; unfold IBUS_POS_DATA_START; omega
  have hlt : (f ++ tail).length < IBUS_DATA_SIZE := by
    rw [List.length_append]; unfold IBUS_DATA_SIZE IBUS_MAX_MESSAGE_LEN; omega
  have e1 : ibus_get_sender (ibus_platform_log_message s f.length) = IBUS_DEV_RAD := by
    rw [hv0, hsender]; rfl
  have e2 : ibus_get_receiver (ibus_platform_log_message s f.length) = IBUS_DEV_GT := by
    rw [hv2, hrecv]; rfl
  have eg : ibus_get_data_length (ibus_platform_log_message s f.length) > 0 := by
    rw [hvl]; omega
  have e5 : ibus_get_data_byte (ibus_platform_log_message s f.length) 0 = 0x62 := by
    rw [hvd 0 (by omega)]; exact h62
  have key : ∀ st : ibus_state_t,
      ibus_handle_headunit_state (ibus_platform_log_message s f.length) =
        some (ibus_change_state (ibus_platform_log_message s f.length) st) →
      ∃ s1, ibus_process_messages s = Drain.returned s1 ∧ s1.ibus_state = st ∧
        s1.platform_calls = s.platform_calls ++
          (Event.log_message f f.length ::
            (if s.ibus_state = s1.ibus_state then []
              else [Event.state_changed s1.ibus_state s.ibus_hijack_state])) := by
    intro st hst
    rw [hst] at hd
    cases hd
    obtain ⟨c1, c2, -⟩ := ibus_change_state_calls (ibus_platform_log_message s f.length) st
    refine ⟨_, hdrain, c2, ?_⟩
    show (ibus_change_state (ibus_platform_log_message s f.length) st).platform_calls =
      s.platform_calls ++ (Event.log_message f f.length ::
        (if s.ibus_state = (ibus_change_state (ibus_platform_log_message s f.length) st).ibus_state
          then [] else [Event.state_changed
            (ibus_change_state (ibus_platform_log_message s f.length) st).ibus_state
            s.ibus_hijack_state]))
    rw [c1, c2, hlog, List.append_assoc]
    rfl
  rcases hmsg with hm | hm
  · obtain ⟨s1, k1, k2, k3⟩ := key _ (ibus_handle_headunit_state_umid h hl4 hlt rfl e1 e2
      (by rw [hv3, hm]; rfl) eg e5)
    exact ⟨s1, k1, by rw [k2, if_pos hm]; rfl, k3⟩
  · obtain ⟨s1, k1, k2, k3⟩ := key _ (ibus_handle_headunit_state_st_text h hl4 hlt rfl e1 e2
      (by rw [hv3, hm]; rfl) eg e5)
    exact ⟨s1, k1, by rw [k2, if_neg (by rw [hm]; decide)]; rfl, k3⟩

set_option maxRecDepth 100000 in
/-- C12 fails on a frame of the longest length the wire format has: `F0 FF 68 48 86 00
(x251) A9` is a checksum-valid frame of 257 bytes (length byte 0xFF), sender BMBT, message
id 0x48, data byte 0x86 (a release).  With this frame buffered the declared length is
truncated to 1, the checksum test compares the XOR of no byte with the sender byte and
fails, and the drain clears the buffer without calling any hook: no button event is emitted.
-/
theorem C12_frame_of_257_bytes_dropped :
    wire_frame ([0xF0, 0xFF, 0x68, 0x48, 0x86] ++ List.replicate 251 0x00 ++ [0xA9]) ∧
    ([0xF0, 0xFF, 0x68, 0x48, 0x86] ++ List.replicate 251 0x00 ++ [0xA9]).getD 0 0 = 0xF0 ∧
    ([0xF0, 0xFF, 0x68, 0x48, 0x86] ++ List.replicate 251 0x00 ++ [0xA9]).getD 3 0 = 0x48 ∧
    ([0xF0, 0xFF, 0x68, 0x48, 0x86] ++ List.replicate 251 0x00 ++ [0xA9]).getD 4 0 = 0x86 ∧
    ((ibus_process_messages (ibus_holding
        ([0xF0, 0xFF, 0x68, 0x48, 0x86] ++ List.replicate 251 0x00 ++ [0xA9])
        IBUS_STATE_FM IBUS_STATE_AUX [])).state?.map
        (fun s => (s.ibus_state, s.platform_calls, s.ibus_data_index)))
      = some (IBUS_STATE_FM, [], 0) := by
  refine ⟨by decide, by decide, by decide, by decide, ?_⟩
  unfold ibus_process_messages
  rw [ibus_process_loop_succ_pos _ _ (by decide),
    ibus_process_pass_bad_checksum _ (by decide) (by decide) (by decide)]
  rfl

set_option maxRecDepth 100000 in
/-- C14 fails on a frame of the longest length the wire format has: `F0 FF 68 48 06 00
(x251) 29` is a checksum-valid frame of 257 bytes (length byte 0xFF), sender BMBT, message
id 0x48, first data byte 0x06 (radio power).  With this frame buffered the declared length
is truncated to 1, the checksum test compares the XOR of no byte with the sender byte and
fails, and the drain clears the buffer without calling any hook: the state stays Fm instead
of becoming PowerOff and no button event is emitted. -/
theorem C14_frame_of_257_bytes_dropped :
    wire_frame ([0xF0, 0xFF, 0x68, 0x48, 0x06] ++ List.replicate 251 0x00 ++ [0x29]) ∧
    ([0xF0, 0xFF, 0x68, 0x48, 0x06] ++ List.replicate 251 0x00 ++ [0x29]).getD 0 0 = 0xF0 ∧
    ([0xF0, 0xFF, 0x68, 0x48, 0x06] ++ List.replicate 251 0x00 ++ [0x29]).getD 3 0 = 0x48 ∧
    ([0xF0, 0xFF, 0x68, 0x48, 0x06] ++ List.replicate 251 0x00 ++ [0x29]).getD 4 0 = 0x06 ∧
    ((ibus_process_messages (ibus_holding
        ([0xF0, 0xFF, 0x68, 0x48, 0x06] ++ List.replicate 251 0x00 ++ [0x29])
        IBUS_STATE_FM IBUS_STATE_AUX [])).state?.map
        (fun s => (s.ibus_state, s.platform_calls, s.ibus_data_index)))
      = some (IBUS_STATE_FM, [], 0) := by
  refine ⟨by decide, by decide, by decide, by decide, ?_⟩
  unfold ibus_process_messages
  rw [ibus_process_loop_succ_pos _ _ (by decide),
    ibus_process_pass_bad_checksum _ (by decide) (by decide) (by decide)]
  rfl

set_option maxRecDepth 100000 in
/-- C15 fails on a frame of the longest length the wire format has: `F0 FF 3B 49 83 00
(x251) FE` is a checksum-valid frame of 257 bytes (length byte 0xFF), sender BMBT, message
id 0x49, first data byte 0x83 (clockwise, 3 steps).  With this frame buffered the declared
length is truncated to 1, the checksum test compares the XOR of no byte with the sender byte
and fails, and the drain clears the buffer without calling any hook: no knob event is
emitted. -/
theorem C15_frame_of_257_bytes_dropped :
    wire_frame ([0xF0, 0xFF, 0x3B, 0x49, 0x83] ++ List.replicate 251 0x00 ++ [0xFE]) ∧
    ([0xF0, 0xFF, 0x3B, 0x49, 0x83] ++ List.replicate 251 0x00 ++ [0xFE]).getD 0 0 = 0xF0 ∧
    ([0xF0, 0xFF, 0x3B, 0x49, 0x83] ++ List.replicate 251 0x00 ++ [0xFE]).getD 3 0 = 0x49 ∧
    ([0xF0, 0xFF, 0x3B, 0x49, 0x83] ++ List.replicate 251 0x00 ++ [0xFE]).getD 4 0 = 0x83 ∧
    ((ibus_process_messages (ibus_holding
        ([0xF0, 0xFF, 0x3B, 0x49, 0x83] ++ List.replicate 251 0x00 ++ [0xFE])
        IBUS_STATE_FM IBUS_STATE_AUX [])).state?.map
        (fun s => (s.ibus_state, s.platform_calls, s.ibus_data_index)))
      = some (IBUS_STATE_FM, [], 0) := by
  refine ⟨by decide, by decide, by decide, by decide, ?_⟩
  unfold ibus_process_messages
  rw [ibus_process_loop_succ_pos _ _ (by decide),
    ibus_process_pass_bad_checksum _ (by decide) (by decide) (by decide)]
  rfl

set_option maxRecDepth 100000 in
/-- C16 fails on a frame of the longest length the wire format has: `50 FF 68 3B 21 00
(x251) DD` is a checksum-valid frame of 257 bytes (length byte 0xFF), sender MFL, receiver
Radio, message id 0x3B, first data byte 0x21 (channel up, released).  With this frame
buffered the declared length is truncated to 1, the checksum test compares the XOR of no
byte with the sender byte and fails, and the drain clears the buffer without calling any
hook: no button event is emitted. -/
theorem C16_frame_of_257_bytes_dropped :
    wire_frame ([0x50, 0xFF, 0x68, 0x3B, 0x21] ++ List.replicate 251 0x00 ++ [0xDD]) ∧
    ([0x50, 0xFF, 0x68, 0x3B, 0x21] ++ List.replicate 251 0x00 ++ [0xDD]).getD 0 0 = 0x50 ∧
    ([0x50, 0xFF, 0x68, 0x3B, 0x21] ++ List.replicate 251 0x00 ++ [0xDD]).getD 2 0 = 0x68 ∧
    ([0x50, 0xFF, 0x68, 0x3B, 0x21] ++ List.replicate 251 0x00 ++ [0xDD]).getD 3 0 = 0x3B ∧
    ([0x50, 0xFF, 0x68, 0x3B, 0x21] ++ List.replicate 251 0x00 ++ [0xDD]).getD 4 0 = 0x21 ∧
    ((ibus_process_messages (ibus_holding
        ([0x50, 0xFF, 0x68, 0x3B, 0x21] ++ List.replicate 251 0x00 ++ [0xDD])
        IBUS_STATE_FM IBUS_STATE_AUX [])).state?.map
        (fun s => (s.ibus_state, s.platform_calls, s.ibus_data_index)))
      = some (IBUS_STATE_FM, [], 0) := by
  refine ⟨by decide, by decide, by decide, by decide, by decide, ?_⟩
  unfold ibus_process_messages
  rw [ibus_process_loop_succ_pos _ _ (by decide),
    ibus_process_pass_bad_checksum _ (by decide) (by decide) (by decide)]
  rfl

set_option maxRecDepth 100000 in
/-- C17 fails on a frame of the longest length the wire format has: `F0 FF 68 47 00 0F 00
(x250) 2F` is a checksum-valid frame of 257 bytes (length byte 0xFF), sender BMBT, message
id 0x47, second data byte 0x0F (select in tape mode).  With this frame buffered the declared
length is truncated to 1, the checksum test compares the XOR of no byte with the sender byte
and fails, and the drain clears the buffer without calling any hook: no button event is
emitted. -/
theorem C17_frame_of_257_bytes_dropped :
    wire_frame ([0xF0, 0xFF, 0x68, 0x47, 0x00, 0x0F] ++ List.replicate 250 0x00 ++ [0x2F]) ∧
    ([0xF0, 0xFF, 0x68, 0x47, 0x00, 0x0F] ++ List.replicate 250 0x00 ++ [0x2F]).getD 0 0 = 0xF0 ∧
    ([0xF0, 0xFF, 0x68, 0x47, 0x00, 0x0F] ++ List.replicate 250 0x00 ++ [0x2F]).getD 3 0 = 0x47 ∧
    ([0xF0, 0xFF, 0x68, 0x47, 0x00, 0x0F] ++ List.replicate 250 0x00 ++ [0x2F]).getD 5 0 = 0x0F ∧
    ((ibus_process_messages (ibus_holding
        ([0xF0, 0xFF, 0x68, 0x47, 0x00, 0x0F] ++ List.replicate 250 0x00 ++ [0x2F])
        IBUS_STATE_FM IBUS_STATE_AUX [])).state?.map
        (fun s => (s.ibus_state, s.platform_calls, s.ibus_data_index)))
      = some (IBUS_STATE_FM, [], 0) := by
  refine ⟨by decide, by decide, by decide, by decide, ?_⟩
  unfold ibus_process_messages
  rw [ibus_process_loop_succ_pos _ _ (by decide),
    ibus_process_pass_bad_checksum _ (by decide) (by decide) (by decide)]
  rfl

set_option maxRecDepth 100000 in
/-- C20 fails on a frame of the longest length the wire format has: `68 FF 3B A5 62 46 4D 20
(x249) 40` is a checksum-valid frame of 257 bytes (length byte 0xFF), sender Radio, receiver
GraphicsDriver, message id 0xA5, data 0x62 'F' 'M' and 249 spaces, no zero data byte.  With
this frame buffered the declared length is truncated to 1, the checksum test compares the
XOR of no byte with the sender byte and fails, and the drain clears the buffer without
calling any hook: the state stays Tape instead of becoming Fm. -/
theorem C20_frame_of_257_bytes_dropped :
    wire_frame ([0x68, 0xFF, 0x3B, 0xA5, 0x62, 0x46, 0x4D] ++ List.replicate 249 0x20 ++ [0x40]) ∧
    ([0x68, 0xFF, 0x3B, 0xA5, 0x62, 0x46, 0x4D] ++ List.replicate 249 0x20 ++ [0x40]).getD 0 0 = 0x68 ∧
    ([0x68, 0xFF, 0x3B, 0xA5, 0x62, 0x46, 0x4D] ++ List.replicate 249 0x20 ++ [0x40]).getD 2 0 = 0x3B ∧
    ([0x68, 0xFF, 0x3B, 0xA5, 0x62, 0x46, 0x4D] ++ List.replicate 249 0x20 ++ [0x40]).getD 3 0 = 0xA5 ∧
    ([0x68, 0xFF, 0x3B, 0xA5, 0x62, 0x46, 0x4D] ++ List.replicate 249 0x20 ++ [0x40]).getD 4 0 = 0x62 ∧
    (∀ b ∈ frame_data ([0x68, 0xFF, 0x3B, 0xA5, 0x62, 0x46, 0x4D] ++ List.replicate 249 0x20 ++ [0x40]), b ≠ 0) ∧
    contains_text (frame_data ([0x68, 0xFF, 0x3B, 0xA5, 0x62, 0x46, 0x4D] ++ List.replicate 249 0x20 ++ [0x40])) "FM" ∧
    ((ibus_process_messages (ibus_holding
        ([0x68, 0xFF, 0x3B, 0xA5, 0x62, 0x46, 0x4D] ++ List.replicate 249 0x20 ++ [0x40])
        IBUS_STATE_TAPE IBUS_STATE_AUX [])).state?.map
        (fun s => (s.ibus_state, s.platform_calls, s.ibus_data_index)))
      = some (IBUS_STATE_TAPE, [], 0) := by
  refine ⟨by decide, by decide, by decide, by decide, by decide, by decide, ⟨[0x62], List.replicate 249 0x20, by decide⟩, ?_⟩
  unfold ibus_process_messages
  rw [ibus_process_loop_succ_pos _ _ (by decide),
    ibus_process_pass_bad_checksum _ (by decide) (by decide) (by decide)]
  rfl

set_option maxRecDepth 100000 in
/-- C18 fails on a frame of the longest length the wire format has: `00 FF 03 01 00 FD F0 04
68 48 06 D2 01 03 00 (x242) 02` is a checksum-valid frame of 257 bytes (length byte 0xFF)
with sender 0x00, receiver 0x03 and message id 0x01, which matches no event-producing row.
With this frame buffered the declared length is truncated to 1; the XOR of no byte equals
the sender byte 0x00, so the drain takes the first byte as a message, then `FF 03 01 00 FD`
as a second one, then `F0 04 68 48 06 D2` as a radio-power press: it emits a state change to
PowerOff and the button event with code 6, and drops the rest on a checksum failure. -/
theorem C18_frame_of_257_bytes_emits_button :
    wire_frame ([0x00, 0xFF, 0x03, 0x01, 0x00, 0xFD, 0xF0, 0x04, 0x68, 0x48, 0x06, 0xD2, 0x01, 0x03] ++
        List.replicate 242 0x00 ++ [0x02]) ∧
    ([0x00, 0xFF, 0x03, 0x01, 0x00, 0xFD, 0xF0, 0x04, 0x68, 0x48, 0x06, 0xD2, 0x01, 0x03] ++
        List.replicate 242 0x00 ++ [0x02]).getD 0 0 = 0x00 ∧
    ([0x00, 0xFF, 0x03, 0x01, 0x00, 0xFD, 0xF0, 0x04, 0x68, 0x48, 0x06, 0xD2, 0x01, 0x03] ++
        List.replicate 242 0x00 ++ [0x02]).getD 2 0 = 0x03 ∧
    ([0x00, 0xFF, 0x03, 0x01, 0x00, 0xFD, 0xF0, 0x04, 0x68, 0x48, 0x06, 0xD2, 0x01, 0x03] ++
        List.replicate 242 0x00 ++ [0x02]).getD 3 0 = 0x01 ∧
    ((ibus_process_messages (ibus_holding
        ([0x00, 0xFF, 0x03, 0x01, 0x00, 0xFD, 0xF0, 0x04, 0x68, 0x48, 0x06, 0xD2, 0x01, 0x03] ++
        List.replicate 242 0x00 ++ [0x02])
        IBUS_STATE_FM IBUS_STATE_AUX [])).state?.map
        (fun s => (s.ibus_state, s.platform_calls, s.ibus_data_index)))
      = some (IBUS_STATE_POWER_OFF,
          [Event.log_message [0x00] 1, Event.log_message [0xFF, 0x03, 0x01, 0x00, 0xFD] 5,
            Event.log_message [0xF0, 0x04, 0x68, 0x48, 0x06, 0xD2] 6,
            Event.state_changed IBUS_STATE_POWER_OFF IBUS_STATE_AUX,
            Event.button_event 6 0 0], 0) := by
  decide

theorem ibus_handle_headunit_state_past_eq (past : List Nat → Bool) {s s1 : IbusCore}
    (h : ibus_handle_headunit_state s = some s1) :
    ibus_handle_headunit_state_past past s = s1 := by
  have hm1 : IBUS_MSG_LCDC ≠ IBUS_MSG_UMID := by decide
  have hm2 : IBUS_MSG_LCDC ≠ IBUS_MSG_ST := by decide
  have hm3 : IBUS_MSG_ST ≠ IBUS_MSG_UMID := by decide
  unfold ibus_handle_headunit_state ibus_data_contains at h
  unfold ibus_handle_headunit_state_past ibus_data_contains_past ibus_data_contains
  dsimp only at h ⊢
  cases hc : c_strlen s.ibus_data IBUS_POS_DATA_START (IBUS_DATA_SIZE - IBUS_POS_DATA_START) with
  | none =>
    rw [hc] at h
    simp only [Option.map_none', Option.none_bind] at h
    repeat' split at h
    all_goals (cases h <;> simp [*, hm1, hm2, hm3])
  | some n =>
    rw [hc] at h
    simp only [Option.map_some', Option.some_bind] at h
    simp only [Option.map_some', Option.getD_some]
    repeat' split at h
    all_goals (cases h; simp [*, hm1, hm2, hm3])

theorem ibus_dispatch_past_eq (past : List Nat → Bool) {s s1 : IbusCore}
    (h : ibus_dispatch s = some s1) : ibus_dispatch_past past s = s1 := by
  unfold ibus_dispatch at h
  unfold ibus_dispatch_past
  dsimp only at h ⊢
  by_cases hu : (ibus_handle_buttons s).ibus_hijack_state ≠ IBUS_STATE_UNKNOWN
  · rw [if_pos hu] at h ⊢
    exact ibus_handle_headunit_state_past_eq past h
  · rw [if_neg hu] at h ⊢
    cases h
    rfl

theorem ibus_process_pass_past_eq (past : List Nat → Bool) (s : IbusCore)
    (h : ibus_process_pass s ≠ Pass.fault) :
    ibus_process_pass_past past s = ibus_process_pass s := by
  unfold ibus_process_pass at h ⊢
  unfold ibus_process_pass_past
  dsimp only at h ⊢
  by_cases h1 : s.ibus_data_index < IBUS_MIN_MESSAGE_LEN
  · rw [if_pos h1, if_pos h1]
  · rw [if_neg h1] at h
    rw [if_neg h1, if_neg h1]
    by_cases h2 : s.ibus_data_index < ibus_get_message_length s
    · rw [if_pos h2, if_pos h2]
    · rw [if_neg h2] at h
      rw [if_neg h2, if_neg h2]
      by_cases h3 : ibus_calc_checksum s ((ibus_get_message_length s + 256 - 1) % 256) ≠
          s.ibus_data ((ibus_get_message_length s + 256 - 1) % 256)
      · rw [if_pos h3, if_pos h3]
      · rw [if_neg h3] at h
        rw [if_neg h3, if_neg h3]
        cases hd : ibus_dispatch (ibus_platform_log_message s (ibus_get_message_length s)) with
        | none =>
          rw [hd] at h
          exact absurd rfl h
        | some s3 =>
          rw [ibus_dispatch_past_eq past hd]

theorem ibus_process_loop_past_eq (past : List Nat → Bool) :
    ∀ (fuel : Nat) (s s1 : IbusCore), ibus_process_loop fuel s = Drain.returned s1 →
      ibus_process_loop_past past fuel s = Drain.returned s1 := by
  intro fuel
  induction fuel with
  | zero =>
    intro s s1 h
    cases h
  | succ n ih =>
    intro s s1 h
    unfold ibus_process_loop at h
    unfold ibus_process_loop_past
    by_cases h0 : s.ibus_data_index > 0
    · rw [if_pos h0] at h ⊢
      have hnf : ibus_process_pass s ≠ Pass.fault := by
        intro hf
        rw [hf] at h
        cases h
      rw [ibus_process_pass_past_eq past s hnf]
      cases hp : ibus_process_pass s with
      | stop s2 => rw [hp] at h; exact h
      | again s2 => rw [hp] at h; exact ih s2 s1 h
      | fault => exact absurd hp hnf
    · rw [if_neg h0] at h ⊢
      exact h

/-- Whenever `ibus_process_messages` returns, the drain with a text search that goes on
past the array returns the same decoder, whatever that search would answer. -/
theorem ibus_process_messages_past_eq (past : List Nat → Bool) (s s1 : IbusCore)
    (h : ibus_process_messages s = Drain.returned s1) :
    ibus_process_messages_past past s = Drain.returned s1 :=
  ibus_process_loop_past_eq past _ s s1 h

theorem dispatched_handle_headunit_state_past (past : List Nat → Bool) (s : IbusCore) :
    dispatched s (ibus_handle_headunit_state_past past s) := by
  unfold ibus_handle_headunit_state_past
  dsimp only
  repeat' split
  all_goals first
    | exact dispatched_refl s
    | exact dispatched_change_state s _

theorem dispatched_dispatch_past (past : List Nat → Bool) (s : IbusCore) :
    dispatched s (ibus_dispatch_past past s) := by
  unfold ibus_dispatch_past
  dsimp only
  split
  · exact dispatched_trans (dispatched_handle_buttons s)
      (dispatched_handle_headunit_state_past past _)
  · exact dispatched_handle_buttons s

theorem ibus_process_pass_past_frame (past : List Nat → Bool) {s : IbusCore}
    {f rest : List Nat} (hb : bytes_ok s) (h : holds s (f ++ rest)) (hf : valid_frame f) :
    ibus_process_pass_past past s = Pass.again (ibus_remove_message
      (ibus_dispatch_past past (ibus_platform_log_message s f.length)) f.length) := by
  obtain ⟨-, h5, h255, hlenf, hckf⟩ := hf
  have h1 : s.ibus_data IBUS_POS_LENGTH = f.getD 1 0 := holds_data_front h 1 (by omega)
  have hlen : ibus_get_message_length s = f.length :=
    ibus_get_message_length_eq s f.length (by rw [h1]; exact hlenf) h255
  have hci : (f.length + 256 - 1) % 256 = f.length - 1 := by omega
  have hidx : f.length ≤ s.ibus_data_index := by
    rw [h.1, List.length_append]; omega
  have hck : ibus_calc_checksum s (f.length - 1) = s.ibus_data (f.length - 1) := by
    rw [ibus_calc_checksum_eq s hb, buffer_slice_eq_of_holds h _ (by omega),
      holds_data_front h _ (by omega), hckf]
  have hi3 : (ibus_dispatch_past past (ibus_platform_log_message s f.length)).ibus_data_index
      = s.ibus_data_index := (dispatched_dispatch_past past _).2.1
  unfold ibus_process_pass_past
  dsimp only
  rw [hlen, hci, if_neg (by unfold IBUS_MIN_MESSAGE_LEN; omega), if_neg (by omega),
    if_neg (by simpa using hck), if_pos (by rw [hi3]; exact hidx)]

theorem ibus_process_loop_past_succ_pos (past : List Nat → Bool) (fuel : Nat) (s : IbusCore)
    (h : 0 < s.ibus_data_index) :
    ibus_process_loop_past past (fuel + 1) s =
      match ibus_process_pass_past past s with
      | Pass.stop s1 => Drain.returned s1
      | Pass.again s1 => ibus_process_loop_past past fuel s1
      | Pass.fault => Drain.fault := by
  rw [ibus_process_loop_past, if_pos h]

theorem ibus_process_loop_past_empty (past : List Nat → Bool) (fuel : Nat) (s : IbusCore)
    (h : s.ibus_data_index = 0) :
    ibus_process_loop_past past (fuel + 1) s = Drain.returned s := by
  rw [ibus_process_loop_past, if_neg (by omega)]

theorem ibus_process_loop_past_mono (past : List Nat → Bool) :
    ∀ (fuel : Nat) (s s1 : IbusCore), ibus_process_loop_past past fuel s = Drain.returned s1 →
      ∀ more, fuel ≤ more → ibus_process_loop_past past more s = Drain.returned s1 := by
  intro fuel
  induction fuel with
  | zero =>
    intro s s1 h
    cases h
  | succ n ih =>
    intro s s1 h more hm
    obtain ⟨m, rfl⟩ : ∃ m, more = m + 1 := ⟨more - 1, by omega⟩
    by_cases h0 : 0 < s.ibus_data_index
    · rw [ibus_process_loop_past_succ_pos past _ s h0] at h ⊢
      cases hp : ibus_process_pass_past past s with
      | stop s2 => rw [hp] at h; exact h
      | again s2 => rw [hp] at h; exact ih s2 s1 h m (by omega)
      | fault => rw [hp] at h; cases h
    · rw [ibus_process_loop_past_empty past _ s (by omega)] at h ⊢
      exact h

/-- The drain, with a text search that goes on past the array, on a buffer that holds
back-to-back checksum-valid frames and nothing else. -/
theorem ibus_process_messages_past_frames (past : List Nat → Bool) (frames : List (List Nat)) :
    ∀ s : IbusCore, bytes_ok s → holds s frames.flatten → (∀ f ∈ frames, valid_frame f) →
      ∃ (s1 : IbusCore) (evs : List (List Event)),
        ibus_process_messages_past past s = Drain.returned s1 ∧ holds s1 [] ∧
        evs.length = frames.length ∧ (∀ l ∈ evs, ∀ e ∈ l, e.is_log = false) ∧
        s1.platform_calls = s.platform_calls ++
          (List.zipWith (fun f l => Event.log_message f f.length :: l) frames evs).flatten := by
  induction frames with
  | nil =>
    intro s _ h _
    refine ⟨s, [], ?_, h, rfl, by simp, by simp⟩
    unfold ibus_process_messages_past
    exact ibus_process_loop_past_empty past _ s (by simpa using h.1)
  | cons f rest ih =>
    intro s hb h hv
    rw [List.flatten_cons] at h
    have hf := hv f (List.mem_cons_self _ _)
    have hidx : s.ibus_data_index = f.length + rest.flatten.length := by
      rw [h.1, List.length_append]
    have hp := ibus_process_pass_past_frame past hb h hf
    have hc := log_message_calls_of_holds h
    obtain ⟨hd3, hi3, -, evs3, hc3, hnl3⟩ :=
      dispatched_dispatch_past past (ibus_platform_log_message s f.length)
    have hd3' : (ibus_dispatch_past past (ibus_platform_log_message s f.length)).ibus_data
        = s.ibus_data := hd3
    have hi3' : (ibus_dispatch_past past (ibus_platform_log_message s f.length)).ibus_data_index
        = s.ibus_data_index := hi3
    have h3 := holds_of_eq h hd3' hi3'
    have hb3 := bytes_ok_of_eq hb hd3'
    have hrm := holds_remove_message h3
    have hbr := bytes_ok_remove_message _ f.length hb3
    obtain ⟨s1, evs, hr, hh, hl, hnl, hcalls⟩ := ih _ hbr hrm
      (fun g hg => hv g (List.mem_cons_of_mem _ hg))
    refine ⟨s1, evs3 :: evs, ?_, hh, by simp [hl], ?_, ?_⟩
    · unfold ibus_process_messages_past
      rw [ibus_process_loop_past_succ_pos past _ s (by have := hf.2.1; omega), hp]
      dsimp only
      apply ibus_process_loop_past_mono past _ _ _ hr
      rw [hrm.1, hidx]
      have := hf.2.1
      omega
    · intro l hl
      rcases List.mem_cons.mp hl with rfl | hl
      · exact hnl3
      · exact hnl l hl
    · rw [hcalls]
      show (ibus_dispatch_past past (ibus_platform_log_message s f.length)).platform_calls ++ _
        = _
      rw [hc3, hc]
      simp [List.zipWith_cons_cons, List.flatten_cons, List.append_assoc]

/-- C4: when the buffer holds exactly `k` back-to-back checksum-valid frames (each of total
length 5..255) and nothing else, one call of `ibus_process_messages` returns with the buffer
empty, and the hook calls it adds are, frame by frame in arrival order, the log call with
the bytes and the length of the frame followed by the other calls of that frame, none of
them a log call.  This holds whatever a text search that leaves the completely full array
would answer (`past`); when the buffer is not completely full or the hijack target is
Unknown no search leaves the array and the same decoder is the result of
`ibus_process_messages` as modelled with the bounds check. -/
theorem C4_frames_logged_in_order (past : List Nat → Bool) (frames : List (List Nat))
    (s : IbusCore) (hb : bytes_ok s) (h : holds s frames.flatten)
    (hv : ∀ f ∈ frames, valid_frame f) :
    ∃ (s1 : IbusCore) (evs : List (List Event)),
      ibus_process_messages_past past s = Drain.returned s1 ∧
      (s.ibus_hijack_state = IBUS_STATE_UNKNOWN ∨ s.ibus_data_index < IBUS_DATA_SIZE →
        ibus_process_messages s = Drain.returned s1) ∧
      holds s1 [] ∧ evs.length = frames.length ∧ (∀ l ∈ evs, ∀ e ∈ l, e.is_log = false) ∧
      s1.platform_calls = s.platform_calls ++
        (List.zipWith (fun f l => Event.log_message f f.length :: l) frames evs).flatten := by
  obtain ⟨s1, evs, h1, h2, h3, h4, h5⟩ := ibus_process_messages_past_frames past frames s hb h hv
  refine ⟨s1, evs, h1, ?_, h2, h3, h4, h5⟩
  intro hsafe
  obtain ⟨s2, -, k1, -⟩ := ibus_process_messages_frames frames s hb h hv hsafe
  have k2 := ibus_process_messages_past_eq past s s2 k1
  rw [h1] at k2
  cases k2
  exact k1

theorem valid_frame_of_mem_replicate {F f : List Nat} {k : Nat} (hF : valid_frame F)
    (h : f ∈ List.replicate k F) : valid_frame f := by
  rw [List.eq_of_mem_replicate h]
  exact hF

/-- C4 at the completely full buffer: after `ibus_init(IBUS_STATE_AUX)` and 257 copies of
the frame `68 06 3B 23 62 41 41 14` (2056 bytes, no zero byte), with a search past the
array that finds every tag, the drain returns with the buffer empty after 257 groups of
calls, one per frame. -/
theorem C4_witness :
    ∃ (s1 : IbusCore) (evs : List (List Event)),
      ibus_process_messages_past (fun _ => true)
        (ibus_feed (ibus_init ibus_startup IBUS_STATE_AUX) (List.flatten
          (List.replicate 257 [0x68, 0x06, 0x3B, 0x23, 0x62, 0x41, 0x41, 0x14])))
        = Drain.returned s1 ∧
      holds s1 [] ∧ evs.length = 257 := by
  obtain ⟨hi0, hz0, -⟩ := ibus_init_spec ibus_startup IBUS_STATE_AUX
  have hF : valid_frame [0x68, 0x06, 0x3B, 0x23, 0x62, 0x41, 0x41, 0x14] := by decide
  have hlen : (List.flatten
      (List.replicate 257 [0x68, 0x06, 0x3B, 0x23, 0x62, 0x41, 0x41, 0x14])).length = 2056 := by
    rw [length_flatten_replicate]
    rfl
  have hsize : IBUS_DATA_SIZE = 2056 := by decide
  have hbytes : ∀ b ∈ List.flatten
      (List.replicate 257 [0x68, 0x06, 0x3B, 0x23, 0x62, 0x41, 0x41, 0x14]), b < 256 := by
    intro b hb
    obtain ⟨f, hf, hbf⟩ := List.mem_flatten.mp hb
    exact (valid_frame_of_mem_replicate hF hf).1 b hbf
  obtain ⟨s1, evs, h1, -, h3, h4, -⟩ := C4_frames_logged_in_order (fun _ => true)
    (List.replicate 257 [0x68, 0x06, 0x3B, 0x23, 0x62, 0x41, 0x41, 0x14])
    (ibus_feed (ibus_init ibus_startup IBUS_STATE_AUX) (List.flatten
      (List.replicate 257 [0x68, 0x06, 0x3B, 0x23, 0x62, 0x41, 0x41, 0x14])))
    (ibus_feed_bytes_ok _ _ (bytes_ok_init _ _ bytes_ok_startup) (by rw [hi0, hlen, hsize]))
    (ibus_feed_holds _ _ hi0 hz0 hbytes (by rw [hlen, hsize]))
    (fun f hf => valid_frame_of_mem_replicate hF hf)
  exact ⟨s1, evs, h1, h3, by rw [h4, List.length_replicate]⟩

/-- The text search on a zero-tailed buffer that holds `l`, when it stays inside the array,
reads `searched_text l`. -/
theorem ibus_data_contains_of_fits {s x : IbusCore} {l : List Nat} (tag : List Nat)
    (h : holds s l) (h4 : IBUS_POS_DATA_START ≤ l.length) (hle : l.length ≤ IBUS_DATA_SIZE)
    (hfit : search_fits l) (hx : x.ibus_data = s.ibus_data) :
    ibus_data_contains x tag = some (strstr_found (searched_text l) tag) := by
  have hp : IBUS_POS_DATA_START = 4 := rfl
  obtain ⟨z, hz1, hz2, hz3, hz0⟩ : ∃ z, IBUS_POS_DATA_START ≤ z ∧ z ≤ l.length ∧
      z < IBUS_DATA_SIZE ∧ s.ibus_data z = 0 := by
    rcases hfit with hlt | ⟨z, hz1, hz2, hz0⟩
    · exact ⟨l.length, h4, le_refl _, hlt, h.2.2 _ (by rw [h.1]) hlt⟩
    · exact ⟨z, hz1, by omega, by omega, by rw [h.2.1 z hz2]; exact hz0⟩
  obtain ⟨n0, hn, hle0, hzero, hnz⟩ := c_strlen_of_zero s.ibus_data
    (IBUS_DATA_SIZE - IBUS_POS_DATA_START) IBUS_POS_DATA_START z hz1 (by omega) hz0
  have hdata : ∀ k, IBUS_POS_DATA_START + k < l.length →
      (l.drop IBUS_POS_DATA_START).getD k 0 = s.ibus_data (IBUS_POS_DATA_START + k) := by
    intro k hk
    rw [getD_drop_zero, h.2.1 _ hk]
  have hdl : (l.drop IBUS_POS_DATA_START).length = l.length - IBUS_POS_DATA_START :=
    List.length_drop _ _
  have htext : searched_text l = (l.drop IBUS_POS_DATA_START).take n0 := by
    unfold searched_text
    apply takeWhile_ne_zero_eq_take
    · omega
    · intro k hk
      rw [hdata k (by omega)]
      exact hnz k hk
    · intro hk
      rw [hdata n0 (by omega)]
      exact hzero
  unfold ibus_data_contains
  rw [hx, hn, Option.map_some', htext]
  congr 2
  apply List.ext_getElem
  · rw [List.length_map, List.length_range, List.length_take, hdl]
    omega
  · intro k hk1 hk2
    rw [List.length_map, List.length_range] at hk1
    rw [List.getElem_map, List.getElem_range, List.getElem_take,
      ← List.getD_eq_getElem _ 0, hdata k (by omega)]

/-- The UMID and ST branches of `ibus_handle_headunit_state` in closed form, when every
search answers as `strstr` on `text`. -/
theorem ibus_handle_headunit_state_text (x : IbusCore) (text : List Nat)
    (hc : ∀ tag, ibus_data_contains x tag = some (strstr_found text tag))
    (hr : runs_text_search x) :
    ibus_handle_headunit_state x =
      some (ibus_change_state x
        (if ibus_get_message x = IBUS_MSG_UMID then umid_text_state text x.ibus_state
          else st_text_state text x.ibus_state)) := by
  obtain ⟨h1, h2, h3, hg, h5⟩ := hr
  unfold ibus_handle_headunit_state
  rw [if_pos ⟨h1, h2⟩]
  dsimp only
  rcases h3 with h3 | h3
  · rw [if_pos h3, if_pos ⟨hg, h5⟩, hc, hc, hc, if_pos h3]
    simp only [Option.some_bind]
    unfold umid_text_state
    cases strstr_found text (tag_bytes "AUX")
    · cases strstr_found text (tag_bytes "CDC")
      · cases strstr_found text (tag_bytes "TAPE")
        · simp [ibus_change_state_self]
        · simp
      · simp
    · simp
  · have hne : ¬ ibus_get_message x = IBUS_MSG_UMID := by rw [h3]; decide
    rw [if_neg hne, if_pos h3, if_pos ⟨hg, h5⟩, hc, hc, hc, hc, if_neg hne]
    simp only [Option.some_bind]
    unfold st_text_state
    cases strstr_found text (tag_bytes "RDS")
    · cases strstr_found text (tag_bytes "FM")
      · cases strstr_found text (tag_bytes "REG")
        · cases strstr_found text (tag_bytes "MWA")
          · simp [ibus_change_state_self]
          · simp
        · simp
      · simp
    · simp

/-- When no text search is run, `ibus_handle_headunit_state` reads the header and the
first data byte only. -/
theorem ibus_handle_headunit_state_no_search (x : IbusCore) (hn : ¬ runs_text_search x) :
    ibus_handle_headunit_state x =
      some (if ibus_get_sender x = IBUS_DEV_RAD ∧ ibus_get_receiver x = IBUS_DEV_GT ∧
          ibus_get_message x = IBUS_MSG_LCDC ∧ ibus_get_data_length x = 1 ∧
          (ibus_get_data_byte x 0 = 0x01 ∨ ibus_get_data_byte x 0 = 0x02)
        then ibus_change_state x IBUS_STATE_MENU else x) := by
  unfold ibus_handle_headunit_state
  dsimp only
  by_cases hsr : ibus_get_sender x = IBUS_DEV_RAD ∧ ibus_get_receiver x = IBUS_DEV_GT
  · rw [if_pos hsr]
    by_cases hu : ibus_get_message x = IBUS_MSG_UMID
    · have hg : ¬ (ibus_get_data_length x > 0 ∧ ibus_get_data_byte x 0 = 0x62) :=
        fun g => hn ⟨hsr.1, hsr.2, Or.inl hu, g.1, g.2⟩
      rw [if_pos hu, if_neg hg, if_neg]
      rintro ⟨-, -, hl, -⟩
      rw [hu] at hl
      exact absurd hl (by decide)
    · rw [if_neg hu]
      by_cases hs : ibus_get_message x = IBUS_MSG_ST
      · have hg : ¬ (ibus_get_data_length x > 0 ∧ ibus_get_data_byte x 0 = 0x62) :=
          fun g => hn ⟨hsr.1, hsr.2, Or.inr hs, g.1, g.2⟩
        rw [if_pos hs, if_neg hg, if_neg]
        rintro ⟨-, -, hl, -⟩
        rw [hs] at hl
        exact absurd hl (by decide)
      · rw [if_neg hs]
        by_cases hl : ibus_get_message x = IBUS_MSG_LCDC
        · rw [if_pos hl]
          by_cases h1 : ibus_get_data_length x = 1
          · rw [if_pos h1]
            by_cases hd : ibus_get_data_byte x 0 = 0x01 ∨ ibus_get_data_byte x 0 = 0x02
            · rw [if_pos hd, if_pos ⟨hsr.1, hsr.2, hl, h1, hd⟩]
            · rw [if_neg hd, if_neg (fun g => hd g.2.2.2.2)]
          · rw [if_neg h1, if_neg (fun g => h1 g.2.2.2.1)]
        · rw [if_neg hl, if_neg (fun g => hl g.2.2.1)]
  · rw [if_neg hsr, if_neg (fun g => hsr ⟨g.1, g.2.1⟩)]

theorem runs_text_search_with_buffer_of (x b : IbusCore)
    (h0 : b.ibus_data 0 = x.ibus_data 0) (h1 : b.ibus_data 1 = x.ibus_data 1)
    (h2 : b.ibus_data 2 = x.ibus_data 2) (h3 : b.ibus_data 3 = x.ibus_data 3)
    (h4 : b.ibus_data 4 = x.ibus_data 4) :
    runs_text_search (with_buffer_of x b) ↔ runs_text_search x := by
  have e0 : ibus_get_sender (with_buffer_of x b) = ibus_get_sender x := h0
  have e2 : ibus_get_receiver (with_buffer_of x b) = ibus_get_receiver x := h2
  have e3 : ibus_get_message (with_buffer_of x b) = ibus_get_message x := h3
  have e1 := ibus_get_data_length_with_buffer_of x b h1
  have e4 : ibus_get_data_byte (with_buffer_of x b) 0 = ibus_get_data_byte x 0 := h4
  unfold runs_text_search
  rw [e0, e1, e2, e3, e4]

theorem ibus_handle_headunit_state_with_buffer_of_no_search (x b : IbusCore)
    (h0 : b.ibus_data 0 = x.ibus_data 0) (h1 : b.ibus_data 1 = x.ibus_data 1)
    (h2 : b.ibus_data 2 = x.ibus_data 2) (h3 : b.ibus_data 3 = x.ibus_data 3)
    (h4 : b.ibus_data 4 = x.ibus_data 4) (hn : ¬ runs_text_search x) :
    ibus_handle_headunit_state (with_buffer_of x b) =
      (ibus_handle_headunit_state x).map (fun z => with_buffer_of z b) := by
  have e0 : ibus_get_sender (with_buffer_of x b) = ibus_get_sender x := h0
  have e2 : ibus_get_receiver (with_buffer_of x b) = ibus_get_receiver x := h2
  have e3 : ibus_get_message (with_buffer_of x b) = ibus_get_message x := h3
  have e1 := ibus_get_data_length_with_buffer_of x b h1
  have e4 : ibus_get_data_byte (with_buffer_of x b) 0 = ibus_get_data_byte x 0 := h4
  rw [ibus_handle_headunit_state_no_search x hn,
    ibus_handle_headunit_state_no_search (with_buffer_of x b)
      (fun hc => hn ((runs_text_search_with_buffer_of x b h0 h1 h2 h3 h4).1 hc)),
    e0, e1, e2, e3, e4, Option.map_some']
  by_cases hc : ibus_get_sender x = IBUS_DEV_RAD ∧ ibus_get_receiver x = IBUS_DEV_GT ∧
      ibus_get_message x = IBUS_MSG_LCDC ∧ ibus_get_data_length x = 1 ∧
      (ibus_get_data_byte x 0 = 0x01 ∨ ibus_get_data_byte x 0 = 0x02)
  · rw [if_pos hc, if_pos hc, ibus_change_state_with_buffer_of]
  · rw [if_neg hc, if_neg hc]

theorem ibus_dispatch_with_buffer_of_no_search (x b : IbusCore)
    (h0 : b.ibus_data 0 = x.ibus_data 0) (h1 : b.ibus_data 1 = x.ibus_data 1)
    (h2 : b.ibus_data 2 = x.ibus_data 2) (h3 : b.ibus_data 3 = x.ibus_data 3)
    (h4 : b.ibus_data 4 = x.ibus_data 4)
    (h5 : ibus_get_data_length x ≥ 2 → b.ibus_data 5 = x.ibus_data 5)
    (hn : ¬ runs_text_search x) :
    ibus_dispatch (with_buffer_of x b) = (ibus_dispatch x).map (fun z => with_buffer_of z b) := by
  unfold ibus_dispatch
  dsimp only
  rw [ibus_handle_buttons_with_buffer_of x b h0 h1 h2 h3 h4 h5]
  have hb := dispatched_handle_buttons x
  have hd : (ibus_handle_buttons x).ibus_data = x.ibus_data := hb.1
  have hhj : (with_buffer_of (ibus_handle_buttons x) b).ibus_hijack_state =
      (ibus_handle_buttons x).ibus_hijack_state := rfl
  rw [hhj]
  split
  · apply ibus_handle_headunit_state_with_buffer_of_no_search
    · rw [hd]; exact h0
    · rw [hd]; exact h1
    · rw [hd]; exact h2
    · rw [hd]; exact h3
    · rw [hd]; exact h4
    · intro hc
      apply hn
      unfold runs_text_search ibus_get_sender ibus_get_receiver ibus_get_message
        ibus_get_data_length ibus_get_message_length ibus_get_data_byte at hc ⊢
      rw [hd] at hc
      exact hc
  · rfl

/-- On a checksum-valid frame at the start of the buffer the search is run exactly when the
frame is a text frame. -/
theorem runs_text_search_iff {s x : IbusCore} {f rest : List Nat} (h : holds s (f ++ rest))
    (hf : valid_frame f) (hx : x.ibus_data = s.ibus_data) :
    runs_text_search x ↔ text_frame f := by
  obtain ⟨hv0, hv2, hv3, hvl, hvd⟩ := frame_view h hf hx
  have h5 := hf.2.1
  unfold runs_text_search text_frame
  rw [hv0, hv2, hv3, hvl]
  constructor
  · rintro ⟨a, b, c, d, e⟩
    refine ⟨a, b, c, by omega, ?_⟩
    rw [← hvd 0 (by omega)]
    exact e
  · rintro ⟨a, b, c, d, e⟩
    refine ⟨a, b, c, by omega, ?_⟩
    rw [hvd 0 (by omega)]
    exact e

theorem ibus_process_pass_frame_of_dispatch {s s3 : IbusCore} {f rest : List Nat}
    (hb : bytes_ok s) (h : holds s (f ++ rest)) (hf : valid_frame f)
    (hd : ibus_dispatch (ibus_platform_log_message s f.length) = some s3) :
    ibus_process_pass s = Pass.again (ibus_remove_message s3 f.length) := by
  obtain ⟨-, h5, h255, hlenf, hckf⟩ := hf
  have h1 : s.ibus_data IBUS_POS_LENGTH = f.getD 1 0 := holds_data_front h 1 (by omega)
  have hlen : ibus_get_message_length s = f.length :=
    ibus_get_message_length_eq s f.length (by rw [h1]; exact hlenf) h255
  have hci : (f.length + 256 - 1) % 256 = f.length - 1 := by omega
  have hidx : f.length ≤ s.ibus_data_index := by
    rw [h.1, List.length_append]; omega
  have hck : ibus_calc_checksum s (f.length - 1) = s.ibus_data (f.length - 1) := by
    rw [ibus_calc_checksum_eq s hb, buffer_slice_eq_of_holds h _ (by omega),
      holds_data_front h _ (by omega), hckf]
  have := ibus_process_pass_valid s s3 (by unfold IBUS_MIN_MESSAGE_LEN; omega)
    (by rw [hlen]; exact hidx) (by rw [hlen, hci]; exact hck) (by rw [hlen]; exact hd)
  rwa [hlen] at this

/-- The dispatch of a checksum-valid frame gives the same head-unit state and the same hook
calls on a decoder `A` that holds the frame alone as on a decoder `B` that holds it followed
by further bytes, provided that, if the frame is a text frame and the hijack target is not
Unknown, the text search on `B` stays inside the array and asks for the same state. -/
theorem ibus_dispatch_frame_congr_text {A B : IbusCore} {f rb : List Nat}
    (hA : holds A f) (hB : holds B (f ++ rb)) (hf : valid_frame f)
    (hlB : (f ++ rb).length ≤ IBUS_DATA_SIZE)
    (hst : A.ibus_state = B.ibus_state) (hhj : A.ibus_hijack_state = B.ibus_hijack_state)
    (hcalls : A.platform_calls = B.platform_calls)
    (hag : A.ibus_hijack_state = IBUS_STATE_UNKNOWN ∨
      (text_frame f → search_fits (f ++ rb) ∧
        ∀ st, text_frame_state f (searched_text (f ++ rb)) st =
          text_frame_state f (searched_text f) st)) :
    ∃ a3, ibus_dispatch (ibus_platform_log_message A f.length) = some a3 ∧
      ibus_dispatch (ibus_platform_log_message B f.length) = some (with_buffer_of a3 B) := by
  have hA2 : holds A (f ++ []) := by rw [List.append_nil]; exact hA
  have h5 := hf.2.1
  have h255 := hf.2.2.1
  have hlenf := hf.2.2.2.1
  have hsA : search_in_bounds A := search_in_bounds_of_holds hA
    (by unfold IBUS_POS_DATA_START; omega)
    (by unfold IBUS_DATA_SIZE IBUS_MAX_MESSAGE_LEN; omega)
  obtain ⟨a3, ha3⟩ := search_in_bounds_dispatch (ibus_platform_log_message A f.length) hsA
  refine ⟨a3, ha3, ?_⟩
  by_cases hu : A.ibus_hijack_state = IBUS_STATE_UNKNOWN
  · exact ibus_dispatch_frame_congr hA2 hB hf hst hhj hcalls (Or.inl hu) a3 ha3
  have hag2 := hag.resolve_left hu
  have hagd : ∀ i, i < f.length → B.ibus_data i = A.ibus_data i := by
    intro i hi
    rw [holds_data_front hA2 i hi, holds_data_front hB i hi]
  have hlog : with_buffer_of (ibus_platform_log_message A f.length) B =
      ibus_platform_log_message B f.length :=
    with_buffer_of_self (ibus_platform_log_message A f.length)
      (ibus_platform_log_message B f.length) hst hhj
      (by rw [log_message_calls_of_holds hA2, log_message_calls_of_holds hB, hcalls])
  have hlenA : ibus_get_message_length A = f.length :=
    ibus_get_message_length_eq A f.length
      (by rw [show A.ibus_data IBUS_POS_LENGTH = f.getD 1 0 from holds_data_front hA2 1 (by omega)]
          exact hlenf) h255
  have hiff := runs_text_search_iff hA2 hf (x := ibus_platform_log_message A f.length) rfl
  by_cases htf : text_frame f
  · obtain ⟨hfit, hsame⟩ := hag2 htf
    have hrA : runs_text_search (ibus_platform_log_message A f.length) := hiff.2 htf
    have hrB : runs_text_search (ibus_platform_log_message B f.length) :=
      (runs_text_search_iff hB hf (x := ibus_platform_log_message B f.length) rfl).2 htf
    obtain ⟨hv0, -, hv3, -, -⟩ :=
      frame_view hA2 hf (x := ibus_platform_log_message A f.length) rfl
    obtain ⟨hw0, -, hw3, -, -⟩ :=
      frame_view hB hf (x := ibus_platform_log_message B f.length) rfl
    have hcA : ∀ tag, ibus_data_contains (ibus_platform_log_message A f.length) tag =
        some (strstr_found (searched_text f) tag) := fun tag =>
      ibus_data_contains_of_fits tag hA (by unfold IBUS_POS_DATA_START; omega)
        (by unfold IBUS_DATA_SIZE IBUS_MAX_MESSAGE_LEN; omega)
        (Or.inl (by unfold IBUS_DATA_SIZE IBUS_MAX_MESSAGE_LEN; omega)) rfl
    have hcB : ∀ tag, ibus_data_contains (ibus_platform_log_message B f.length) tag =
        some (strstr_found (searched_text (f ++ rb)) tag) := fun tag =>
      ibus_data_contains_of_fits tag hB
        (by rw [List.length_append]; unfold IBUS_POS_DATA_START; omega) hlB hfit rfl
    have hsR : f.getD 0 0 = 0x68 := htf.1
    have dispA : ibus_dispatch (ibus_platform_log_message A f.length) =
        ibus_handle_headunit_state (ibus_platform_log_message A f.length) := by
      unfold ibus_dispatch
      dsimp only
      rw [ibus_handle_buttons_other_sender _ (by rw [hv0, hsR]; decide)
        (by rw [hv0, hsR]; decide)]
      exact if_pos hu
    have dispB : ibus_dispatch (ibus_platform_log_message B f.length) =
        ibus_handle_headunit_state (ibus_platform_log_message B f.length) := by
      unfold ibus_dispatch
      dsimp only
      rw [ibus_handle_buttons_other_sender _ (by rw [hw0, hsR]; decide)
        (by rw [hw0, hsR]; decide)]
      exact if_pos (fun hc => hu (hhj.trans hc))
    rw [dispA, ibus_handle_headunit_state_text _ _ hcA hrA, hv3] at ha3
    rw [dispB, ibus_handle_headunit_state_text _ _ hcB hrB, hw3]
    cases ha3
    have hsB : (ibus_platform_log_message B f.length).ibus_state =
        (ibus_platform_log_message A f.length).ibus_state := hst.symm
    have ht := hsame (ibus_platform_log_message A f.length).ibus_state
    unfold text_frame_state at ht
    rw [hsB, ht, ← hlog, ibus_change_state_with_buffer_of]
  · have hnA : ¬ runs_text_search (ibus_platform_log_message A f.length) :=
      fun hc => htf (hiff.1 hc)
    rw [← hlog, ibus_dispatch_with_buffer_of_no_search (ibus_platform_log_message A f.length) B
      (hagd 0 (by omega)) (hagd 1 (by omega)) (hagd 2 (by omega)) (hagd 3 (by omega))
      (hagd 4 (by omega)) ?_ hnA, ha3]
    · rfl
    · intro hdl
      apply hagd
      have hdl2 : ibus_get_data_length A ≥ 2 := hdl
      unfold ibus_get_data_length IBUS_MIN_MESSAGE_LEN at hdl2
      rw [hlenA] at hdl2
      dsimp only at hdl2
      split at hdl2 <;> omega

theorem ibus_feed_draining_one_frame_alone (e : IbusCore) (f : List Nat)
    (hbe : bytes_ok e) (he : e.ibus_data_index = 0) (hz : zero_tail e) (hf : valid_frame f)
    (a3 : IbusCore)
    (ha3 : ibus_dispatch (ibus_platform_log_message (ibus_feed e f) f.length) = some a3) :
    ibus_feed_draining e f = Drain.returned (ibus_remove_message a3 f.length) := by
  have h5 := hf.2.1
  have h255 := hf.2.2.1
  have hne : f ≠ [] := by
    intro h
    rw [h] at h5
    simp at h5
  have hsz : f.length ≤ IBUS_DATA_SIZE := by
    unfold IBUS_DATA_SIZE IBUS_MAX_MESSAGE_LEN; omega
  have hS : holds (ibus_feed e f) f := ibus_feed_holds f e he hz hf.1 hsz
  have hbS : bytes_ok (ibus_feed e f) := ibus_feed_bytes_ok f e hbe (by omega)
  have hsS : search_in_bounds (ibus_feed e f) := search_in_bounds_of_holds hS
    (by unfold IBUS_POS_DATA_START; omega)
    (by unfold IBUS_DATA_SIZE IBUS_MAX_MESSAGE_LEN; omega)
  have hsplit : f.dropLast ++ [f.getLast hne] = f := List.dropLast_append_getLast hne
  have hpre := ibus_feed_draining_incomplete e f.dropLast he hz
    (incomplete_candidate_of_frame hf hsplit.symm (by simp))
  have key := ibus_feed_draining_append f.dropLast [f.getLast hne] e _ hpre
  rw [hsplit] at key
  rw [key, ibus_feed_draining_cons]
  have happ : ibus_append_byte (ibus_feed e f.dropLast) (f.getLast hne) = ibus_feed e f := by
    conv_rhs => rw [← hsplit, ibus_feed_append]
    rfl
  rw [happ, ibus_process_messages_one_frame hbS hS hf hsS a3 ha3]
  rfl

/-- Byte-at-a-time delivery against one drain of the whole buffer, for back-to-back
checksum-valid frames followed by an incomplete remainder, when the text search of every
text frame asks for the same state with and without the bytes that follow the frame. -/
theorem ibus_feed_draining_vs_bulk_text (tail : List Nat) (htail : incomplete_candidate tail)
    (frames : List (List Nat)) :
    ∀ (e b : IbusCore), bytes_ok e → e.ibus_data_index = 0 → zero_tail e →
      bytes_ok b → holds b (frames.flatten ++ tail) →
      (frames.flatten ++ tail).length ≤ IBUS_DATA_SIZE →
      e.ibus_state = b.ibus_state → e.ibus_hijack_state = b.ibus_hijack_state →
      e.platform_calls = b.platform_calls →
      (∀ f ∈ frames, valid_frame f) →
      (e.ibus_hijack_state = IBUS_STATE_UNKNOWN ∨ text_agrees frames tail) →
      ∃ s1 s2, ibus_feed_draining e (frames.flatten ++ tail) = Drain.returned s1 ∧
        ibus_process_messages b = Drain.returned s2 ∧
        s1.platform_calls = s2.platform_calls ∧ s1.ibus_state = s2.ibus_state ∧
        s1.ibus_data_index = tail.length ∧ s2.ibus_data_index = tail.length := by
  induction frames with
  | nil =>
    intro e b _ he hze _ hB _ hst _ hc _ _
    rw [List.flatten_nil, List.nil_append] at hB ⊢
    have hlen : tail.length ≤ IBUS_DATA_SIZE := by
      unfold IBUS_DATA_SIZE IBUS_MAX_MESSAGE_LEN
      rcases htail.2 with h | h <;> omega
    obtain ⟨hi, hs, -, hcalls, -⟩ := ibus_feed_spec tail e (by omega)
    refine ⟨ibus_feed e tail, b, ibus_feed_draining_incomplete e tail he hze htail,
      ibus_process_messages_holds_incomplete hB htail, hcalls.trans hc, hs.trans hst,
      by omega, hB.1⟩
  | cons f rest ih =>
    intro e b hbe he hze hbb hB hlB hst hhj hc hv hag
    rw [List.flatten_cons, List.append_assoc] at hB hlB ⊢
    have hf := hv f (List.mem_cons_self _ _)
    have h5 := hf.2.1
    have h255 := hf.2.2.1
    have hsz : f.length ≤ IBUS_DATA_SIZE := by
      unfold IBUS_DATA_SIZE IBUS_MAX_MESSAGE_LEN; omega
    have hA : holds (ibus_feed e f) f := ibus_feed_holds f e he hze hf.1 hsz
    obtain ⟨-, hstA, hhjA, hcA, -⟩ := ibus_feed_spec f e (by omega)
    have hbA : bytes_ok (ibus_feed e f) := ibus_feed_bytes_ok f e hbe (by omega)
    have hA2 : holds (ibus_feed e f) (f ++ []) := by rw [List.append_nil]; exact hA
    have hag_f : (ibus_feed e f).ibus_hijack_state = IBUS_STATE_UNKNOWN ∨
        (text_frame f → search_fits (f ++ (rest.flatten ++ tail)) ∧
          ∀ st, text_frame_state f (searched_text (f ++ (rest.flatten ++ tail))) st =
            text_frame_state f (searched_text f) st) := by
      rcases hag with hu | ht
      · exact Or.inl (hhjA.trans hu)
      · exact Or.inr ht.1
    obtain ⟨a3, ha3, hdB⟩ := ibus_dispatch_frame_congr_text hA hB hf hlB (hstA.trans hst)
      (hhjA.trans hhj) (hcA.trans hc) hag_f
    have hfd := ibus_feed_draining_one_frame_alone e f hbe he hze hf a3 ha3
    obtain ⟨hd3, hi3, hh3, -⟩ := dispatched_dispatch ha3
    have hp := ibus_process_pass_frame_of_dispatch hbb hB hf hdB
    have hBw : holds (with_buffer_of a3 b) (f ++ (rest.flatten ++ tail)) :=
      holds_of_eq hB rfl rfl
    have hA3 : holds a3 (f ++ []) := holds_of_eq hA2 hd3 hi3
    have hrmB := holds_remove_message hBw
    have hrmA := holds_remove_message hA3
    have hir : (ibus_remove_message (with_buffer_of a3 b) f.length).ibus_data_index
        < b.ibus_data_index := by
      rw [hrmB.1, hB.1, List.length_append f]
      omega
    obtain ⟨s1, s2, h1, h2, h3, h4, h5', h6⟩ := ih (ibus_remove_message a3 f.length)
      (ibus_remove_message (with_buffer_of a3 b) f.length)
      (bytes_ok_remove_message _ _ (bytes_ok_of_eq hbA hd3))
      (by simpa using hrmA.1) hrmA.2.2
      (bytes_ok_remove_message _ _ (bytes_ok_of_eq hbb rfl))
      hrmB (by rw [List.length_append f] at hlB; omega) rfl rfl rfl
      (fun g hg => hv g (List.mem_cons_of_mem _ hg))
      (by
        rcases hag with hu | ht
        · left
          show a3.ibus_hijack_state = IBUS_STATE_UNKNOWN
          rw [hh3]
          exact hhjA.trans hu
        · exact Or.inr ht.2)
    refine ⟨s1, s2, ?_, ?_, h3, h4, h5', h6⟩
    · rw [ibus_feed_draining_append f (rest.flatten ++ tail) e _ hfd]
      exact h1
    · unfold ibus_process_messages
      rw [ibus_process_loop_succ_pos _ b (by rw [hB.1, List.length_append]; omega), hp]
      dsimp only
      rw [ibus_process_messages_eq_loop _ _ hir]
      exact h2

theorem takeWhile_append_of_stop (p : Nat → Bool) :
    ∀ (l r : List Nat), (∃ x ∈ l, p x = false) →
      (l ++ r).takeWhile p = l.takeWhile p := by
  intro l
  induction l with
  | nil =>
    intro r h
    obtain ⟨x, hx, -⟩ := h
    cases hx
  | cons a l ih =>
    intro r h
    rw [List.cons_append, List.takeWhile_cons, List.takeWhile_cons]
    cases hpa : p a
    · rfl
    · obtain ⟨x, hx, hpx⟩ := h
      rcases List.mem_cons.mp hx with rfl | hx
      · rw [hpa] at hpx
        cases hpx
      · simp only [if_true]
        rw [ih r ⟨x, hx, hpx⟩]

/-- A frame with a zero byte at the data offset or later is searched up to that byte, with
or without further bytes behind it. -/
theorem searched_text_append_of_zero (f r : List Nat)
    (h : ∃ z, IBUS_POS_DATA_START ≤ z ∧ z < f.length ∧ f.getD z 0 = 0) :
    searched_text (f ++ r) = searched_text f := by
  obtain ⟨z, hz1, hz2, hz0⟩ := h
  unfold searched_text
  rw [List.drop_append_of_le_length (by omega)]
  apply takeWhile_append_of_stop
  refine ⟨f.getD z 0, ?_, by rw [hz0]; rfl⟩
  rw [List.getD_eq_getElem _ _ hz2]
  have hz3 : z - IBUS_POS_DATA_START < (f.drop IBUS_POS_DATA_START).length := by
    rw [List.length_drop]; omega
  have : (f.drop IBUS_POS_DATA_START)[z - IBUS_POS_DATA_START] = f[z] := by
    rw [List.getElem_drop]
    congr 1
    omega
  rw [← this]
  exact List.getElem_mem _

/-- Frames that each hold a zero byte at the data offset or later agree in the sense of
`text_agrees`, whatever follows them. -/
theorem text_agrees_of_zero (tail : List Nat) :
    ∀ frames : List (List Nat),
      (∀ f ∈ frames, ∃ z, IBUS_POS_DATA_START ≤ z ∧ z < f.length ∧ f.getD z 0 = 0) →
      text_agrees frames tail := by
  intro frames
  induction frames with
  | nil => intro _; trivial
  | cons f rest ih =>
    intro h
    obtain ⟨z, hz1, hz2, hz0⟩ := h f (List.mem_cons_self _ _)
    refine ⟨fun _ => ⟨Or.inr ⟨z, hz1, by rw [List.length_append]; omega, ?_⟩, ?_⟩,
      ih (fun g hg => h g (List.mem_cons_of_mem _ hg))⟩
    · rw [List.getD_append _ _ _ _ hz2]
      exact hz0
    · intro st
      rw [searched_text_append_of_zero f _ ⟨z, hz1, hz2, hz0⟩]

/-- C6 (amended): for every hijack target and every byte sequence no longer than the
buffer capacity that consists of back-to-back checksum-valid frames, each of total length
5..255, followed by an incomplete remainder (fewer than 5 bytes, or fewer bytes than its
length byte, at most 253, plus 2), fed after `ibus_init`: appending and draining byte by
byte produces the same sequence of hook calls as appending all bytes and draining once,
provided that, when the hijack target is not Unknown, for every text frame of the sequence
(Radio to GraphicsDriver, id 0x23 or 0xA5, data[0] = 0x62) the text search asks for the same
state on the frame alone as on the frame with the rest of the sequence behind it, and stays
inside the array. -/
theorem C6_frames_byte_by_byte_equals_bulk (s0 : IbusCore) (hj : ibus_state_t)
    (frames : List (List Nat)) (tail : List Nat) (h0 : bytes_ok s0)
    (hv : ∀ f ∈ frames, valid_frame f) (htail : incomplete_candidate tail)
    (hlen : (frames.flatten ++ tail).length ≤ IBUS_DATA_SIZE)
    (hag : hj = IBUS_STATE_UNKNOWN ∨ text_agrees frames tail) :
    ∃ s1 s2,
      ibus_feed_draining (ibus_init s0 hj) (frames.flatten ++ tail) = Drain.returned s1 ∧
      ibus_process_messages (ibus_feed (ibus_init s0 hj) (frames.flatten ++ tail))
        = Drain.returned s2 ∧
      s1.platform_calls = s2.platform_calls := by
  obtain ⟨hi0, hz0, -, hh0, -⟩ := ibus_init_spec s0 hj
  have hb0 := bytes_ok_init s0 hj h0
  have hbytes : ∀ x ∈ frames.flatten ++ tail, x < 256 := by
    intro x hx
    rcases List.mem_append.mp hx with hx | hx
    · obtain ⟨f, hf, hxf⟩ := List.mem_flatten.mp hx
      exact (hv f hf).1 x hxf
    · exact htail.1 x hx
  obtain ⟨-, hst, hhj, hc, -⟩ := ibus_feed_spec (frames.flatten ++ tail) (ibus_init s0 hj)
    (by rw [hi0]; omega)
  obtain ⟨s1, s2, h1, h2, h3, -⟩ := ibus_feed_draining_vs_bulk_text tail htail frames
    (ibus_init s0 hj) (ibus_feed (ibus_init s0 hj) (frames.flatten ++ tail)) hb0 hi0 hz0
    (ibus_feed_bytes_ok _ _ hb0 (by rw [hi0]; omega))
    (ibus_feed_holds _ _ hi0 hz0 hbytes hlen) hlen hst.symm hhj.symm hc.symm hv
    (by rw [hh0]; exact hag)
  exact ⟨s1, s2, h1, h2, h3⟩

/-- C6 (amended) at a concrete input, hijack target Aux: the text frame
`68 07 3B 23 62 41 55 58 59` (data 0x62 'A' 'U' 'X', no zero byte), the radio-power press
`F0 04 68 48 06 D2`, and the first six bytes of a further frame. -/
theorem C6_witness :
    ∃ s1 s2,
      ibus_feed_draining (ibus_init ibus_startup IBUS_STATE_AUX)
        ([[0x68, 0x07, 0x3B, 0x23, 0x62, 0x41, 0x55, 0x58, 0x59],
          [0xF0, 0x04, 0x68, 0x48, 0x06, 0xD2]].flatten ++ [0x68, 8, 0x3B, 0x23, 0x62, 0x41])
        = Drain.returned s1 ∧
      ibus_process_messages (ibus_feed (ibus_init ibus_startup IBUS_STATE_AUX)
        ([[0x68, 0x07, 0x3B, 0x23, 0x62, 0x41, 0x55, 0x58, 0x59],
          [0xF0, 0x04, 0x68, 0x48, 0x06, 0xD2]].flatten ++ [0x68, 8, 0x3B, 0x23, 0x62, 0x41]))
        = Drain.returned s2 ∧
      s1.platform_calls = s2.platform_calls :=
  C6_frames_byte_by_byte_equals_bulk ibus_startup IBUS_STATE_AUX
    [[0x68, 0x07, 0x3B, 0x23, 0x62, 0x41, 0x55, 0x58, 0x59], [0xF0, 0x04, 0x68, 0x48, 0x06, 0xD2]]
    [0x68, 8, 0x3B, 0x23, 0x62, 0x41]
    bytes_ok_startup (by decide) (by decide) (by decide)
    (Or.inr ⟨fun _ => ⟨Or.inl (by decide), fun _ => rfl⟩,
      fun h => absurd h (by decide), trivial⟩)

end Ibus
